import Mathlib

/-!
mini-websocket: frame codec, connection engine and handshake.

A shallow embedding of `dispatch/protocol.go`, `server/conn.go`, `tool/tool.go`
and `server/shakeHand.go`.

Conventions of the embedding:
* a byte is a `Nat` below 256, a byte slice is a `List Nat`;
* the unsigned fields of `Frame` are `Nat`s, and every Go operation that can
  overflow its machine type is followed by an explicit `% 2 ^ w`;
* a Go `error` result is an `Option Err` (`none` is `nil`);
* the connection is an explicit state that is passed through every call;
* a Go string is a `String`, its length the number of bytes of its UTF-8 form.
-/

namespace MiniWebsocket

/-! ## encoding/binary, big endian -/

/-- The bytes `binary.BigEndian.PutUint16` stores for `v`. -/
def PutUint16 (v : Nat) : List Nat :=
  [(v >>> 8) % 256, v % 256]

/-- The bytes `binary.BigEndian.PutUint32` stores for `v`. -/
def PutUint32 (v : Nat) : List Nat :=
  [(v >>> 24) % 256, (v >>> 16) % 256, (v >>> 8) % 256, v % 256]

/-- The bytes `binary.BigEndian.PutUint64` stores for `v`. -/
def PutUint64 (v : Nat) : List Nat :=
  [(v >>> 56) % 256, (v >>> 48) % 256, (v >>> 40) % 256, (v >>> 32) % 256,
   (v >>> 24) % 256, (v >>> 16) % 256, (v >>> 8) % 256, v % 256]

/-- The value `binary.BigEndian.Uint16` reads: `uint16(b[1]) | uint16(b[0])<<8`. -/
def Uint16 (b : List Nat) : Nat :=
  b.getD 1 0 ||| (b.getD 0 0 <<< 8)

/-- The value `binary.BigEndian.Uint32` reads. -/
def Uint32 (b : List Nat) : Nat :=
  b.getD 3 0 ||| (b.getD 2 0 <<< 8) ||| (b.getD 1 0 <<< 16) ||| (b.getD 0 0 <<< 24)

/-- The value `binary.BigEndian.Uint64` reads. -/
def Uint64 (b : List Nat) : Nat :=
  b.getD 7 0 ||| (b.getD 6 0 <<< 8) ||| (b.getD 5 0 <<< 16) ||| (b.getD 4 0 <<< 24) |||
    (b.getD 3 0 <<< 32) ||| (b.getD 2 0 <<< 40) ||| (b.getD 1 0 <<< 48) ||| (b.getD 0 0 <<< 56)

/-- The number a big-endian byte string denotes. -/
def beValue (bs : List Nat) : Nat :=
  bs.foldl (fun acc b => acc * 256 + b) 0

/-! ## dispatch/protocol.go -/

/-- Close codes. -/
def CloseRight : Nat := 1000
def CloseAsideLeaving : Nat := 1001
def CloseWrongProtocol : Nat := 1002
def CloseNotAccept : Nat := 1003
def CloseAbnormal : Nat := 1006
def CloseDifferentMsgType : Nat := 1007
def CloseTooBigData : Nat := 1009

/-- Modelled from the spec: the close code of an internal error, which
`conn.go` names `dispatch.CloseInternalError` and `protocol.go` does not
declare; the spec lists it as 1011. -/
def CloseInternalError : Nat := 1011

/-- The UTF-8 encoding of one code point (the one Go uses for string bytes). -/
def utf8EncodeNat (c : Nat) : List Nat :=
  if c < 0x80 then [c]
  else if c < 0x800 then [0xC0 + c / 64, 0x80 + c % 64]
  else if c < 0x10000 then [0xE0 + c / 4096, 0x80 + c / 64 % 64, 0x80 + c % 64]
  else [0xF0 + c / 262144, 0x80 + c / 4096 % 64, 0x80 + c / 64 % 64, 0x80 + c % 64]

/-- The bytes of a Go string: `[]byte(s)`. -/
def stringBytes (s : String) : List Nat :=
  (s.toList.map Char.toNat).flatMap utf8EncodeNat

/-- The map `closeErrorMap`, as the list of its entries. -/
def closeErrorMap : List (Nat × String) :=
  [(CloseRight, "正常，关闭连接"),
   (CloseAsideLeaving, "服务器关闭或浏览器已离开页面，关闭连接"),
   (CloseWrongProtocol, "协议错误，关闭连接"),
   (CloseNotAccept, "浏览器或服务器接收到不能接受的数据，关闭连接"),
   (CloseAbnormal, "未发送关闭帧，关闭连接"),
   (CloseDifferentMsgType, "消息类型不一致，关闭连接"),
   (CloseTooBigData, "消息太大，关闭连接")]

/-- The reason text of a close code; a code that is not in the map gives the
empty string, as a Go map lookup does. -/
def Error (code : Nat) : String :=
  match closeErrorMap.lookup code with
  | some s => s
  | none => ""

def maxControlFramePayloadByteSize : Nat := 125

/-- Opcodes (`MessageType`, a `uint16`). -/
def NoFrame : Nat := 0xFFFF
def ContinuationFrame : Nat := 0x0
def TextFrame : Nat := 0x1
def BinaryFrame : Nat := 0x2
def ConnectionCloseFrame : Nat := 0x8
def PingFrame : Nat := 0x9
def PongFrame : Nat := 0xA

/-- One frame. `Fin` to `PayloadExtendLen16` are `uint16`, `PayloadExtendLen64`
is `uint64`, `MaskingKey` is `uint32`. -/
structure Frame where
  Fin : Nat
  RSV1 : Nat
  RSV2 : Nat
  RSV3 : Nat
  OpCode : Nat
  Mask : Nat
  PayloadLen : Nat
  PayloadExtendLen16 : Nat
  PayloadExtendLen64 : Nat
  MaskingKey : Nat
  Payload : List Nat
deriving DecidableEq, Repr

/-- Every error value the engine can return. `EOF` is `io.EOF`, `errWrite` is
an error of the buffered writer, `errInvalidOpcode` is the `fmt.Errorf` of
`sendDataFrame`, `goPanic` is a run-time panic that unwinds the call, and
`outOfFuel` marks a model run that was given too little fuel. -/
inductive Err where
  | errFrameFin
  | errFrameRSV1
  | errFrameRSV2
  | errFrameRSV3
  | errFrameOpCode
  | errFrameMask
  | errFramePayloadLen
  | errFramePayloadLen16
  | errFramePayloadLen64
  | EOF
  | errWrite
  | errInvalidOpcode
  | goPanic
  | outOfFuel
deriving DecidableEq, Repr

/-- The check of a frame before it is serialised or after its header is read;
the payload is not looked at. -/
def CheckFrameWithoutPayload (frame : Frame) : Option Err :=
  if !(frame.Fin == 1 || frame.Fin == 0) then some Err.errFrameFin
  else if !(frame.RSV1 == 1 || frame.RSV1 == 0) then some Err.errFrameRSV1
  else if !(frame.RSV2 == 1 || frame.RSV2 == 0) then some Err.errFrameRSV2
  else if !(frame.RSV3 == 1 || frame.RSV3 == 0) then some Err.errFrameRSV3
  else if frame.OpCode > 15 then some Err.errFrameOpCode
  else if !(frame.Mask == 1 || frame.Mask == 0) then some Err.errFrameMask
  else if !(frame.PayloadLen > 0 && frame.PayloadLen <= 125) then
    if frame.PayloadLen = 126 then
      if frame.PayloadExtendLen16 = 0 then some Err.errFramePayloadLen16 else none
    else if frame.PayloadLen = 127 then
      if frame.PayloadExtendLen64 = 0 then some Err.errFramePayloadLen64 else none
    else some Err.errFramePayloadLen
  else none

/-- The first sixteen bits of a serialised frame, built in a `uint16`. -/
def headerPart1 (frame : Frame) : Nat :=
  (frame.Fin <<< 15) % 65536 ||| (frame.RSV1 <<< 14) % 65536 |||
    (frame.RSV2 <<< 13) % 65536 ||| (frame.RSV3 <<< 12) % 65536 |||
    (frame.OpCode <<< 8) % 65536 ||| (frame.Mask <<< 7) % 65536 ||| frame.PayloadLen

/-- Serialise a frame. -/
def FrameToBytes (frame : Frame) : List Nat :=
  let buf := PutUint16 (headerPart1 frame)
  let buf :=
    if frame.PayloadLen = 126 then buf ++ PutUint16 frame.PayloadExtendLen16
    else if frame.PayloadLen = 127 then buf ++ PutUint64 frame.PayloadExtendLen64
    else buf
  let buf := if frame.Mask = 1 then buf ++ PutUint32 frame.MaskingKey else buf
  buf ++ frame.Payload

/-- Read the two header bytes into a fresh frame. -/
def ParseToFrameHeader (frameBytes : List Nat) : Frame :=
  let part1 := Uint16 (frameBytes.take 2)
  { Fin := (part1 &&& 0x8000) >>> 15
    RSV1 := (part1 &&& 0x4000) >>> 14
    RSV2 := (part1 &&& 0x2000) >>> 13
    RSV3 := (part1 &&& 0x1000) >>> 12
    OpCode := (part1 &&& 0x0f00) >>> 8
    Mask := (part1 &&& 0x0080) >>> 7
    PayloadLen := part1 &&& 0x007f
    PayloadExtendLen16 := 0
    PayloadExtendLen64 := 0
    MaskingKey := 0
    Payload := [] }

namespace Frame

/-- The four bytes of the masking key, most significant first. -/
def masks (f : Frame) : List Nat :=
  [(f.MaskingKey >>> 24) &&& 0x00FF, (f.MaskingKey >>> 16) &&& 0x00FF,
   (f.MaskingKey >>> 8) &&& 0x00FF, f.MaskingKey &&& 0x00FF]

/-- XOR every payload byte with the key byte of its index modulo four. -/
def MaskPayload (f : Frame) : Frame :=
  { f with Payload := f.Payload.mapIdx (fun i v => v ^^^ f.masks.getD (i % 4) 0) }

/-- Set the three length fields from the payload. -/
def CalcPayloadLen (f : Frame) : Frame :=
  let payloadLen := f.Payload.length % 2 ^ 64
  if payloadLen <= 125 then
    { f with PayloadLen := payloadLen % 65536, PayloadExtendLen16 := 0, PayloadExtendLen64 := 0 }
  else if payloadLen <= 65535 then
    { f with PayloadLen := 126, PayloadExtendLen16 := payloadLen % 65536, PayloadExtendLen64 := 0 }
  else
    { f with PayloadLen := 127, PayloadExtendLen16 := 0, PayloadExtendLen64 := payloadLen }

/-- Store the payload, masked when the frame is a masked one, and set the
length fields. -/
def SetPayload (f : Frame) (payload : List Nat) : Frame :=
  let f := { f with Payload := payload }
  let f := if f.Mask = 1 then f.MaskPayload else f
  f.CalcPayloadLen

def IsFinal (f : Frame) : Bool :=
  f.Fin == 1

end Frame

/-! ## server/conn.go -/

def SendCriticalSize : Nat := 1024 * 1000 * 2
def shardSize : Nat := 65535

/-- Connection states (`iota + 1`). -/
def Connecting : Nat := 1
def Connected : Nat := 2
def Closing : Nat := 3
def Closed : Nat := 4

/-- The largest capacity `make([]byte, 0, n)` accepts (linux/amd64); a larger
one panics. -/
def maxAlloc : Nat := 2 ^ 48

/-- A connection made by `NewWsConn` over a `net.Conn` that is not nil, with
the part of the world it talks to.
* `rd`: the bytes `BufRD` still delivers, in order; after them comes `io.EOF`.
* `wire`: the bytes `BufWR` has handed to `Conn`, oldest first.
* `wrBudget`: how many more bytes `Conn` accepts before its `Write` starts to
  fail (`none`: it never fails). A failed write is sticky, as in `bufio.Writer`.
* `released`: `Conn.Close()` has been called.
* `rand`: the values the next calls of `rand.Uint32()` return (`0` past its end).
-/
structure WsConn where
  rd : List Nat
  wire : List Nat
  wrBudget : Option Nat
  released : Bool
  rand : List Nat
  State : Nat
  IsServer : Bool
  CompressLevel : Int
deriving DecidableEq, Repr

/-- Take `n` bytes from the buffered reader: `Peek(n)`, then `Discard`. With
fewer than `n` bytes left `Peek` reports `io.EOF` and nothing is consumed. -/
def read (wc : WsConn) (n : Nat) : List Nat × Option Err × WsConn :=
  if wc.rd.length < n then ([], some Err.EOF, wc)
  else (wc.rd.take n, none, { wc with rd := wc.rd.drop n })

/-- The two writer calls of `sendFrame`, `BufWR.Write(frameBytes)` and then
`BufWR.Flush()`: all of the bytes reach `Conn`, or `Conn` fails part of the way. -/
def write (wc : WsConn) (frameBytes : List Nat) : Option Err × WsConn :=
  if wc.released then (some Err.errWrite, wc)
  else
    match wc.wrBudget with
    | none => (none, { wc with wire := wc.wire ++ frameBytes })
    | some k =>
      if frameBytes.length ≤ k then
        (none, { wc with wire := wc.wire ++ frameBytes, wrBudget := some (k - frameBytes.length) })
      else
        (some Err.errWrite, { wc with wire := wc.wire ++ frameBytes.take k, wrBudget := some 0 })

/-- Draw the masking key of a frame from the random source. -/
def Frame.CreateMaskingKey (f : Frame) (rand : List Nat) : Frame × List Nat :=
  ({ f with MaskingKey := rand.headD 0 % 2 ^ 32 }, rand.tail)

def constructFrame (rand : List Nat) (msgType : Nat) (final : Bool) (noMask : Bool) :
    Frame × List Nat :=
  let fin := if !final then 0 else 1
  let mask := if noMask then 0 else 1
  let frame : Frame :=
    { Fin := fin, RSV1 := 0, RSV2 := 0, RSV3 := 0, OpCode := msgType % 65536, Mask := mask,
      PayloadLen := 0, PayloadExtendLen16 := 0, PayloadExtendLen64 := 0, MaskingKey := 0,
      Payload := [] }
  if frame.Mask = 1 then frame.CreateMaskingKey rand else (frame, rand)

/-- Build a data frame. The frame shares the payload slice: `SetPayload` masks
it in place. -/
def constructDataFrame (rand : List Nat) (payload : List Nat) (noMask : Bool) (msgType : Nat) :
    Frame × List Nat :=
  let final := msgType != ContinuationFrame
  let (frame, rand) := constructFrame rand msgType final noMask
  (frame.SetPayload payload, rand)

/-- Build a control frame. -/
def constructControlFrame (rand : List Nat) (msgType : Nat) (isServer : Bool)
    (payload : List Nat) : Frame × List Nat :=
  let (frame, rand) := constructFrame rand msgType true isServer
  if payload.length > 0 then (frame.SetPayload payload, rand) else (frame, rand)

mutual
/-- Check a frame, serialise it, write it and flush. A frame that fails the
check closes the connection with `CloseWrongProtocol`. The first argument is
the fuel of the model: the depth of calls that is left. -/
def sendFrame : Nat → WsConn → Frame → Option Err × WsConn
  | 0, wc, _ => (some Err.outOfFuel, wc)
  | fuel + 1, wc, frame =>
    match CheckFrameWithoutPayload frame with
    | some err =>
      match close fuel wc CloseWrongProtocol with
      | (some err2, wc) => (some err2, wc)
      | (none, wc) => (some err, wc)
    | none => write wc (FrameToBytes frame)
/-- Send one control frame (ping, pong, close). -/
def sendControlFrame : Nat → WsConn → Nat → List Nat → Option Err × WsConn
  | 0, wc, _, _ => (some Err.outOfFuel, wc)
  | fuel + 1, wc, msgType, payload =>
    let (frame, rand) := constructControlFrame wc.rand msgType wc.IsServer payload
    sendFrame fuel { wc with rand := rand } frame
/-- Send the close frame of `closeCode`, then close the TCP connection and set
the state to `Closed`. When the close frame cannot be sent the function
returns at once. `Conn` is not nil here: the frame went through it. -/
def close : Nat → WsConn → Nat → Option Err × WsConn
  | 0, wc, _ => (some Err.outOfFuel, wc)
  | fuel + 1, wc, closeCode =>
    let p := PutUint16 (closeCode % 65536) ++ stringBytes (Error closeCode)
    let wc := { wc with State := Closing }
    match sendControlFrame fuel wc ConnectionCloseFrame p with
    | (some err, wc) => (some err, wc)
    | (none, wc) => (none, { wc with State := Closed, released := true })
end

namespace WsConn

def CloseRight (fuel : Nat) (wc : WsConn) : Option Err × WsConn :=
  close fuel wc MiniWebsocket.CloseRight

def CloseAsideLeaving (fuel : Nat) (wc : WsConn) : Option Err × WsConn :=
  close fuel wc MiniWebsocket.CloseAsideLeaving

def CloseWrongProtocol (fuel : Nat) (wc : WsConn) : Option Err × WsConn :=
  close fuel wc MiniWebsocket.CloseWrongProtocol

def CloseNotAccept (fuel : Nat) (wc : WsConn) : Option Err × WsConn :=
  close fuel wc MiniWebsocket.CloseNotAccept

def CloseAbnormal (fuel : Nat) (wc : WsConn) : Option Err × WsConn :=
  close fuel wc MiniWebsocket.CloseAbnormal

def CloseDifferentMsgType (fuel : Nat) (wc : WsConn) : Option Err × WsConn :=
  close fuel wc MiniWebsocket.CloseDifferentMsgType

def CloseInternalError (fuel : Nat) (wc : WsConn) : Option Err × WsConn :=
  close fuel wc MiniWebsocket.CloseInternalError

def CloseTooBigData (fuel : Nat) (wc : WsConn) : Option Err × WsConn :=
  close fuel wc MiniWebsocket.CloseTooBigData

def Ping (fuel : Nat) (wc : WsConn) : Option Err × WsConn :=
  sendControlFrame fuel wc PingFrame (stringBytes "ping")

def Pong (fuel : Nat) (wc : WsConn) (pingPayload : List Nat) : Option Err × WsConn :=
  sendControlFrame fuel wc PongFrame pingPayload

/-- Answer a ping with a pong that carries the payload of the ping frame. -/
def ReplyPing (fuel : Nat) (wc : WsConn) (frame : Frame) : Option Err × WsConn :=
  wc.Pong fuel frame.Payload

/-- Answer a pong. -/
def ReplyPong (fuel : Nat) (wc : WsConn) : Option Err × WsConn :=
  wc.Ping fuel

end WsConn

/-- The payload loop of `readFrame`: while more than `shardSize` bytes remain,
read `shardSize` of them. The first argument bounds the number of rounds. -/
def readShards : Nat → WsConn → Nat → List Nat → List Nat × Nat × Option Err × WsConn
  | 0, wc, remainBytesNum, payload => (payload, remainBytesNum, some Err.outOfFuel, wc)
  | n + 1, wc, remainBytesNum, payload =>
    if remainBytesNum > shardSize then
      match read wc shardSize with
      | (_, some err, wc) => (payload, remainBytesNum, some err, wc)
      | (p, none, wc) => readShards n wc (remainBytesNum - shardSize) (payload ++ p)
    else (payload, remainBytesNum, none, wc)

/-- The part of `readFrame` after the header: the switch on `PayloadLen` that
reads the extended length. The result is the frame, `remainBytesNum`, the
error and the connection. -/
def readExtendLen (wc : WsConn) (frameWithoutPayload : Frame) :
    Frame × Nat × Option Err × WsConn :=
  let remainBytesNum := frameWithoutPayload.PayloadLen
  if frameWithoutPayload.PayloadLen = 126 then
    match read wc 2 with
    | (_, some err, wc) => (frameWithoutPayload, remainBytesNum, some err, wc)
    | (p, none, wc) =>
      let payloadExtLen16 := Uint16 (p.take 2)
      ({ frameWithoutPayload with PayloadExtendLen16 := payloadExtLen16 },
        payloadExtLen16, none, wc)
  else if frameWithoutPayload.PayloadLen = 127 then
    match read wc 8 with
    | (_, some err, wc) => (frameWithoutPayload, remainBytesNum, some err, wc)
    | (p, none, wc) =>
      let payloadExtLen64 := Uint64 (p.take 8)
      ({ frameWithoutPayload with PayloadExtendLen64 := payloadExtLen64 },
        payloadExtLen64, none, wc)
  else (frameWithoutPayload, remainBytesNum, none, wc)

/-- The part of `readFrame` that reads the masking key of a masked frame. -/
def readMaskingKey (wc : WsConn) (frameWithoutPayload : Frame) : Frame × Option Err × WsConn :=
  if frameWithoutPayload.Mask = 1 then
    match read wc 4 with
    | (_, some err, wc) => (frameWithoutPayload, some err, wc)
    | (p, none, wc) => ({ frameWithoutPayload with MaskingKey := Uint32 p }, none, wc)
  else (frameWithoutPayload, none, wc)

/-- The part of `readFrame` that reads the payload: `make([]byte, 0,
remainBytesNum)`, the loop over the shards, and the read of what remains. -/
def readPayload (wc : WsConn) (remainBytesNum : Nat) : List Nat × Option Err × WsConn :=
  if remainBytesNum > maxAlloc then ([], some Err.goPanic, wc)
  else
    match readShards (remainBytesNum / shardSize + 1) wc remainBytesNum [] with
    | (_, _, some err, wc) => ([], some err, wc)
    | (payload, remainBytesNum, none, wc) =>
      match read wc remainBytesNum with
      | (_, some err, wc) => ([], some err, wc)
      | (p, none, wc) => (payload ++ p, none, wc)

/-- The last part of `readFrame`: the switch on the opcode, which answers a
ping, a pong or a close frame. The payload slice of a ping frame is the one
the pong frame is built on, so on a client-role connection it comes back
masked with the key of the pong. -/
def handleOpCode (fuel : Nat) (wc : WsConn) (frameWithoutPayload : Frame) :
    Frame × Option Err × WsConn :=
  if frameWithoutPayload.OpCode = TextFrame ∨ frameWithoutPayload.OpCode = BinaryFrame
      ∨ frameWithoutPayload.OpCode = ContinuationFrame then
    (frameWithoutPayload, none, wc)
  else if frameWithoutPayload.OpCode = PingFrame then
    let shared :=
      (constructControlFrame wc.rand PongFrame wc.IsServer frameWithoutPayload.Payload).1.Payload
    let (err, wc) := wc.ReplyPing fuel frameWithoutPayload
    ({ frameWithoutPayload with Payload := shared }, err, wc)
  else if frameWithoutPayload.OpCode = PongFrame then
    let (err, wc) := wc.ReplyPong fuel
    (frameWithoutPayload, err, wc)
  else if frameWithoutPayload.OpCode = ConnectionCloseFrame then
    let (err, wc) := wc.CloseRight fuel
    (frameWithoutPayload, err, wc)
  else
    let (err, wc) := wc.CloseNotAccept fuel
    (frameWithoutPayload, err, wc)

/-- Read one whole frame from the byte stream: the header, the extended
length, the masking key, the check, the payload, and the switch on the opcode.
The result is the frame (if any) and the error (if any). -/
def readFrame (fuel : Nat) (wc : WsConn) : Option Frame × Option Err × WsConn :=
  match read wc 2 with
  | (_, some err, wc) => (none, some err, wc)
  | (p, none, wc) =>
    let frameWithoutPayload := ParseToFrameHeader p
    match readExtendLen wc frameWithoutPayload with
    | (_, _, some err, wc) => (none, some err, wc)
    | (frameWithoutPayload, remainBytesNum, none, wc) =>
      match readMaskingKey wc frameWithoutPayload with
      | (_, some err, wc) => (none, some err, wc)
      | (frameWithoutPayload, none, wc) =>
        match CheckFrameWithoutPayload frameWithoutPayload with
        | some err =>
          match wc.CloseWrongProtocol fuel with
          | (some err2, wc) => (none, some err2, wc)
          | (none, wc) => (none, some err, wc)
        | none =>
          match readPayload wc remainBytesNum with
          | (_, some err, wc) => (none, some err, wc)
          | (payload, none, wc) =>
            let frameWithoutPayload := { frameWithoutPayload with Payload := payload }
            match handleOpCode fuel wc frameWithoutPayload with
            | (frameWithoutPayload, err, wc) => (some frameWithoutPayload, err, wc)

/-- The loop of `ReadMessage`: while the last frame read is not final, read
the next frame, unmask it and add its payload to the buffer. The first
argument is the fuel handed to `readFrame`, the second bounds the rounds. -/
def readRest (fuel : Nat) : Nat → WsConn → Frame → List Nat → List Nat × Option Err × WsConn
  | 0, wc, _, buf => (buf, some Err.outOfFuel, wc)
  | n + 1, wc, frame, buf =>
    if !frame.IsFinal then
      match readFrame fuel wc with
      | (some frame, none, wc) =>
        let frame := frame.MaskPayload
        readRest fuel n wc frame (buf ++ frame.Payload)
      | (_, some err, wc) => (buf, some err, wc)
      | (none, none, wc) => (buf, some Err.goPanic, wc)
    else (buf, none, wc)

/-- Read one message: the type of its first frame and the payloads of its
frames, joined. -/
def WsConn.ReadMessage (fuel : Nat) (wc : WsConn) : Nat × List Nat × Option Err × WsConn :=
  match readFrame fuel wc with
  | (_, some err, wc) => (NoFrame, [], some err, wc)
  | (none, none, wc) => (NoFrame, [], some Err.goPanic, wc)
  | (some frame, none, wc) =>
    let mt := frame.OpCode
    let frame := frame.MaskPayload
    match readRest fuel fuel wc frame frame.Payload with
    | (_, some err, wc) => (NoFrame, [], some err, wc)
    | (buf, none, wc) => (mt, buf, none, wc)

/-- Cut a large payload into frames of `shardSize` bytes and a rest. The
result is `none` when the Go code panics (an index into an empty slice). -/
def fragmentDataFrames (rand : List Nat) (data : List Nat) (noMask : Bool) (opcode : Nat) :
    Option (List Frame × List Nat) :=
  let s := data.length
  let n := s / shardSize
  let loop : List Frame × List Nat :=
    (List.range' 1 n).foldl
      (fun acc i =>
        let start := (i - 1) * shardSize
        let stop := i * shardSize
        let (frame, rand) :=
          constructDataFrame acc.2 ((data.take stop).drop start) noMask ContinuationFrame
        (acc.1 ++ [frame], rand))
      ([], rand)
  let stop := n * shardSize
  let (frames, rand) :=
    if stop < s then
      let (frame, rand) := constructDataFrame loop.2 (data.drop stop) noMask ContinuationFrame
      (loop.1 ++ [frame], rand)
    else loop
  if frames.length = 0 then none
  else
    let frames := frames.modify (fun f => { f with OpCode := opcode % 65536 }) 0
    let frames := frames.modify (fun f => { f with Fin := 1 }) (frames.length - 1)
    some (frames, rand)

/-- Send the frames of a fragmented message in order, stopping at the first
error. -/
def sendFrames (fuel : Nat) : WsConn → List Frame → Option Err × WsConn
  | wc, [] => (none, wc)
  | wc, frame :: frames =>
    match sendFrame fuel wc frame with
    | (some err, wc) => (some err, wc)
    | (none, wc) => sendFrames fuel wc frames

/-- Send a text or binary message. -/
def sendDataFrame (fuel : Nat) (wc : WsConn) (data : List Nat) (opcode : Nat) :
    Option Err × WsConn :=
  if !(opcode = TextFrame ∨ opcode = BinaryFrame) then (some Err.errInvalidOpcode, wc)
  else if data.length > SendCriticalSize then wc.CloseTooBigData fuel
  else if data.length > shardSize then
    match fragmentDataFrames wc.rand data wc.IsServer opcode with
    | none => (some Err.goPanic, wc)
    | some (frames, rand) => sendFrames fuel { wc with rand := rand } frames
  else
    let (frame, rand) := constructDataFrame wc.rand data wc.IsServer opcode
    sendFrame fuel { wc with rand := rand } frame

namespace WsConn

/-- Send a text message. -/
def SendMessage (fuel : Nat) (wc : WsConn) (text : List Nat) : Option Err × WsConn :=
  sendDataFrame fuel wc text TextFrame

/-- Send a binary message; `r` is what `ioutil.ReadAll` delivers. -/
def SendBinary (fuel : Nat) (wc : WsConn) (r : List Nat) : Option Err × WsConn :=
  sendDataFrame fuel wc r BinaryFrame

end WsConn

/-- A connection as `UpGrade` hands it over (state `Connected`, nothing
written yet, a writer that does not fail), for a given role, with the bytes
the peer has sent and the values the random source will give. -/
def newConn (isServer : Bool) (rd rand : List Nat) : WsConn :=
  { rd := rd, wire := [], wrBudget := none, released := false, rand := rand, State := Connected,
    IsServer := isServer, CompressLevel := 0 }

/-- The part of `readFrame` before the switch on the opcode: the header, the
extended length, the masking key, the check and the payload. -/
def readFrameBeforeSwitch (fuel : Nat) (wc : WsConn) : Option Frame × Option Err × WsConn :=
  match read wc 2 with
  | (_, some err, wc) => (none, some err, wc)
  | (p, none, wc) =>
    let frameWithoutPayload := ParseToFrameHeader p
    match readExtendLen wc frameWithoutPayload with
    | (_, _, some err, wc) => (none, some err, wc)
    | (frameWithoutPayload, remainBytesNum, none, wc) =>
      match readMaskingKey wc frameWithoutPayload with
      | (_, some err, wc) => (none, some err, wc)
      | (frameWithoutPayload, none, wc) =>
        match CheckFrameWithoutPayload frameWithoutPayload with
        | some err =>
          match wc.CloseWrongProtocol fuel with
          | (some err2, wc) => (none, some err2, wc)
          | (none, wc) => (none, some err, wc)
        | none =>
          match readPayload wc remainBytesNum with
          | (_, some err, wc) => (none, some err, wc)
          | (payload, none, wc) => (some { frameWithoutPayload with Payload := payload }, none, wc)

/-! ## net/http, crypto/sha1 and encoding/base64, as far as the handshake uses them -/

/-- The number of bytes of a string: Go's `len`. -/
def strLen (s : String) : Nat :=
  (stringBytes s).length

/-- An `http.Header`: the values of each header field, under its canonical key. -/
abbrev Header := List (String × List String)

/-- The bytes a header key may consist of: letters, digits and the other
token characters of RFC 7230. -/
def validHeaderFieldByte (c : Nat) : Bool :=
  (48 ≤ c && c ≤ 57) || (65 ≤ c && c ≤ 90) || (97 ≤ c && c ≤ 122) ||
    [33, 35, 36, 37, 38, 39, 42, 43, 45, 46, 94, 95, 96, 124, 126].contains c

/-- The letter case of a canonical key: upper case at the start and after a
hyphen, lower case elsewhere. -/
def canonicalChars : Bool → List Char → List Char
  | _, [] => []
  | upper, c :: cs =>
    let n := c.toNat
    let n := if upper && 97 ≤ n && n ≤ 122 then n - 32
      else if !upper && 65 ≤ n && n ≤ 90 then n + 32 else n
    Char.ofNat n :: canonicalChars (n == 45) cs

/-- The canonical form of a header key, `http.CanonicalHeaderKey`: a key with a
byte that is not a token character is returned unchanged. -/
def CanonicalHeaderKey (s : String) : String :=
  if s.toList.all (fun c => validHeaderFieldByte c.toNat) then
    String.mk (canonicalChars true s.toList)
  else s

/-- The map access `header[key]`: the values stored under `key`, none if the
key is absent. -/
def Header.values (h : Header) (key : String) : List String :=
  (h.lookup key).getD []

/-- The first value of a header field, the empty string if there is none:
`Header.Get`. -/
def Header.Get (h : Header) (key : String) : String :=
  match h.values (CanonicalHeaderKey key) with
  | [] => ""
  | v :: _ => v

/-- Rotate a 32-bit word to the left: `bits.RotateLeft32`. -/
def rotateLeft32 (x k : Nat) : Nat :=
  ((x <<< k) ||| (x >>> (32 - k))) % 2 ^ 32

/-- The message followed by the padding of SHA-1: the byte `0x80`, zero bytes
up to 56 modulo 64, and the length in bits as 64 bits, big endian. -/
def sha1Pad (msg : List Nat) : List Nat :=
  let len := msg.length
  let n := if len % 64 < 56 then 56 - len % 64 else 64 + 56 - len % 64
  msg ++ (0x80 :: List.replicate (n - 1) 0) ++ PutUint64 (len * 8 % 2 ^ 64)

/-- The first `n` big-endian 32-bit words of a block. -/
def sha1Words (p : List Nat) : Nat → List Nat
  | 0 => []
  | n + 1 => Uint32 (p.take 4) :: sha1Words (p.drop 4) n

/-- Extend the message schedule by `n` words. -/
def sha1Extend (w : List Nat) : Nat → List Nat
  | 0 => w
  | n + 1 =>
    let i := w.length
    sha1Extend (w ++ [rotateLeft32 (w.getD (i - 3) 0 ^^^ w.getD (i - 8) 0 ^^^ w.getD (i - 14) 0
      ^^^ w.getD (i - 16) 0) 1]) n

/-- The round function of round `i`. -/
def sha1F (i b c d : Nat) : Nat :=
  if i < 20 then (b &&& c) ||| ((b ^^^ 0xFFFFFFFF) &&& d)
  else if i < 40 then b ^^^ c ^^^ d
  else if i < 60 then ((b ||| c) &&& d) ||| (b &&& c)
  else b ^^^ c ^^^ d

/-- The round constant of round `i`. -/
def sha1K (i : Nat) : Nat :=
  if i < 20 then 0x5A827999 else if i < 40 then 0x6ED9EBA1
  else if i < 60 then 0x8F1BBCDC else 0xCA62C1D6

/-- The rounds of one block, one for each word of the schedule. -/
def sha1Rounds : List Nat → Nat → Nat → Nat → Nat → Nat → Nat → List Nat
  | [], _, a, b, c, d, e => [a, b, c, d, e]
  | w :: ws, i, a, b, c, d, e =>
    sha1Rounds ws (i + 1) ((rotateLeft32 a 5 + sha1F i b c d + e + w + sha1K i) % 2 ^ 32) a
      (rotateLeft32 b 30) c d

/-- The digest state after one more block of 64 bytes. -/
def sha1Block (h : List Nat) (p : List Nat) : List Nat :=
  let r := sha1Rounds (sha1Extend (sha1Words p 16) 64) 0
    (h.getD 0 0) (h.getD 1 0) (h.getD 2 0) (h.getD 3 0) (h.getD 4 0)
  List.zipWith (fun x y => (x + y) % 2 ^ 32) h r

/-- The digest state after `n` more blocks. -/
def sha1Blocks (h : List Nat) (p : List Nat) : Nat → List Nat
  | 0 => h
  | n + 1 => sha1Blocks (sha1Block h (p.take 64)) (p.drop 64) n

/-- The 20 bytes of the SHA-1 digest of a message (FIPS 180-4): what
`sha1.New()`, `Write(msg)` and `Sum(nil)` give. -/
def sha1Sum (msg : List Nat) : List Nat :=
  let p := sha1Pad msg
  (sha1Blocks [0x67452301, 0xEFCDAB89, 0x98BADCFE, 0x10325476, 0xC3D2E1F0] p
    (p.length / 64)).flatMap PutUint32

/-- The alphabet of `base64.StdEncoding`. -/
def encodeStd : String :=
  "ABCDEFGHIJKLMNOPQRSTUVWXYZabcdefghijklmnopqrstuvwxyz0123456789+/"

/-- The character for a 6-bit value. -/
def base64Char (v : Nat) : Char :=
  encodeStd.toList.getD v '='

/-- The characters of `base64.StdEncoding.EncodeToString` (RFC 4648, padded
with `=`). -/
def base64Chars : List Nat → List Char
  | a :: b :: c :: rest =>
    base64Char (a / 4) :: base64Char (a % 4 * 16 + b / 16) :: base64Char (b % 16 * 4 + c / 64)
      :: base64Char (c % 64) :: base64Chars rest
  | [a, b] => [base64Char (a / 4), base64Char (a % 4 * 16 + b / 16), base64Char (b % 16 * 4), '=']
  | [a] => [base64Char (a / 4), base64Char (a % 4 * 16), '=', '=']
  | [] => []

/-- The string `base64.StdEncoding.EncodeToString` returns. -/
def base64Encode (src : List Nat) : String :=
  String.mk (base64Chars src)

def StatusBadRequest : Nat := 400
def StatusForbidden : Nat := 403
def StatusMethodNotAllowed : Nat := 405
def StatusUpgradeRequired : Nat := 426
def StatusInternalServerError : Nat := 500
def MethodGet : String := "GET"

/-- The two fields of a `url.URL` that the origin check compares. -/
structure URL where
  Scheme : String
  Host : String
deriving DecidableEq, Repr

/-- The fields of an `http.Request` that the handshake reads. -/
structure Request where
  Method : String
  URL : URL
  Header : Header
  Host : String
deriving DecidableEq, Repr

/-- The network connection behind a response writer: the bytes it still
delivers, the bytes written to it, how many more bytes it accepts (`none`:
any number), and whether it has been closed. -/
structure NetConn where
  rd : List Nat
  wire : List Nat
  wrBudget : Option Nat
  released : Bool
deriving DecidableEq, Repr

/-- An `http.ResponseWriter` as the handshake sees it: whether it is an
`http.Hijacker`, and the connection `Hijack()` hands out (`none`: `Hijack`
returns an error). -/
structure ResponseWriter where
  hijacker : Bool
  Hijack : Option NetConn
deriving DecidableEq, Repr

/-- The buffered writes of the response followed by `brw.Flush()`: all of the
bytes reach the connection, or its `Write` fails part of the way. -/
def NetConn.flush (c : NetConn) (bytes : List Nat) : Option Err × NetConn :=
  if c.released then (some Err.errWrite, c)
  else
    match c.wrBudget with
    | none => (none, { c with wire := c.wire ++ bytes })
    | some k =>
      if bytes.length ≤ k then
        (none, { c with wire := c.wire ++ bytes, wrBudget := some (k - bytes.length) })
      else
        (some Err.errWrite, { c with wire := c.wire ++ bytes.take k, wrBudget := some 0 })

/-! ## tool/tool.go -/

def GUID : String := "258EAFA5-E914-47DA-95CA-C5AB0DC85B11"

/-- Whether the header has the value `expectV` under the key `expectK`: one of
the values stored under the canonical key is equal to `expectV`. -/
def IsWsHeader (header : Header) (expectK expectV : String) : Bool :=
  let expectK := CanonicalHeaderKey expectK
  (header.values expectK).any (fun v => v == expectV)

/-- The key check: `len(str) == 24`. -/
def IsSWK (str : String) : Bool :=
  strLen str == 24

/-- The accept token for a key. -/
def EncodeSWK (swk : String) : String :=
  base64Encode (sha1Sum (stringBytes (swk ++ GUID)))

/-! ## server/shakeHand.go -/

/-- One second, in nanoseconds. -/
def minHandshakeTimeout : Int := 1000000000
def minReadBufferSize : Int := 65535
def minWriteBufferSize : Int := 65535
def maxReadBufferSize : Int := 65535 * 10
def maxWriteBufferSize : Int := 65535 * 10
def NoCompression : Int := 0
def BestCompression : Int := 9
def HuffmanOnly : Int := -2

/-- The upgrader. Its `OnError` callback only writes the error response; the
status it is called with is kept in the result of `UpGrade`. -/
structure upGrader where
  HandshakeTimeout : Int
  ReadBufferSize : Int
  WriteBufferSize : Int
  CheckOrigin : Request → Bool
  CompressLevel : Int

def DefaultUpGrader : upGrader :=
  { HandshakeTimeout := minHandshakeTimeout, ReadBufferSize := minReadBufferSize,
    WriteBufferSize := minWriteBufferSize, CheckOrigin := fun _ => true, CompressLevel := 0 }

/-- The origin check that `NewUpGrader` installs when it is given none. The
first argument stands for `URL.Parse` of net/url: the URL a reference resolves
to against a base, `none` when it does not parse. -/
def defaultCheckOrigin (Parse : URL → String → Option URL) (r : Request) : Bool :=
  let origin := r.Header.Get "Origin"
  if strLen origin == 0 then true
  else
    match Parse r.URL origin with
    | none => false
    | some url => url.Scheme == r.URL.Scheme && url.Host == r.Host

/-- Build an upgrader; `checkOrigin = none` is Go's `nil`. -/
def NewUpGrader (Parse : URL → String → Option URL) (handshakeTimeout RBufSize WBufSize : Int)
    (checkOrigin : Option (Request → Bool)) (compressLevel : Int) : upGrader :=
  let checkOrigin := match checkOrigin with
    | none => defaultCheckOrigin Parse
    | some f => f
  let handshakeTimeout :=
    if handshakeTimeout < minHandshakeTimeout then minHandshakeTimeout else handshakeTimeout
  let RBufSize :=
    if RBufSize < minReadBufferSize || RBufSize > maxReadBufferSize then minReadBufferSize
    else RBufSize
  let WBufSize :=
    if WBufSize < minWriteBufferSize || WBufSize > maxWriteBufferSize then minWriteBufferSize
    else WBufSize
  let compressLevel :=
    if compressLevel < HuffmanOnly || compressLevel > BestCompression then NoCompression
    else compressLevel
  { HandshakeTimeout := handshakeTimeout, ReadBufferSize := RBufSize, WriteBufferSize := WBufSize,
    CheckOrigin := checkOrigin, CompressLevel := compressLevel }

/-- The connection object over a network connection, in state `Connecting`.
The sizes of the two buffers (clamped to their range in the source) do not
show in the model; `rand` gives the values of the random source. -/
def NewWsConn (netConn : NetConn) (rand : List Nat) (isServer : Bool)
    (ReadBufferSize WriteBufferSize : Int) (compressLevel : Int) : WsConn :=
  { rd := netConn.rd, wire := netConn.wire, wrBudget := netConn.wrBudget,
    released := netConn.released, rand := rand, State := Connecting, IsServer := isServer,
    CompressLevel := compressLevel }

/-- The error `UpGrade` returns: `errors.New(reason)`, or an error of the
connection. -/
inductive UpGradeErr where
  | reason (s : String)
  | conn (e : Err)
deriving DecidableEq, Repr

/-- What a call of `UpGrade` gives: the connection and the error it returns,
and the status `OnError` was called with, if it was called. -/
structure UpGradeResult where
  conn : Option WsConn
  err : Option UpGradeErr
  status : Option Nat
deriving DecidableEq, Repr

/-- Report an error while upgrading: call `OnError`, return no connection. -/
def upGrader.Error (status : Nat) (reason : String) : UpGradeResult :=
  { conn := none, err := some (UpGradeErr.reason reason), status := some status }

/-- The handshake. `elapsed` is the time in nanoseconds between its two
readings of the clock; `fuel` is handed to `CloseAbnormal`. -/
def upGrader.UpGrade (fuel : Nat) (ug : upGrader) (r : Request) (w : ResponseWriter)
    (rand : List Nat) (elapsed : Int) : UpGradeResult :=
  if !IsWsHeader r.Header "Connection" "Upgrade" then
    upGrader.Error StatusBadRequest "'Upgrade' 字段没包含在 'Connection' 字段内"
  else if !IsWsHeader r.Header "Upgrade" "websocket" then
    upGrader.Error StatusBadRequest "'websocket' 没有包含在 'Upgrade' 内"
  else if r.Method != MethodGet then
    upGrader.Error StatusMethodNotAllowed "请求方法不是get方法"
  else if !IsWsHeader r.Header "Sec-Websocket-Version" "13" then
    upGrader.Error StatusUpgradeRequired "请求头不包含服务端支持websocket版本"
  else if !ug.CheckOrigin r then
    upGrader.Error StatusForbidden "不允许跨域"
  else
    let SWK := r.Header.Get "Sec-WebSocket-Key"
    if !IsSWK SWK then
      upGrader.Error StatusBadRequest
        ("请求头应包含Sec-WebSocket-Key字段的24位随机字符串,wrong: " ++ SWK)
    else if !w.hijacker then
      upGrader.Error StatusInternalServerError "不能劫持http请求"
    else
      match w.Hijack with
      | none => upGrader.Error StatusInternalServerError "不能劫持http请求"
      | some netConn =>
        match netConn.flush (stringBytes ("HTTP/1.1 101 Switching Protocols\r\n" ++
          "Connection:upgrade\r\n" ++ "Upgrade:websocket\r\n" ++
          "Sec-WebSocket-Accept:" ++ EncodeSWK SWK ++ "\r\n\r\n")) with
        | (some err, _) => { conn := none, err := some (UpGradeErr.conn err), status := none }
        | (none, netConn) =>
          let wsConn := NewWsConn netConn rand true ug.ReadBufferSize ug.WriteBufferSize ug.CompressLevel
          let wsConn := { wsConn with State := Connected }
          if ug.HandshakeTimeout < elapsed then
            match wsConn.CloseAbnormal fuel with
            | (err, _) => { conn := none, err := err.map UpGradeErr.conn, status := none }
          else { conn := some wsConn, err := none, status := none }

/-! ## Specification-side notions -/

/-- The big-endian representation of `v` in `n` bytes. -/
def beBytes : Nat → Nat → List Nat
  | 0, _ => []
  | n + 1, v => beBytes n (v / 256) ++ [v % 256]

/-- The `j`-th byte of a 32-bit key in big-endian order (`j` from 0 to 3). -/
def keyByte (K j : Nat) : Nat :=
  K / 2 ^ (8 * (3 - j)) % 256

/-- The bytes of the masking key in a serialised frame. -/
def keyBytes (f : Frame) : List Nat :=
  if f.Mask = 1 then beBytes 4 f.MaskingKey else []

/-- The bytes of the extended length in a serialised frame. -/
def extBytes (f : Frame) : List Nat :=
  if f.PayloadLen = 126 then beBytes 2 f.PayloadExtendLen16
  else if f.PayloadLen = 127 then beBytes 8 f.PayloadExtendLen64
  else []

/-- An unmasked frame with the given `Fin`, opcode and payload, its length
fields set from the payload. -/
def plainFrame (fin op : Nat) (p : List Nat) : Frame :=
  Frame.CalcPayloadLen ⟨fin, 0, 0, 0, op, 0, 0, 0, 0, 0, p⟩

/-- The `i`-th fragment of `k` that an unmasked message `data` of type `op`
is cut into. -/
def fragFrame (data : List Nat) (op k i : Nat) : Frame :=
  plainFrame (if i + 1 = k then 1 else 0) (if i = 0 then op else 0)
    ((data.drop (i * shardSize)).take shardSize)

/-- The frames an unmasked message `data` of type `op` is sent as: one final
frame up to `shardSize` bytes, the fragments above it. -/
def sentFrames (data : List Nat) (op : Nat) : List Frame :=
  if data.length ≤ shardSize then [plainFrame 1 op data]
  else
    (List.range ((data.length + (shardSize - 1)) / shardSize)).map
      (fragFrame data op ((data.length + (shardSize - 1)) / shardSize))

/-- A frame that is well formed for the wire and has a payload: header fields
in range, a 32-bit key that is zero on an unmasked frame, length fields as
`CalcPayloadLen` sets them, and a payload that is not empty and that
`make` can hold. -/
structure WellFormed (F : Frame) : Prop where
  fin : F.Fin ≤ 1
  rsv1 : F.RSV1 ≤ 1
  rsv2 : F.RSV2 ≤ 1
  rsv3 : F.RSV3 ≤ 1
  op : F.OpCode ≤ 15
  mask : F.Mask ≤ 1
  key : F.MaskingKey < 2 ^ 32
  key0 : F.Mask = 0 → F.MaskingKey = 0
  len : F.CalcPayloadLen = F
  nonempty : 0 < F.Payload.length
  size : F.Payload.length ≤ maxAlloc

/-- The checks of the handshake in the order the specification lists them,
each with whether the request passes it and the status of its rejection. -/
def handshakeChecks (ug : upGrader) (r : Request) : List (Bool × Nat) :=
  [(IsWsHeader r.Header "Connection" "Upgrade", 400),
   (IsWsHeader r.Header "Upgrade" "websocket", 400),
   (r.Method == "GET", 405),
   (IsWsHeader r.Header "Sec-Websocket-Version" "13", 426),
   (ug.CheckOrigin r, 403),
   (IsSWK (r.Header.Get "Sec-WebSocket-Key"), 400)]

/-- The status of the first check that fails, if one fails. -/
def firstFailure (ug : upGrader) (r : Request) : Option Nat :=
  ((handshakeChecks ug r).find? (fun c => !c.1)).map Prod.snd

/-! ## Bit-level lemmas -/

theorem or_shiftRight (a b k : Nat) : (a ||| b) >>> k = a >>> k ||| b >>> k := by
  apply Nat.eq_of_testBit_eq
  intro i
  simp

theorem or_mod_two_pow (a b k : Nat) : (a ||| b) % 2 ^ k = a % 2 ^ k ||| b % 2 ^ k := by
  apply Nat.eq_of_testBit_eq
  intro i
  simp only [Nat.testBit_mod_two_pow, Nat.testBit_or]
  cases decide (i < k) <;> simp

theorem or_mod_256 (a b : Nat) : (a ||| b) % 256 = a % 256 ||| b % 256 :=
  or_mod_two_pow a b 8

theorem and_255 (x : Nat) : x &&& 255 = x % 256 :=
  Nat.and_pow_two_sub_one_eq_mod x 8

theorem PutUint16_eq (v : Nat) : PutUint16 v = beBytes 2 v := by
  simp [PutUint16, beBytes, Nat.shiftRight_eq_div_pow]

theorem PutUint32_eq (v : Nat) : PutUint32 v = beBytes 4 v := by
  have e1 : v / 256 / 256 / 256 % 256 = v / 2 ^ 24 % 256 := by omega
  have e2 : v / 256 / 256 % 256 = v / 2 ^ 16 % 256 := by omega
  simp [PutUint32, beBytes, Nat.shiftRight_eq_div_pow, e1, e2]

theorem PutUint64_eq (v : Nat) : PutUint64 v = beBytes 8 v := by
  have e1 : v / 256 / 256 / 256 / 256 / 256 / 256 / 256 % 256 = v / 2 ^ 56 % 256 := by omega
  have e2 : v / 256 / 256 / 256 / 256 / 256 / 256 % 256 = v / 2 ^ 48 % 256 := by omega
  have e3 : v / 256 / 256 / 256 / 256 / 256 % 256 = v / 2 ^ 40 % 256 := by omega
  have e4 : v / 256 / 256 / 256 / 256 % 256 = v / 2 ^ 32 % 256 := by omega
  have e5 : v / 256 / 256 / 256 % 256 = v / 2 ^ 24 % 256 := by omega
  have e6 : v / 256 / 256 % 256 = v / 2 ^ 16 % 256 := by omega
  simp [PutUint64, beBytes, Nat.shiftRight_eq_div_pow, e1, e2, e3, e4, e5, e6]

theorem beValue_append_singleton (bs : List Nat) (b : Nat) :
    beValue (bs ++ [b]) = beValue bs * 256 + b := by
  simp [beValue, List.foldl_append]

theorem beValue_beBytes (n v : Nat) : beValue (beBytes n v) = v % 256 ^ n := by
  induction n generalizing v with
  | zero => simp [beBytes, beValue, Nat.mod_one]
  | succ n ih =>
    rw [beBytes, beValue_append_singleton, ih, pow_succ, Nat.mul_comm (256 ^ n) 256, Nat.mod_mul]
    omega

theorem length_beBytes (n v : Nat) : (beBytes n v).length = n := by
  induction n generalizing v with
  | zero => rfl
  | succ n ih => simp [beBytes, ih]

theorem beBytes_lt (n v b : Nat) (h : b ∈ beBytes n v) : b < 256 := by
  induction n generalizing v with
  | zero => simp [beBytes] at h
  | succ n ih =>
    simp only [beBytes, List.mem_append, List.mem_singleton] at h
    rcases h with h | h
    · exact ih _ h
    · omega

theorem masks_getD (f : Frame) (i : Nat) :
    f.masks.getD (i % 4) 0 = keyByte f.MaskingKey (i % 4) := by
  have h : i % 4 < 4 := Nat.mod_lt _ (by decide)
  unfold Frame.masks keyByte
  simp only [and_255, Nat.shiftRight_eq_div_pow]
  interval_cases (i % 4) <;> simp

/-- The two header bytes, for a frame whose fields are in range. -/
theorem header_bytes (f : Frame) (hfin : f.Fin ≤ 1) (h1 : f.RSV1 ≤ 1) (h2 : f.RSV2 ≤ 1)
    (h3 : f.RSV3 ≤ 1) (hop : f.OpCode ≤ 15) (hm : f.Mask ≤ 1) (hl : f.PayloadLen ≤ 127) :
    PutUint16 (headerPart1 f) =
      [f.Fin <<< 7 ||| f.RSV1 <<< 6 ||| f.RSV2 <<< 5 ||| f.RSV3 <<< 4 ||| f.OpCode,
       f.Mask <<< 7 ||| f.PayloadLen] := by
  have e1 : (f.Fin <<< 15 % 65536) >>> 8 % 256 = f.Fin <<< 7 := by
    simp only [Nat.shiftLeft_eq, Nat.shiftRight_eq_div_pow]; omega
  have e2 : (f.RSV1 <<< 14 % 65536) >>> 8 % 256 = f.RSV1 <<< 6 := by
    simp only [Nat.shiftLeft_eq, Nat.shiftRight_eq_div_pow]; omega
  have e3 : (f.RSV2 <<< 13 % 65536) >>> 8 % 256 = f.RSV2 <<< 5 := by
    simp only [Nat.shiftLeft_eq, Nat.shiftRight_eq_div_pow]; omega
  have e4 : (f.RSV3 <<< 12 % 65536) >>> 8 % 256 = f.RSV3 <<< 4 := by
    simp only [Nat.shiftLeft_eq, Nat.shiftRight_eq_div_pow]; omega
  have e5 : (f.OpCode <<< 8 % 65536) >>> 8 % 256 = f.OpCode := by
    simp only [Nat.shiftLeft_eq, Nat.shiftRight_eq_div_pow]; omega
  have e6 : (f.Mask <<< 7 % 65536) >>> 8 % 256 = 0 := by
    simp only [Nat.shiftLeft_eq, Nat.shiftRight_eq_div_pow]; omega
  have e7 : f.PayloadLen >>> 8 % 256 = 0 := by
    simp only [Nat.shiftRight_eq_div_pow]; omega
  have d1 : f.Fin <<< 15 % 65536 % 256 = 0 := by
    simp only [Nat.shiftLeft_eq]; omega
  have d2 : f.RSV1 <<< 14 % 65536 % 256 = 0 := by
    simp only [Nat.shiftLeft_eq]; omega
  have d3 : f.RSV2 <<< 13 % 65536 % 256 = 0 := by
    simp only [Nat.shiftLeft_eq]; omega
  have d4 : f.RSV3 <<< 12 % 65536 % 256 = 0 := by
    simp only [Nat.shiftLeft_eq]; omega
  have d5 : f.OpCode <<< 8 % 65536 % 256 = 0 := by
    simp only [Nat.shiftLeft_eq]; omega
  have d6 : f.Mask <<< 7 % 65536 % 256 = f.Mask <<< 7 := by
    simp only [Nat.shiftLeft_eq]; omega
  have d7 : f.PayloadLen % 256 = f.PayloadLen := by omega
  simp only [PutUint16, headerPart1, or_shiftRight, or_mod_256, e1, e2, e3, e4, e5, e6, e7, d1,
    d2, d3, d4, d5, d6, d7, Nat.or_zero, Nat.zero_or]

/-! ## The codec: masking, length classification, layout -/

theorem MaskPayload_getElem? (f : Frame) (i : Nat) :
    f.MaskPayload.Payload[i]? =
      f.Payload[i]?.map (fun v => v ^^^ keyByte f.MaskingKey (i % 4)) := by
  simp only [Frame.MaskPayload, List.getElem?_mapIdx, masks_getD]

theorem MaskPayload_MaskingKey (f : Frame) : f.MaskPayload.MaskingKey = f.MaskingKey := rfl

theorem MaskPayload_twice (f : Frame) : f.MaskPayload.MaskPayload = f := by
  have hp : f.MaskPayload.MaskPayload.Payload = f.Payload := by
    apply List.ext_getElem?
    intro i
    rw [MaskPayload_getElem?, MaskPayload_getElem?, MaskPayload_MaskingKey]
    cases f.Payload[i]? with
    | none => rfl
    | some v => simp [Nat.xor_assoc]
  cases f with
  | mk a b c d e g h k l m P =>
    simp only [Frame.MaskPayload] at hp ⊢
    rw [hp]

/-- C2: masking a payload twice with the same key gives the payload back, the
length does not change, and after one application byte `i` is the payload
byte XOR the `(i mod 4)`-th byte of the key in big-endian order. -/
theorem C2_mask_involution (f : Frame) :
    f.MaskPayload.MaskPayload.Payload = f.Payload ∧
    f.MaskPayload.MaskPayload = f ∧
    f.MaskPayload.Payload.length = f.Payload.length ∧
    ∀ i : Nat, f.MaskPayload.Payload[i]? =
      f.Payload[i]?.map (fun v => v ^^^ f.MaskingKey / 2 ^ (8 * (3 - i % 4)) % 256) := by
  refine ⟨by rw [MaskPayload_twice], MaskPayload_twice f, ?_, ?_⟩
  · simp [Frame.MaskPayload]
  · intro i
    exact MaskPayload_getElem? f i

theorem FrameToBytes_eq (f : Frame) :
    FrameToBytes f = PutUint16 (headerPart1 f) ++ extBytes f ++ keyBytes f ++ f.Payload := by
  unfold FrameToBytes extBytes keyBytes
  simp only [PutUint16_eq, PutUint32_eq, PutUint64_eq]
  split_ifs <;> simp

theorem CalcPayloadLen_small (f : Frame) (h : f.Payload.length ≤ 125) :
    f.CalcPayloadLen = { f with PayloadLen := f.Payload.length, PayloadExtendLen16 := 0,
                                PayloadExtendLen64 := 0 } := by
  have e1 : f.Payload.length % 18446744073709551616 = f.Payload.length := by omega
  have e2 : f.Payload.length % 65536 = f.Payload.length := by omega
  simp [Frame.CalcPayloadLen, e1, e2, h]

theorem CalcPayloadLen_medium (f : Frame) (h1 : 126 ≤ f.Payload.length)
    (h2 : f.Payload.length ≤ 65535) :
    f.CalcPayloadLen = { f with PayloadLen := 126, PayloadExtendLen16 := f.Payload.length,
                                PayloadExtendLen64 := 0 } := by
  have e1 : f.Payload.length % 18446744073709551616 = f.Payload.length := by omega
  have e2 : f.Payload.length % 65536 = f.Payload.length := by omega
  have e3 : ¬ f.Payload.length ≤ 125 := by omega
  simp [Frame.CalcPayloadLen, e1, e2, e3, h2]

theorem CalcPayloadLen_large (f : Frame) (h1 : 65535 < f.Payload.length)
    (h2 : f.Payload.length < 2 ^ 64) :
    f.CalcPayloadLen = { f with PayloadLen := 127, PayloadExtendLen16 := 0,
                                PayloadExtendLen64 := f.Payload.length } := by
  have e1 : f.Payload.length % 18446744073709551616 = f.Payload.length := by omega
  have e3 : ¬ f.Payload.length ≤ 125 := by omega
  have e4 : ¬ f.Payload.length ≤ 65535 := by omega
  simp [Frame.CalcPayloadLen, e1, e3, e4]

/-- C3: `CalcPayloadLen` classifies the payload length `L` (7-bit field `L`,
126 or 127), and the extended-length bytes that `FrameToBytes` then writes
after the two header bytes (none, two or eight) are the big-endian
representation of `L`. -/
theorem C3_length_classification (f : Frame) (hL : f.Payload.length < 2 ^ 63) :
    (f.Payload.length ≤ 125 →
      f.CalcPayloadLen.PayloadLen = f.Payload.length ∧
      FrameToBytes f.CalcPayloadLen =
        PutUint16 (headerPart1 f.CalcPayloadLen) ++ keyBytes f ++ f.Payload) ∧
    (126 ≤ f.Payload.length ∧ f.Payload.length ≤ 65535 →
      f.CalcPayloadLen.PayloadLen = 126 ∧
      FrameToBytes f.CalcPayloadLen =
        PutUint16 (headerPart1 f.CalcPayloadLen) ++ beBytes 2 f.Payload.length ++ keyBytes f
          ++ f.Payload ∧
      beValue (beBytes 2 f.Payload.length) = f.Payload.length) ∧
    (65535 < f.Payload.length →
      f.CalcPayloadLen.PayloadLen = 127 ∧
      FrameToBytes f.CalcPayloadLen =
        PutUint16 (headerPart1 f.CalcPayloadLen) ++ beBytes 8 f.Payload.length ++ keyBytes f
          ++ f.Payload ∧
      beValue (beBytes 8 f.Payload.length) = f.Payload.length) := by
  refine ⟨?_, ?_, ?_⟩
  · intro h
    rw [FrameToBytes_eq, CalcPayloadLen_small f h]
    have e1 : ¬ f.Payload.length = 126 := by omega
    have e2 : ¬ f.Payload.length = 127 := by omega
    simp [extBytes, keyBytes, e1, e2]
  · rintro ⟨h1, h2⟩
    rw [FrameToBytes_eq, CalcPayloadLen_medium f h1 h2, beValue_beBytes]
    refine ⟨rfl, ?_, ?_⟩
    · simp [extBytes, keyBytes]
    · have : (256 : Nat) ^ 2 = 65536 := by norm_num
      omega
  · intro h
    rw [FrameToBytes_eq, CalcPayloadLen_large f h (by omega), beValue_beBytes]
    refine ⟨rfl, ?_, ?_⟩
    · simp [extBytes, keyBytes]
    · have : (256 : Nat) ^ 8 = 2 ^ 64 := by norm_num
      omega

/-- The witness of C3: a payload of 300 bytes gets the 7-bit length 126. -/
theorem C3_length_classification_witness :
    (Frame.CalcPayloadLen ⟨1, 0, 0, 0, 2, 0, 0, 0, 0, 0, List.replicate 300 7⟩).PayloadLen = 126 :=
  ((C3_length_classification ⟨1, 0, 0, 0, 2, 0, 0, 0, 0, 0, List.replicate 300 7⟩
    (by rw [List.length_replicate]; omega)).2.1 (by rw [List.length_replicate]; omega)).1

/-- C4: the layout of a serialised frame whose header fields are in range:
the two header bytes, the big-endian extended length when the 7-bit length
is 126 or 127, the big-endian masking key when the frame is masked, and the
payload as it is; and the length of the whole. -/
theorem C4_frame_layout (f : Frame) (hfin : f.Fin ≤ 1) (h1 : f.RSV1 ≤ 1) (h2 : f.RSV2 ≤ 1)
    (h3 : f.RSV3 ≤ 1) (hop : f.OpCode ≤ 15) (hm : f.Mask ≤ 1) (hl : f.PayloadLen ≤ 127) :
    FrameToBytes f =
      [f.Fin <<< 7 ||| f.RSV1 <<< 6 ||| f.RSV2 <<< 5 ||| f.RSV3 <<< 4 ||| f.OpCode,
       f.Mask <<< 7 ||| f.PayloadLen]
      ++ (if f.PayloadLen = 126 then beBytes 2 f.PayloadExtendLen16
          else if f.PayloadLen = 127 then beBytes 8 f.PayloadExtendLen64 else [])
      ++ (if f.Mask = 1 then beBytes 4 f.MaskingKey else [])
      ++ f.Payload ∧
    (FrameToBytes f).length =
      2 + (if f.PayloadLen = 126 then 2 else if f.PayloadLen = 127 then 8 else 0)
        + 4 * f.Mask + f.Payload.length := by
  have key : FrameToBytes f =
      [f.Fin <<< 7 ||| f.RSV1 <<< 6 ||| f.RSV2 <<< 5 ||| f.RSV3 <<< 4 ||| f.OpCode,
       f.Mask <<< 7 ||| f.PayloadLen]
      ++ (if f.PayloadLen = 126 then beBytes 2 f.PayloadExtendLen16
          else if f.PayloadLen = 127 then beBytes 8 f.PayloadExtendLen64 else [])
      ++ (if f.Mask = 1 then beBytes 4 f.MaskingKey else [])
      ++ f.Payload := by
    rw [FrameToBytes_eq, header_bytes f hfin h1 h2 h3 hop hm hl]
    rfl
  refine ⟨key, ?_⟩
  rw [key]
  have hm2 : f.Mask = 0 ∨ f.Mask = 1 := by omega
  have hk : (if f.Mask = 1 then beBytes 4 f.MaskingKey else []).length = 4 * f.Mask := by
    rcases hm2 with h | h <;> simp [h, length_beBytes]
  have he : (if f.PayloadLen = 126 then beBytes 2 f.PayloadExtendLen16
      else if f.PayloadLen = 127 then beBytes 8 f.PayloadExtendLen64 else []).length =
      (if f.PayloadLen = 126 then 2 else if f.PayloadLen = 127 then 8 else 0) := by
    split_ifs <;> simp [length_beBytes]
  simp only [List.length_append, List.length_cons, List.length_nil, hk, he]

/-- The witness of C4: the unmasked text frame "hi" is `81 02 68 69`. -/
theorem C4_frame_layout_witness :
    FrameToBytes ⟨1, 0, 0, 0, 1, 0, 2, 0, 0, 0, [0x68, 0x69]⟩ = [0x81, 0x02, 0x68, 0x69] :=
  (C4_frame_layout ⟨1, 0, 0, 0, 1, 0, 2, 0, 0, 0, [0x68, 0x69]⟩ (by decide) (by decide)
    (by decide) (by decide) (by decide) (by decide) (by decide)).1

/-! ## Fragmentation -/

theorem constructFrame_noMask (rand : List Nat) (mt : Nat) (final : Bool) :
    constructFrame rand mt final true =
      (⟨if !final then 0 else 1, 0, 0, 0, mt % 65536, 0, 0, 0, 0, 0, []⟩, rand) := by
  simp [constructFrame]

theorem constructDataFrame_noMask (rand p : List Nat) (mt : Nat) :
    constructDataFrame rand p true mt =
      (plainFrame (if mt = ContinuationFrame then 0 else 1) (mt % 65536) p, rand) := by
  simp only [constructDataFrame, constructFrame_noMask, Frame.SetPayload, plainFrame]
  by_cases h : mt = ContinuationFrame <;> simp [h]

theorem foldl_snoc_fst {α β : Type} (g : α → β) (l : List α) (a : List β) (r : List Nat) :
    l.foldl (fun (acc : List β × List Nat) i => (acc.1 ++ [g i], acc.2)) (a, r) =
      (a ++ l.map g, r) := by
  induction l generalizing a with
  | nil => simp
  | cons i l ih => simp [ih]

theorem fragment_loop (data rand : List Nat) (l : List Nat) :
    l.foldl
      (fun (acc : List Frame × List Nat) i =>
        let start := (i - 1) * shardSize
        let stop := i * shardSize
        let (frame, rand) :=
          constructDataFrame acc.2 ((data.take stop).drop start) true ContinuationFrame
        (acc.1 ++ [frame], rand))
      ([], rand) =
    (l.map (fun i => plainFrame 0 0 ((data.take (i * shardSize)).drop ((i - 1) * shardSize))),
      rand) := by
  have hstep : (fun (acc : List Frame × List Nat) i =>
        let start := (i - 1) * shardSize
        let stop := i * shardSize
        let (frame, rand) :=
          constructDataFrame acc.2 ((data.take stop).drop start) true ContinuationFrame
        (acc.1 ++ [frame], rand)) =
      (fun (acc : List Frame × List Nat) i =>
        (acc.1 ++ [plainFrame 0 0 ((data.take (i * shardSize)).drop ((i - 1) * shardSize))],
          acc.2)) := by
    funext acc i
    simp [constructDataFrame_noMask, ContinuationFrame]
  rw [hstep, foldl_snoc_fst]
  simp

/-- The slices the loop of `fragmentDataFrames` cuts: the first `n` shards. -/
theorem shards_eq (data : List Nat) (n : Nat) :
    (List.range' 1 n).map
        (fun i => plainFrame 0 0 ((data.take (i * shardSize)).drop ((i - 1) * shardSize))) =
      (List.range n).map (fun i => plainFrame 0 0 ((data.drop (i * shardSize)).take shardSize)) := by
  rw [List.range'_eq_map_range, List.map_map]
  apply List.map_congr_left
  intro i _
  simp only [Function.comp, List.drop_take]
  have e : (1 + i) * shardSize - (1 + i - 1) * shardSize = shardSize := by
    have : 1 + i - 1 = i := by omega
    rw [this, Nat.add_mul]
    omega
  have e2 : 1 + i - 1 = i := by omega
  rw [e, e2]

/-- The frames before the opcode of the first and the `Fin` of the last are
set. -/
theorem fragment_raw (data : List Nat) :
    (if data.length / shardSize * shardSize < data.length then
        (List.range (data.length / shardSize)).map
            (fun i => plainFrame 0 0 ((data.drop (i * shardSize)).take shardSize))
          ++ [plainFrame 0 0 (data.drop (data.length / shardSize * shardSize))]
      else
        (List.range (data.length / shardSize)).map
            (fun i => plainFrame 0 0 ((data.drop (i * shardSize)).take shardSize))) =
      (List.range ((data.length + (shardSize - 1)) / shardSize)).map
        (fun i => plainFrame 0 0 ((data.drop (i * shardSize)).take shardSize)) := by
  have hS : shardSize = 65535 := rfl
  have hdm := Nat.div_add_mod data.length shardSize
  have hml := Nat.mod_lt data.length (show 0 < shardSize by decide)
  by_cases hr : data.length / shardSize * shardSize < data.length
  · have hk : (data.length + (shardSize - 1)) / shardSize = data.length / shardSize + 1 := by
      rw [hS] at *
      omega
    rw [if_pos hr, hk, List.range_succ, List.map_append]
    congr 1
    simp only [List.map_cons, List.map_nil]
    rw [List.take_of_length_le]
    rw [List.length_drop, hS] at *
    omega
  · have hk : (data.length + (shardSize - 1)) / shardSize = data.length / shardSize := by
      rw [hS] at *
      omega
    rw [if_neg hr, hk]

theorem plainFrame_setOpCode (fin op o : Nat) (p : List Nat) :
    { plainFrame fin op p with OpCode := o } = plainFrame fin o p := by
  unfold plainFrame Frame.CalcPayloadLen
  simp only
  split_ifs <;> rfl

theorem plainFrame_setFin (fin op b : Nat) (p : List Nat) :
    { plainFrame fin op p with Fin := b } = plainFrame b op p := by
  unfold plainFrame Frame.CalcPayloadLen
  simp only
  split_ifs <;> rfl

theorem fragment_modify (data : List Nat) (op k : Nat) :
    List.modify (fun f => { f with Fin := 1 })
        ((List.modify (fun f => { f with OpCode := op }) 0
          ((List.range k).map
            (fun i => plainFrame 0 0 ((data.drop (i * shardSize)).take shardSize)))).length - 1)
        (List.modify (fun f => { f with OpCode := op }) 0
          ((List.range k).map
            (fun i => plainFrame 0 0 ((data.drop (i * shardSize)).take shardSize)))) =
      (List.range k).map (fragFrame data op k) := by
  apply List.ext_getElem?
  intro i
  simp only [List.getElem?_modify, List.length_modify, List.length_map, List.length_range,
    List.getElem?_map]
  by_cases hi : i < k
  · rw [List.getElem?_range hi]
    simp only [Option.map_some', Option.map_eq_map, fragFrame]
    have e1 : (k - 1 = i) ↔ (i + 1 = k) := by omega
    have e0 : (0 = i) ↔ (i = 0) := by omega
    simp only [e1, e0]
    by_cases h1 : i + 1 = k
    · simp only [h1, if_true]
      by_cases h0 : i = 0 <;>
        simp only [h0, if_true, if_false, plainFrame_setOpCode, plainFrame_setFin]
    · simp only [h1, if_false]
      by_cases h0 : i = 0 <;>
        simp only [h0, if_true, if_false, plainFrame_setOpCode, plainFrame_setFin]
  · rw [List.getElem?_eq_none (by simpa using hi)]
    rfl

/-- What `fragmentDataFrames` returns for an unmasked payload of more than
`shardSize` bytes. -/
theorem fragmentDataFrames_noMask (rand data : List Nat) (op : Nat)
    (h : shardSize < data.length) :
    fragmentDataFrames rand data true op =
      some ((List.range ((data.length + (shardSize - 1)) / shardSize)).map
        (fragFrame data (op % 65536) ((data.length + (shardSize - 1)) / shardSize)), rand) := by
  have hS : shardSize = 65535 := rfl
  have hk : 0 < (data.length + (shardSize - 1)) / shardSize := by
    rw [hS] at *
    omega
  have hraw := fragment_raw data
  unfold fragmentDataFrames
  simp only [fragment_loop]
  simp only [shards_eq, constructDataFrame_noMask]
  by_cases hr : data.length / shardSize * shardSize < data.length
  · rw [if_pos hr] at hraw
    simp only [hr, if_true, ContinuationFrame, Nat.zero_mod]
    rw [hraw]
    simp only [List.length_map, List.length_range, fragment_modify]
    rw [if_neg (by omega)]
  · rw [if_neg hr] at hraw
    simp only [hr, if_false]
    rw [hraw]
    simp only [List.length_map, List.length_range, fragment_modify]
    rw [if_neg (by omega)]

theorem plainFrame_Payload (fin op : Nat) (p : List Nat) : (plainFrame fin op p).Payload = p := by
  unfold plainFrame Frame.CalcPayloadLen
  simp only
  split_ifs <;> rfl

theorem plainFrame_OpCode (fin op : Nat) (p : List Nat) : (plainFrame fin op p).OpCode = op := by
  unfold plainFrame Frame.CalcPayloadLen
  simp only
  split_ifs <;> rfl

theorem plainFrame_Fin (fin op : Nat) (p : List Nat) : (plainFrame fin op p).Fin = fin := by
  unfold plainFrame Frame.CalcPayloadLen
  simp only
  split_ifs <;> rfl

theorem flatten_shards (data : List Nat) (k : Nat) :
    ((List.range k).map (fun i => (data.drop (i * shardSize)).take shardSize)).flatten =
      data.take (k * shardSize) := by
  induction k with
  | zero => simp
  | succ k ih =>
    rw [List.range_succ, List.map_append, List.flatten_append, ih, Nat.add_mul, List.take_add]
    simp

theorem map_OpCode_frag (data : List Nat) (op k : Nat) (hk : 0 < k) :
    ((List.range k).map (fragFrame data op k)).map Frame.OpCode =
      op :: List.replicate (k - 1) ContinuationFrame := by
  apply List.ext_getElem?
  intro i
  simp only [List.map_map, List.getElem?_map, List.getElem?_cons, List.getElem?_replicate]
  by_cases hi : i < k
  · rw [List.getElem?_range hi]
    simp only [Option.map_some', Function.comp, fragFrame, plainFrame_OpCode]
    by_cases h0 : i = 0
    · simp [h0]
    · have : i - 1 < k - 1 := by omega
      simp [h0, this, ContinuationFrame]
  · rw [List.getElem?_eq_none (by simpa using hi)]
    have h0 : ¬ i = 0 := by omega
    have : ¬ i - 1 < k - 1 := by omega
    simp [h0, this]

theorem map_Fin_frag (data : List Nat) (op k : Nat) (hk : 0 < k) :
    ((List.range k).map (fragFrame data op k)).map Frame.Fin =
      List.replicate (k - 1) 0 ++ [1] := by
  apply List.ext_getElem?
  intro i
  simp only [List.map_map, List.getElem?_map, List.getElem?_append, List.getElem?_replicate,
    List.length_replicate]
  by_cases hi : i < k
  · rw [List.getElem?_range hi]
    simp only [Option.map_some', Function.comp, fragFrame, plainFrame_Fin]
    by_cases h1 : i + 1 = k
    · have h2 : ¬ i < k - 1 := by omega
      have h3 : i - (k - 1) = 0 := by omega
      simp [h1, h2, h3]
    · have h2 : i < k - 1 := by omega
      simp [h1, h2]
  · rw [List.getElem?_eq_none (by simpa using hi)]
    have h2 : ¬ i < k - 1 := by omega
    have h3 : 1 ≤ i - (k - 1) := by omega
    simp [h2]
    omega

/-- C5: an unmasked payload of more than 65535 bytes is cut into at least two
frames whose payloads are the consecutive 65535-byte slices of the payload
(the last one may be shorter, never empty) and join to the payload; the first
frame has the opcode of the message, the others are continuation frames, and
the last frame alone has `Fin = 1`. A binary payload of 70,000 bytes gives
exactly the two frames of the example. -/
theorem C5_fragmentation (rand P : List Nat) (op : Nat) (hlen : 65535 < P.length)
    (hop : op = TextFrame ∨ op = BinaryFrame) :
    ∃ frames : List Frame,
      fragmentDataFrames rand P true op = some (frames, rand) ∧
      2 ≤ frames.length ∧
      frames.map Frame.Payload =
        (List.range frames.length).map (fun i => (P.drop (i * 65535)).take 65535) ∧
      (∀ i, i + 1 < frames.length → ((P.drop (i * 65535)).take 65535).length = 65535) ∧
      (∀ p ∈ frames.map Frame.Payload, p ≠ []) ∧
      (frames.map Frame.Payload).flatten = P ∧
      frames.map Frame.OpCode = op :: List.replicate (frames.length - 1) ContinuationFrame ∧
      frames.map Frame.Fin = List.replicate (frames.length - 1) 0 ++ [1] ∧
      (P.length = 70000 → op = BinaryFrame →
        frames = [⟨0, 0, 0, 0, 2, 0, 126, 65535, 0, 0, P.take 65535⟩,
                  ⟨1, 0, 0, 0, 0, 0, 126, 4465, 0, 0, P.drop 65535⟩]) := by
  have hS : shardSize = 65535 := rfl
  have hop2 : op % 65536 = op := by
    rcases hop with h | h <;> rw [h] <;> decide
  have hmain := fragmentDataFrames_noMask rand P op (by rw [hS]; exact hlen)
  rw [hop2] at hmain
  generalize hk : (P.length + (shardSize - 1)) / shardSize = k at hmain
  have hk2 : 2 ≤ k := by
    rw [hS] at hk
    omega
  have hkl : P.length ≤ k * 65535 := by
    rw [hS] at hk
    omega
  have hkl2 : (k - 1) * 65535 < P.length := by
    rw [hS] at hk
    have : (k - 1) * 65535 = k * 65535 - 65535 := by
      rw [Nat.sub_mul]
    omega
  have hpay : ((List.range k).map (fragFrame P op k)).map Frame.Payload =
      (List.range k).map (fun i => (P.drop (i * 65535)).take 65535) := by
    rw [List.map_map]
    apply List.map_congr_left
    intro i _
    simp [fragFrame, plainFrame_Payload, hS]
  refine ⟨(List.range k).map (fragFrame P op k), hmain, ?_, ?_, ?_, ?_, ?_, ?_, ?_, ?_⟩
  · simpa using hk2
  · simpa using hpay
  · intro i hi
    simp only [List.length_map, List.length_range] at hi
    have : (i + 1) * 65535 ≤ (k - 1) * 65535 := Nat.mul_le_mul_right _ (by omega)
    rw [List.length_take, List.length_drop]
    omega
  · intro p hp
    rw [hpay] at hp
    simp only [List.mem_map, List.mem_range] at hp
    obtain ⟨i, hi, rfl⟩ := hp
    have : i * 65535 ≤ (k - 1) * 65535 := Nat.mul_le_mul_right _ (by omega)
    intro hnil
    have hl := congrArg List.length hnil
    rw [List.length_take, List.length_drop] at hl
    simp only [List.length_nil] at hl
    omega
  · rw [hpay]
    have := flatten_shards P k
    rw [hS] at this
    rw [this, List.take_of_length_le hkl]
  · simpa using map_OpCode_frag P op k (by omega)
  · simpa using map_Fin_frag P op k (by omega)
  · intro h70 hbin
    have hk70 : k = 2 := by
      rw [hS] at hk
      omega
    subst hk70
    subst hbin
    have l1 : (List.take 65535 P).length = 65535 := by
      rw [List.length_take]; omega
    have l2 : (List.drop 65535 P).length = 4465 := by
      rw [List.length_drop]; omega
    have t2 : List.take 65535 (List.drop 65535 P) = List.drop 65535 P := by
      apply List.take_of_length_le; omega
    simp only [List.range_succ, List.range_zero, List.nil_append, List.map_cons, List.map_nil,
      List.cons_append, fragFrame, plainFrame, hS, BinaryFrame, Nat.zero_mul, Nat.one_mul,
      List.drop_zero, t2]
    rw [CalcPayloadLen_medium _ (by simp only; omega) (by simp only; omega),
      CalcPayloadLen_medium _ (by simp only; omega) (by simp only; omega)]
    simp [l1, l2]

/-- The witness of C5: a binary payload of 70,000 bytes is cut into two
frames. -/
theorem C5_fragmentation_witness :
    ∃ frames : List Frame,
      fragmentDataFrames [] (List.replicate 70000 7) true BinaryFrame = some (frames, []) ∧
      2 ≤ frames.length := by
  obtain ⟨frames, h1, h2, _⟩ := C5_fragmentation [] (List.replicate 70000 7) BinaryFrame
    (by rw [List.length_replicate]; omega) (Or.inr rfl)
  exact ⟨frames, h1, h2⟩

/-! ## Reading back what `FrameToBytes` wrote -/

theorem or_eq_add (X b i : Nat) (hX : X % 2 ^ i = 0) (hb : b < 2 ^ i) : X ||| b = X + b := by
  obtain ⟨a, rfl⟩ : ∃ a, X = 2 ^ i * a := Nat.dvd_of_mod_eq_zero hX
  exact (Nat.mul_add_lt_is_or hb a).symm

theorem or_eq_add_left (b X i : Nat) (hb : b < 2 ^ i) (hX : X % 2 ^ i = 0) : b ||| X = b + X := by
  rw [Nat.or_comm, or_eq_add X b i hX hb, Nat.add_comm]

theorem and_shiftLeft_shiftRight (x m k : Nat) : (x &&& (m <<< k)) >>> k = (x >>> k) &&& m := by
  apply Nat.eq_of_testBit_eq
  intro j
  simp

theorem headerPart1_eq_sum (f : Frame) (hfin : f.Fin ≤ 1) (h1 : f.RSV1 ≤ 1) (h2 : f.RSV2 ≤ 1)
    (h3 : f.RSV3 ≤ 1) (hop : f.OpCode ≤ 15) (hm : f.Mask ≤ 1) (hl : f.PayloadLen ≤ 127) :
    headerPart1 f = f.Fin * 32768 + f.RSV1 * 16384 + f.RSV2 * 8192 + f.RSV3 * 4096
      + f.OpCode * 256 + f.Mask * 128 + f.PayloadLen := by
  have e1 : f.Fin <<< 15 % 65536 = f.Fin * 32768 := by
    simp only [Nat.shiftLeft_eq]; omega
  have e2 : f.RSV1 <<< 14 % 65536 = f.RSV1 * 16384 := by
    simp only [Nat.shiftLeft_eq]; omega
  have e3 : f.RSV2 <<< 13 % 65536 = f.RSV2 * 8192 := by
    simp only [Nat.shiftLeft_eq]; omega
  have e4 : f.RSV3 <<< 12 % 65536 = f.RSV3 * 4096 := by
    simp only [Nat.shiftLeft_eq]; omega
  have e5 : f.OpCode <<< 8 % 65536 = f.OpCode * 256 := by
    simp only [Nat.shiftLeft_eq]; omega
  have e6 : f.Mask <<< 7 % 65536 = f.Mask * 128 := by
    simp only [Nat.shiftLeft_eq]; omega
  unfold headerPart1
  rw [e1, e2, e3, e4, e5, e6]
  rw [or_eq_add (f.Fin * 32768) (f.RSV1 * 16384) 15 (by omega) (by omega),
    or_eq_add (f.Fin * 32768 + f.RSV1 * 16384) (f.RSV2 * 8192) 14 (by omega) (by omega),
    or_eq_add (f.Fin * 32768 + f.RSV1 * 16384 + f.RSV2 * 8192) (f.RSV3 * 4096) 13 (by omega)
      (by omega),
    or_eq_add (f.Fin * 32768 + f.RSV1 * 16384 + f.RSV2 * 8192 + f.RSV3 * 4096) (f.OpCode * 256) 12
      (by omega) (by omega),
    or_eq_add (f.Fin * 32768 + f.RSV1 * 16384 + f.RSV2 * 8192 + f.RSV3 * 4096 + f.OpCode * 256)
      (f.Mask * 128) 8 (by omega) (by omega),
    or_eq_add (f.Fin * 32768 + f.RSV1 * 16384 + f.RSV2 * 8192 + f.RSV3 * 4096 + f.OpCode * 256
      + f.Mask * 128) f.PayloadLen 7 (by omega) (by omega)]

theorem or_bytes4 (a b c d : Nat) (ha : a < 256) (hb : b < 256) (hc : c < 256) :
    a ||| b <<< 8 ||| c <<< 16 ||| d <<< 24 = a + b * 256 + c * 65536 + d * 16777216 := by
  simp only [Nat.shiftLeft_eq]
  rw [or_eq_add_left a (b * 2 ^ 8) 8 (by omega) (by omega),
    or_eq_add_left (a + b * 2 ^ 8) (c * 2 ^ 16) 16 (by omega) (by omega),
    or_eq_add_left (a + b * 2 ^ 8 + c * 2 ^ 16) (d * 2 ^ 24) 24 (by omega) (by omega)]

theorem or_bytes8 (a b c d e g h k : Nat) (ha : a < 256) (hb : b < 256) (hc : c < 256)
    (hd : d < 256) (he : e < 256) (hg : g < 256) (hh : h < 256) :
    a ||| b <<< 8 ||| c <<< 16 ||| d <<< 24 ||| e <<< 32 ||| g <<< 40 ||| h <<< 48 ||| k <<< 56 =
      a + b * 2 ^ 8 + c * 2 ^ 16 + d * 2 ^ 24 + e * 2 ^ 32 + g * 2 ^ 40 + h * 2 ^ 48
        + k * 2 ^ 56 := by
  simp only [Nat.shiftLeft_eq]
  rw [or_eq_add_left a (b * 2 ^ 8) 8 (by omega) (by omega),
    or_eq_add_left (a + b * 2 ^ 8) (c * 2 ^ 16) 16 (by omega) (by omega),
    or_eq_add_left (a + b * 2 ^ 8 + c * 2 ^ 16) (d * 2 ^ 24) 24 (by omega) (by omega),
    or_eq_add_left (a + b * 2 ^ 8 + c * 2 ^ 16 + d * 2 ^ 24) (e * 2 ^ 32) 32 (by omega) (by omega),
    or_eq_add_left (a + b * 2 ^ 8 + c * 2 ^ 16 + d * 2 ^ 24 + e * 2 ^ 32) (g * 2 ^ 40) 40
      (by omega) (by omega),
    or_eq_add_left (a + b * 2 ^ 8 + c * 2 ^ 16 + d * 2 ^ 24 + e * 2 ^ 32 + g * 2 ^ 40)
      (h * 2 ^ 48) 48 (by omega) (by omega),
    or_eq_add_left (a + b * 2 ^ 8 + c * 2 ^ 16 + d * 2 ^ 24 + e * 2 ^ 32 + g * 2 ^ 40 + h * 2 ^ 48)
      (k * 2 ^ 56) 56 (by omega) (by omega)]

theorem Uint16_beBytes (v : Nat) (h : v < 65536) : Uint16 (beBytes 2 v) = v := by
  simp only [Uint16, beBytes, List.nil_append, List.cons_append, List.getD_cons_zero,
    List.getD_cons_succ, Nat.shiftLeft_eq]
  rw [or_eq_add_left _ _ 8 (by omega) (by omega)]
  omega

theorem Uint32_beBytes (v : Nat) (h : v < 2 ^ 32) : Uint32 (beBytes 4 v) = v := by
  simp only [Uint32, beBytes, List.nil_append, List.cons_append, List.getD_cons_zero,
    List.getD_cons_succ]
  rw [or_bytes4 _ _ _ _ (by omega) (by omega) (by omega)]
  omega

theorem Uint64_beBytes (v : Nat) (h : v < 2 ^ 64) : Uint64 (beBytes 8 v) = v := by
  simp only [Uint64, beBytes, List.nil_append, List.cons_append, List.getD_cons_zero,
    List.getD_cons_succ]
  rw [or_bytes8 _ _ _ _ _ _ _ _ (by omega) (by omega) (by omega) (by omega) (by omega) (by omega)
    (by omega)]
  omega

theorem and_bit (x k : Nat) : (x &&& 2 ^ k) >>> k = x / 2 ^ k % 2 := by
  have h := and_shiftLeft_shiftRight x 1 k
  rw [Nat.shiftLeft_eq, Nat.one_mul] at h
  rw [h, Nat.and_one_is_mod, Nat.shiftRight_eq_div_pow]

theorem and_opcode (x : Nat) : (x &&& 0x0f00) >>> 8 = x / 256 % 16 := by
  have h := and_shiftLeft_shiftRight x 15 8
  have e : (15 : Nat) <<< 8 = 0x0f00 := by decide
  rw [e] at h
  rw [h, Nat.shiftRight_eq_div_pow]
  exact Nat.and_pow_two_sub_one_eq_mod _ 4

theorem ParseToFrameHeader_beBytes (v : Nat) (h : v < 65536) :
    ParseToFrameHeader (beBytes 2 v) =
      { Fin := v / 32768 % 2, RSV1 := v / 16384 % 2, RSV2 := v / 8192 % 2, RSV3 := v / 4096 % 2,
        OpCode := v / 256 % 16, Mask := v / 128 % 2, PayloadLen := v % 128,
        PayloadExtendLen16 := 0, PayloadExtendLen64 := 0, MaskingKey := 0, Payload := [] } := by
  have ht : (beBytes 2 v).take 2 = beBytes 2 v := by
    apply List.take_of_length_le
    rw [length_beBytes]
  unfold ParseToFrameHeader
  simp only [ht, Uint16_beBytes v h]
  have b15 := and_bit v 15
  have b14 := and_bit v 14
  have b13 := and_bit v 13
  have b12 := and_bit v 12
  have b7 := and_bit v 7
  have bl := Nat.and_pow_two_sub_one_eq_mod v 7
  norm_num at b15 b14 b13 b12 b7 bl
  rw [b15, b14, b13, b12, b7, bl, and_opcode]

/-- The header of a frame in range reads back as the header fields. -/
theorem ParseToFrameHeader_header (f : Frame) (hfin : f.Fin ≤ 1) (h1 : f.RSV1 ≤ 1)
    (h2 : f.RSV2 ≤ 1) (h3 : f.RSV3 ≤ 1) (hop : f.OpCode ≤ 15) (hm : f.Mask ≤ 1)
    (hl : f.PayloadLen ≤ 127) :
    ParseToFrameHeader (PutUint16 (headerPart1 f)) =
      { f with PayloadExtendLen16 := 0, PayloadExtendLen64 := 0, MaskingKey := 0, Payload := [] } := by
  have hs := headerPart1_eq_sum f hfin h1 h2 h3 hop hm hl
  rw [PutUint16_eq, ParseToFrameHeader_beBytes _ (by omega), hs]
  congr 1 <;> omega

theorem read_append (wc : WsConn) (a b : List Nat) (n : Nat) (h : wc.rd = a ++ b)
    (hn : a.length = n) : read wc n = (a, none, { wc with rd := b }) := by
  subst hn
  unfold read
  simp [h]

theorem readShards_spec (n : Nat) (wc : WsConn) (remain : Nat) (acc : List Nat)
    (hlen : remain ≤ wc.rd.length) (hn : (remain - 1) / shardSize < n) :
    readShards n wc remain acc =
      (acc ++ wc.rd.take ((remain - 1) / shardSize * shardSize),
        remain - (remain - 1) / shardSize * shardSize, none,
        { wc with rd := wc.rd.drop ((remain - 1) / shardSize * shardSize) }) := by
  have hS : shardSize = 65535 := rfl
  induction n generalizing wc remain acc with
  | zero => exact absurd hn (Nat.not_lt_zero _)
  | succ n ih =>
    unfold readShards
    by_cases hr : remain > shardSize
    · have hread : read wc shardSize =
          (wc.rd.take shardSize, none, { wc with rd := wc.rd.drop shardSize }) := by
        unfold read
        rw [if_neg (by omega)]
      have hq : (remain - 1) / shardSize = (remain - shardSize - 1) / shardSize + 1 := by
        rw [hS] at *
        omega
      rw [if_pos hr, hread]
      simp only
      rw [ih _ _ _ (by simp only [List.length_drop]; omega) (by omega), hq]
      simp only [List.append_assoc, List.drop_drop, Nat.add_mul, Nat.one_mul]
      rw [Nat.add_comm ((remain - shardSize - 1) / shardSize * shardSize) shardSize,
        List.take_add]
      have e : remain - shardSize - (remain - shardSize - 1) / shardSize * shardSize =
          remain - (shardSize + (remain - shardSize - 1) / shardSize * shardSize) := by
        omega
      rw [e]
    · have hq : (remain - 1) / shardSize = 0 := by
        rw [hS] at *
        omega
      rw [if_neg hr, hq]
      simp

theorem readPayload_ok (wc : WsConn) (payload rest : List Nat) (h : wc.rd = payload ++ rest)
    (hsz : payload.length ≤ maxAlloc) :
    readPayload wc payload.length = (payload, none, { wc with rd := rest }) := by
  have hS : shardSize = 65535 := rfl
  have hlen : payload.length ≤ wc.rd.length := by
    rw [h, List.length_append]
    omega
  unfold readPayload
  rw [if_neg (by omega), readShards_spec _ _ _ _ hlen (by rw [hS]; omega)]
  simp only [List.nil_append]
  generalize hq : (payload.length - 1) / shardSize * shardSize = q
  have hqle : q ≤ payload.length := by
    rw [← hq]
    exact Nat.le_trans (Nat.div_mul_le_self _ _) (Nat.sub_le _ _)
  have hread : read { wc with rd := wc.rd.drop q } (payload.length - q) =
      ((wc.rd.drop q).take (payload.length - q), none,
        { wc with rd := (wc.rd.drop q).drop (payload.length - q) }) := by
    unfold read
    rw [if_neg (by simp only [List.length_drop]; omega)]
  rw [hread]
  simp only
  have e1 : List.take q wc.rd ++ List.take (payload.length - q) (List.drop q wc.rd) = payload := by
    rw [← List.take_add, show q + (payload.length - q) = payload.length by omega, h]
    exact List.take_left' rfl
  have e2 : List.drop (payload.length - q) (List.drop q wc.rd) = rest := by
    rw [List.drop_drop, show q + (payload.length - q) = payload.length by omega, h]
    exact List.drop_left' rfl
  rw [e1, e2]

theorem wf_cases (F : Frame) (h : WellFormed F) :
    (F.Payload.length ≤ 125 ∧ F.PayloadLen = F.Payload.length ∧ F.PayloadExtendLen16 = 0 ∧
      F.PayloadExtendLen64 = 0) ∨
    (126 ≤ F.Payload.length ∧ F.Payload.length ≤ 65535 ∧ F.PayloadLen = 126 ∧
      F.PayloadExtendLen16 = F.Payload.length ∧ F.PayloadExtendLen64 = 0) ∨
    (65535 < F.Payload.length ∧ F.PayloadLen = 127 ∧ F.PayloadExtendLen16 = 0 ∧
      F.PayloadExtendLen64 = F.Payload.length) := by
  have hsz := h.size
  have hm : maxAlloc = 2 ^ 48 := rfl
  have hlen := h.len
  by_cases h1 : F.Payload.length ≤ 125
  · left
    rw [CalcPayloadLen_small F h1] at hlen
    refine ⟨h1, ?_, ?_, ?_⟩ <;> rw [← hlen]
  · by_cases h2 : F.Payload.length ≤ 65535
    · right; left
      rw [CalcPayloadLen_medium F (by omega) h2] at hlen
      refine ⟨by omega, h2, ?_, ?_, ?_⟩ <;> rw [← hlen]
    · right; right
      rw [CalcPayloadLen_large F (by omega) (by omega)] at hlen
      refine ⟨by omega, ?_, ?_, ?_⟩ <;> rw [← hlen]

theorem check_small (F : Frame) (h1 : F.Fin ≤ 1) (h2 : F.RSV1 ≤ 1) (h3 : F.RSV2 ≤ 1)
    (h4 : F.RSV3 ≤ 1) (h5 : F.OpCode ≤ 15) (h6 : F.Mask ≤ 1)
    (hl : (0 < F.PayloadLen ∧ F.PayloadLen ≤ 125) ∨ (F.PayloadLen = 126 ∧ F.PayloadExtendLen16 ≠ 0)
      ∨ (F.PayloadLen = 127 ∧ F.PayloadExtendLen64 ≠ 0)) :
    CheckFrameWithoutPayload F = none := by
  have e1 : F.Fin = 0 ∨ F.Fin = 1 := by omega
  have e2 : F.RSV1 = 0 ∨ F.RSV1 = 1 := by omega
  have e3 : F.RSV2 = 0 ∨ F.RSV2 = 1 := by omega
  have e4 : F.RSV3 = 0 ∨ F.RSV3 = 1 := by omega
  have e6 : F.Mask = 0 ∨ F.Mask = 1 := by omega
  have e5 : ¬ F.OpCode > 15 := by omega
  have c1 : (!(F.Fin == 1 || F.Fin == 0)) = false := by
    rcases e1 with e | e <;> simp [e]
  have c2 : (!(F.RSV1 == 1 || F.RSV1 == 0)) = false := by
    rcases e2 with e | e <;> simp [e]
  have c3 : (!(F.RSV2 == 1 || F.RSV2 == 0)) = false := by
    rcases e3 with e | e <;> simp [e]
  have c4 : (!(F.RSV3 == 1 || F.RSV3 == 0)) = false := by
    rcases e4 with e | e <;> simp [e]
  have c6 : (!(F.Mask == 1 || F.Mask == 0)) = false := by
    rcases e6 with e | e <;> simp [e]
  unfold CheckFrameWithoutPayload
  simp only [c1, c2, c3, c4, c6, e5, if_false, Bool.false_eq_true]
  rcases hl with ⟨a, b⟩ | ⟨a, b⟩ | ⟨a, b⟩
  · have : (!(decide (F.PayloadLen > 0) && decide (F.PayloadLen ≤ 125))) = false := by
      simp [a, b]
    simp only [this, if_false, Bool.false_eq_true]
  · simp [a, b]
  · simp [a, b]

theorem check_wf (F : Frame) (h : WellFormed F) (p : List Nat) :
    CheckFrameWithoutPayload { F with Payload := p } = none := by
  have hne := h.nonempty
  apply check_small _ h.fin h.rsv1 h.rsv2 h.rsv3 h.op h.mask
  show (0 < F.PayloadLen ∧ F.PayloadLen ≤ 125) ∨ (F.PayloadLen = 126 ∧ F.PayloadExtendLen16 ≠ 0)
      ∨ (F.PayloadLen = 127 ∧ F.PayloadExtendLen64 ≠ 0)
  rcases wf_cases F h with ⟨a, b, c, d⟩ | ⟨a, a2, b, c, d⟩ | ⟨a, b, c, d⟩
  · left; omega
  · right; left; omega
  · right; right; omega

theorem readExtendLen_wf (wc : WsConn) (F : Frame) (h : WellFormed F) (p : List Nat)
    (rest : List Nat) (hrd : wc.rd = extBytes F ++ rest) :
    readExtendLen wc { F with PayloadExtendLen16 := 0, PayloadExtendLen64 := 0, MaskingKey := 0,
                              Payload := p } =
      ({ F with MaskingKey := 0, Payload := p }, F.Payload.length, none, { wc with rd := rest }) := by
  have hsz := h.size
  have hm : maxAlloc = 2 ^ 48 := rfl
  have hc := wf_cases F h
  obtain ⟨fin, r1, r2, r3, op, mask, plen, e16, e64, key, pay⟩ := F
  simp only at hc hsz
  simp only [extBytes] at hrd
  unfold readExtendLen
  simp only
  rcases hc with ⟨a, b, c, d⟩ | ⟨a, a2, b, c, d⟩ | ⟨a, b, c, d⟩
  · subst b c d
    have n1 : ¬ pay.length = 126 := by omega
    have n2 : ¬ pay.length = 127 := by omega
    simp only [n1, n2, if_false, List.nil_append] at hrd
    simp only [n1, n2, if_false]
    rw [← hrd]
  · subst b c d
    simp only [if_true] at hrd
    simp only [if_true]
    rw [read_append wc _ _ 2 hrd (length_beBytes 2 _)]
    simp only
    rw [List.take_of_length_le (by rw [length_beBytes]), Uint16_beBytes _ (by omega)]
  · subst b c d
    have n1 : ¬ (127 : Nat) = 126 := by decide
    simp only [n1, if_true, if_false] at hrd
    simp only [n1, if_true, if_false]
    rw [read_append wc _ _ 8 hrd (length_beBytes 8 _)]
    simp only
    rw [List.take_of_length_le (by rw [length_beBytes]), Uint64_beBytes _ (by omega)]

theorem readMaskingKey_wf (wc : WsConn) (F : Frame) (h : WellFormed F) (p : List Nat)
    (rest : List Nat) (hrd : wc.rd = keyBytes F ++ rest) :
    readMaskingKey wc { F with MaskingKey := 0, Payload := p } =
      ({ F with Payload := p }, none, { wc with rd := rest }) := by
  have hm := h.mask
  have hk0 := h.key0
  have hk := h.key
  obtain ⟨fin, r1, r2, r3, op, mask, plen, e16, e64, key, pay⟩ := F
  simp only at hm hk0 hk
  simp only [keyBytes] at hrd
  unfold readMaskingKey
  simp only
  have e : mask = 0 ∨ mask = 1 := by omega
  rcases e with e | e
  · have hk1 := hk0 e
    subst e hk1
    simp only [Nat.zero_ne_one, if_false, List.nil_append] at hrd
    simp only [Nat.zero_ne_one, if_false]
    rw [← hrd]
  · subst e
    simp only [if_true] at hrd
    simp only [if_true]
    rw [read_append wc _ _ 4 hrd (length_beBytes 4 _)]
    simp only
    rw [Uint32_beBytes _ hk]

/-- Reading back a well-formed frame: everything up to the switch on the
opcode gives the frame and consumes its bytes. -/
theorem readFrame_wf (fuel : Nat) (wc : WsConn) (F : Frame) (h : WellFormed F) (rest : List Nat)
    (hrd : wc.rd = FrameToBytes F ++ rest) :
    readFrame fuel wc =
      (some (handleOpCode fuel { wc with rd := rest } F).1,
        (handleOpCode fuel { wc with rd := rest } F).2.1,
        (handleOpCode fuel { wc with rd := rest } F).2.2) := by
  rw [FrameToBytes_eq] at hrd
  simp only [List.append_assoc] at hrd
  have hl : F.PayloadLen ≤ 127 := by
    rcases wf_cases F h with ⟨a, b, c, d⟩ | ⟨a, a2, b, c, d⟩ | ⟨a, b, c, d⟩ <;> omega
  unfold readFrame
  rw [read_append wc _ _ 2 hrd (by simp [PutUint16])]
  simp only
  rw [ParseToFrameHeader_header F h.fin h.rsv1 h.rsv2 h.rsv3 h.op h.mask hl]
  rw [readExtendLen_wf _ F h [] _ rfl]
  simp only
  rw [readMaskingKey_wf _ F h [] _ rfl]
  simp only
  rw [check_wf F h []]
  simp only
  rw [readPayload_ok _ F.Payload rest rfl h.size]

/-! ## Sending -/

theorem write_ok (wc : WsConn) (bytes : List Nat) (hr : wc.released = false)
    (hb : wc.wrBudget = none) :
    write wc bytes = (none, { wc with wire := wc.wire ++ bytes }) := by
  unfold write
  simp [hr, hb]

theorem sendFrame_ok (fuel : Nat) (wc : WsConn) (frame : Frame)
    (hc : CheckFrameWithoutPayload frame = none) :
    sendFrame (fuel + 1) wc frame = write wc (FrameToBytes frame) := by
  rw [sendFrame, hc]

theorem check_CalcPayloadLen (g : Frame) (h1 : g.Fin ≤ 1) (h2 : g.RSV1 ≤ 1) (h3 : g.RSV2 ≤ 1)
    (h4 : g.RSV3 ≤ 1) (h5 : g.OpCode ≤ 15) (h6 : g.Mask ≤ 1) (hp : 0 < g.Payload.length)
    (hp2 : g.Payload.length < 2 ^ 64) :
    CheckFrameWithoutPayload g.CalcPayloadLen = none := by
  by_cases c1 : g.Payload.length ≤ 125
  · rw [CalcPayloadLen_small g c1]
    exact check_small _ h1 h2 h3 h4 h5 h6 (Or.inl ⟨hp, c1⟩)
  · by_cases c2 : g.Payload.length ≤ 65535
    · rw [CalcPayloadLen_medium g (by omega) c2]
      exact check_small _ h1 h2 h3 h4 h5 h6 (Or.inr (Or.inl ⟨rfl, by simp only; omega⟩))
    · rw [CalcPayloadLen_large g (by omega) hp2]
      exact check_small _ h1 h2 h3 h4 h5 h6 (Or.inr (Or.inr ⟨rfl, by simp only; omega⟩))

theorem length_MaskPayload (f : Frame) : f.MaskPayload.Payload.length = f.Payload.length := by
  simp [Frame.MaskPayload]

theorem check_construct (rand : List Nat) (mt : Nat) (isServer : Bool) (p : List Nat)
    (hmt : mt ≤ 15) (hp : 0 < p.length) (hp2 : p.length < 2 ^ 64) :
    CheckFrameWithoutPayload (constructControlFrame rand mt isServer p).1 = none := by
  have hmt2 : mt % 65536 = mt := by omega
  unfold constructControlFrame constructFrame Frame.CreateMaskingKey Frame.SetPayload
  cases isServer
  · simp only [Bool.false_eq_true, if_false, if_true, hp, Bool.not_true, hmt2, gt_iff_lt]
    apply check_CalcPayloadLen <;> simp only [Frame.MaskPayload, List.length_mapIdx] <;> omega
  · simp only [if_true, hp, Bool.not_true, Bool.false_eq_true, if_false, hmt2, gt_iff_lt,
      Nat.zero_ne_one]
    apply check_CalcPayloadLen <;> simp only <;> omega

theorem sendControlFrame_ok (fuel : Nat) (wc : WsConn) (mt : Nat) (p : List Nat) (hmt : mt ≤ 15)
    (hp : 0 < p.length) (hp2 : p.length < 2 ^ 64) (hr : wc.released = false)
    (hb : wc.wrBudget = none) :
    sendControlFrame (fuel + 2) wc mt p =
      (none, { wc with rand := (constructControlFrame wc.rand mt wc.IsServer p).2,
                       wire := wc.wire ++
                         FrameToBytes (constructControlFrame wc.rand mt wc.IsServer p).1 }) := by
  rw [sendControlFrame]
  simp only
  rw [sendFrame_ok _ _ _ (check_construct _ _ _ _ hmt hp hp2)]
  exact write_ok _ _ hr hb

theorem constructControlFrame_server (rand : List Nat) (mt : Nat) (p : List Nat)
    (hmt : mt ≤ 15) (hp : 0 < p.length) :
    constructControlFrame rand mt true p = (plainFrame 1 mt p, rand) := by
  have hmt2 : mt % 65536 = mt := by omega
  simp [constructControlFrame, constructFrame, Frame.SetPayload, plainFrame, hp, hmt2]

theorem Error_length (code : Nat) : (stringBytes (Error code)).length ≤ 66 := by
  unfold Error closeErrorMap
  simp only [List.lookup]
  by_cases h0 : code = CloseRight
  · subst h0; decide
  by_cases h1 : code = CloseAsideLeaving
  · subst h1; decide
  by_cases h2 : code = CloseWrongProtocol
  · subst h2; decide
  by_cases h3 : code = CloseNotAccept
  · subst h3; decide
  by_cases h4 : code = CloseAbnormal
  · subst h4; decide
  by_cases h5 : code = CloseDifferentMsgType
  · subst h5; decide
  by_cases h6 : code = CloseTooBigData
  · subst h6; decide
  have e0 : (code == CloseRight) = false := by simpa using h0
  have e1 : (code == CloseAsideLeaving) = false := by simpa using h1
  have e2 : (code == CloseWrongProtocol) = false := by simpa using h2
  have e3 : (code == CloseNotAccept) = false := by simpa using h3
  have e4 : (code == CloseAbnormal) = false := by simpa using h4
  have e5 : (code == CloseDifferentMsgType) = false := by simpa using h5
  have e6 : (code == CloseTooBigData) = false := by simpa using h6
  simp only [e0, e1, e2, e3, e4, e5, e6]
  decide

/-- The payload of the close frame of a code. -/
theorem close_ok (fuel : Nat) (wc : WsConn) (code : Nat) (hr : wc.released = false)
    (hb : wc.wrBudget = none) :
    close (fuel + 3) wc code =
      (none, { wc with
        rand := (constructControlFrame wc.rand ConnectionCloseFrame wc.IsServer
                  (PutUint16 (code % 65536) ++ stringBytes (Error code))).2,
        wire := wc.wire ++ FrameToBytes (constructControlFrame wc.rand ConnectionCloseFrame
                  wc.IsServer (PutUint16 (code % 65536) ++ stringBytes (Error code))).1,
        State := Closed, released := true }) := by
  have hl := Error_length code
  have h := sendControlFrame_ok fuel { wc with State := Closing } ConnectionCloseFrame
    (PutUint16 (code % 65536) ++ stringBytes (Error code)) (by decide) (by simp [PutUint16])
    (by simp only [List.length_append, PutUint16, List.length_cons, List.length_nil]; omega) hr hb
  rw [close, h]

/-! ## The switch on the opcode -/

theorem handleOpCode_data (fuel : Nat) (wc : WsConn) (F : Frame)
    (h : F.OpCode = TextFrame ∨ F.OpCode = BinaryFrame ∨ F.OpCode = ContinuationFrame) :
    handleOpCode fuel wc F = (F, none, wc) := by
  unfold handleOpCode
  rw [if_pos h]

theorem handleOpCode_ping_server (fuel : Nat) (wc : WsConn) (F : Frame) (h : F.OpCode = PingFrame)
    (hs : wc.IsServer = true) (hp : 0 < F.Payload.length) (hp2 : F.Payload.length < 2 ^ 64)
    (hr : wc.released = false) (hb : wc.wrBudget = none) :
    handleOpCode (fuel + 2) wc F =
      (F, none, { wc with wire := wc.wire ++ FrameToBytes (plainFrame 1 PongFrame F.Payload) }) := by
  unfold handleOpCode
  have n1 : ¬ (F.OpCode = TextFrame ∨ F.OpCode = BinaryFrame ∨ F.OpCode = ContinuationFrame) := by
    rw [h]; decide
  rw [if_neg n1, if_pos h]
  simp only [WsConn.ReplyPing, WsConn.Pong]
  rw [sendControlFrame_ok _ _ _ _ (by decide) hp hp2 hr hb, hs,
    constructControlFrame_server _ _ _ (by decide) hp]
  simp only [plainFrame_Payload]

theorem handleOpCode_pong (fuel : Nat) (wc : WsConn) (F : Frame) (h : F.OpCode = PongFrame)
    (hr : wc.released = false) (hb : wc.wrBudget = none) :
    (handleOpCode (fuel + 2) wc F).1 = F ∧ (handleOpCode (fuel + 2) wc F).2.1 = none ∧
      (handleOpCode (fuel + 2) wc F).2.2.rd = wc.rd := by
  unfold handleOpCode
  have n1 : ¬ (F.OpCode = TextFrame ∨ F.OpCode = BinaryFrame ∨ F.OpCode = ContinuationFrame) := by
    rw [h]; decide
  have n2 : ¬ F.OpCode = PingFrame := by rw [h]; decide
  rw [if_neg n1, if_neg n2, if_pos h]
  simp only [WsConn.ReplyPong, WsConn.Ping]
  rw [sendControlFrame_ok _ _ _ _ (by decide) (by decide) (by decide) hr hb]
  simp

theorem handleOpCode_close (fuel : Nat) (wc : WsConn) (F : Frame)
    (h : F.OpCode = ConnectionCloseFrame) (hr : wc.released = false) (hb : wc.wrBudget = none) :
    handleOpCode (fuel + 3) wc F =
      (F, none, { wc with
        rand := (constructControlFrame wc.rand ConnectionCloseFrame wc.IsServer
                  (PutUint16 (CloseRight % 65536) ++ stringBytes (Error CloseRight))).2,
        wire := wc.wire ++ FrameToBytes (constructControlFrame wc.rand ConnectionCloseFrame
                  wc.IsServer (PutUint16 (CloseRight % 65536) ++ stringBytes (Error CloseRight))).1,
        State := Closed, released := true }) := by
  unfold handleOpCode
  have n1 : ¬ (F.OpCode = TextFrame ∨ F.OpCode = BinaryFrame ∨ F.OpCode = ContinuationFrame) := by
    rw [h]; decide
  have n2 : ¬ F.OpCode = PingFrame := by rw [h]; decide
  have n3 : ¬ F.OpCode = PongFrame := by rw [h]; decide
  rw [if_neg n1, if_neg n2, if_neg n3, if_pos h]
  simp only [WsConn.CloseRight]
  rw [close_ok _ _ _ hr hb]

/-- C1 (amended): a valid frame with a payload that is not empty reads back
as itself. For a data frame this holds on every connection; a control frame
is answered while it is read, so the writer has to accept the answer, and a
ping is returned unchanged on a server-role connection. -/
theorem C1_roundtrip_nonempty (fuel : Nat) (wc : WsConn) (F : Frame) (rest : List Nat)
    (hfuel : 3 ≤ fuel) (hfin : F.Fin ≤ 1) (hr1 : F.RSV1 = 0) (hr2 : F.RSV2 = 0)
    (hr3 : F.RSV3 = 0)
    (hop : F.OpCode ∈ [TextFrame, BinaryFrame, ContinuationFrame, PingFrame, PongFrame,
      ConnectionCloseFrame])
    (hmask : F.Mask ≤ 1) (hkey : F.MaskingKey < 2 ^ 32) (hkey0 : F.Mask = 0 → F.MaskingKey = 0)
    (hsize : F.Payload.length ∈ [1, 125, 126, 127, 65535, 65536, 1048576])
    (hcalc : F.CalcPayloadLen = F) (hrd : wc.rd = FrameToBytes F ++ rest)
    (hctl : 8 ≤ F.OpCode → wc.released = false ∧ wc.wrBudget = none)
    (hping : F.OpCode = PingFrame → wc.IsServer = true) :
    (readFrame fuel wc).1 = some F ∧ (readFrame fuel wc).2.1 = none ∧
      (readFrame fuel wc).2.2.rd = rest := by
  obtain ⟨k, rfl⟩ : ∃ k, fuel = k + 3 := ⟨fuel - 3, by omega⟩
  have hm : maxAlloc = 2 ^ 48 := rfl
  simp only [List.mem_cons, List.mem_singleton, List.not_mem_nil, or_false] at hsize hop
  have hwf : WellFormed F :=
    { fin := hfin, rsv1 := by omega, rsv2 := by omega, rsv3 := by omega
      op := by
        simp only [TextFrame, BinaryFrame, ContinuationFrame, PingFrame, PongFrame,
          ConnectionCloseFrame] at hop
        omega
      mask := hmask, key := hkey, key0 := hkey0, len := hcalc
      nonempty := by omega
      size := by omega }
  rw [readFrame_wf _ wc F hwf rest hrd]
  rcases hop with h | h | h | h | h | h
  · rw [handleOpCode_data _ _ _ (Or.inl h)]
    exact ⟨rfl, rfl, rfl⟩
  · rw [handleOpCode_data _ _ _ (Or.inr (Or.inl h))]
    exact ⟨rfl, rfl, rfl⟩
  · rw [handleOpCode_data _ _ _ (Or.inr (Or.inr h))]
    exact ⟨rfl, rfl, rfl⟩
  · obtain ⟨hr, hb⟩ := hctl (by rw [h]; decide)
    have hp := handleOpCode_ping_server (k + 1) { wc with rd := rest } F h (hping h)
      hwf.nonempty (by have := hwf.size; omega) hr hb
    rw [hp]
    exact ⟨rfl, rfl, rfl⟩
  · obtain ⟨hr, hb⟩ := hctl (by rw [h]; decide)
    obtain ⟨a, b, c⟩ := handleOpCode_pong (k + 1) { wc with rd := rest } F h hr hb
    exact ⟨by rw [a], b, c⟩
  · obtain ⟨hr, hb⟩ := hctl (by rw [h]; decide)
    have hp := handleOpCode_close k { wc with rd := rest } F h hr hb
    rw [hp]
    exact ⟨rfl, rfl, rfl⟩

/-- The witness of C1: a masked binary frame of one byte, followed by other
bytes, on a fresh server-role connection. -/
theorem C1_roundtrip_nonempty_witness :
    (readFrame 3 (newConn true [0x82, 0x81, 0x01, 0x02, 0x03, 0x04, 0x55, 0x99] [])).1 =
      some ⟨1, 0, 0, 0, 2, 1, 1, 0, 0, 0x01020304, [0x55]⟩ :=
  (C1_roundtrip_nonempty 3 (newConn true [0x82, 0x81, 0x01, 0x02, 0x03, 0x04, 0x55, 0x99] [])
    ⟨1, 0, 0, 0, 2, 1, 1, 0, 0, 0x01020304, [0x55]⟩ [0x99] (by decide) (by decide) rfl rfl rfl
    (by decide) (by decide) (by decide) (by decide) (by decide) (by decide) (by decide)
    (by decide) (by decide)).1

/-- C1 as stated fails. The final text frame with an empty payload is a valid
frame, `81 00` on the wire, and `readFrame` rejects it with
`errFramePayloadLen` and returns no frame. And a ping frame read on a
client-role connection comes back with its payload masked by the key of the
pong (here `01 02 03 04`), not as it was sent. -/
theorem C1_counterexample :
    Frame.CalcPayloadLen ⟨1, 0, 0, 0, 1, 0, 0, 0, 0, 0, []⟩ = ⟨1, 0, 0, 0, 1, 0, 0, 0, 0, 0, []⟩ ∧
    FrameToBytes ⟨1, 0, 0, 0, 1, 0, 0, 0, 0, 0, []⟩ = [0x81, 0x00] ∧
    (readFrame 3 (newConn true [0x81, 0x00] [])).1 = none ∧
    (readFrame 3 (newConn true [0x81, 0x00] [])).2.1 = some Err.errFramePayloadLen ∧
    FrameToBytes ⟨1, 0, 0, 0, 9, 0, 3, 0, 0, 0, [0x61, 0x62, 0x63]⟩ = [0x89, 0x03, 0x61, 0x62, 0x63] ∧
    (readFrame 3 (newConn false [0x89, 0x03, 0x61, 0x62, 0x63] [0x01020304])).1 =
      some ⟨1, 0, 0, 0, 9, 0, 3, 0, 0, 0, [0x60, 0x60, 0x60]⟩ := by
  decide

/-! ## Receiving and sending whole messages -/

theorem CalcPayloadLen_idem (g : Frame) : g.CalcPayloadLen.CalcPayloadLen = g.CalcPayloadLen := by
  unfold Frame.CalcPayloadLen
  simp only
  split_ifs <;> rfl

theorem CalcPayloadLen_Payload (g : Frame) : g.CalcPayloadLen.Payload = g.Payload := by
  unfold Frame.CalcPayloadLen
  simp only
  split_ifs <;> rfl

theorem CalcPayloadLen_MaskPayload (g : Frame) :
    g.CalcPayloadLen.MaskPayload.Payload = g.MaskPayload.Payload := by
  unfold Frame.CalcPayloadLen
  simp only
  split_ifs <;> rfl

/-- The frame a client builds for the payload `P`, the key `K` and the opcode
`op`: final, masked, lengths set. -/
theorem maskedFrame_wf (P : List Nat) (K op : Nat) (hP : 0 < P.length)
    (hPmax : P.length ≤ maxAlloc) (hK : K < 2 ^ 32) (hop : op ≤ 15) :
    WellFormed (Frame.SetPayload ⟨1, 0, 0, 0, op, 1, 0, 0, 0, K, []⟩ P) := by
  have hl : (Frame.SetPayload ⟨1, 0, 0, 0, op, 1, 0, 0, 0, K, []⟩ P).Payload.length = P.length := by
    simp [Frame.SetPayload, CalcPayloadLen_Payload, Frame.MaskPayload]
  have hf : ∀ g : Frame, g.CalcPayloadLen.Fin = g.Fin ∧ g.CalcPayloadLen.RSV1 = g.RSV1 ∧
      g.CalcPayloadLen.RSV2 = g.RSV2 ∧ g.CalcPayloadLen.RSV3 = g.RSV3 ∧
      g.CalcPayloadLen.OpCode = g.OpCode ∧ g.CalcPayloadLen.Mask = g.Mask ∧
      g.CalcPayloadLen.MaskingKey = g.MaskingKey := by
    intro g
    unfold Frame.CalcPayloadLen
    simp only
    split_ifs <;> exact ⟨rfl, rfl, rfl, rfl, rfl, rfl, rfl⟩
  have hg := hf (Frame.MaskPayload ⟨1, 0, 0, 0, op, 1, 0, 0, 0, K, P⟩)
  have hs : Frame.SetPayload ⟨1, 0, 0, 0, op, 1, 0, 0, 0, K, []⟩ P =
      (Frame.MaskPayload ⟨1, 0, 0, 0, op, 1, 0, 0, 0, K, P⟩).CalcPayloadLen := by
    simp [Frame.SetPayload]
  obtain ⟨a1, a2, a3, a4, a5, a6, a7⟩ := hg
  refine
    { fin := ?_, rsv1 := ?_, rsv2 := ?_, rsv3 := ?_, op := ?_, mask := ?_, key := ?_, key0 := ?_
      len := ?_, nonempty := ?_, size := ?_ }
  · rw [hs, a1]; exact Nat.le_refl 1
  · rw [hs, a2]; exact Nat.zero_le 1
  · rw [hs, a3]; exact Nat.zero_le 1
  · rw [hs, a4]; exact Nat.zero_le 1
  · rw [hs, a5]; exact hop
  · rw [hs, a6]; exact Nat.le_refl 1
  · rw [hs, a7]; exact hK
  · rw [hs, a6]; intro h; exact absurd (show (1 : Nat) = 0 from h) (by decide)
  · rw [hs, CalcPayloadLen_idem]
  · rw [hl]; exact hP
  · rw [hl]; exact hPmax

/-- C6: one final masked data frame that carries the payload `P` under the key
`K` is returned by `ReadMessage` as `(op, P)` with no error: the payload is
unmasked exactly once. The bytes of the frame are those a client builds
with `SetPayload`: byte `i` of its payload is `P[i]` XOR key byte `i mod 4`. -/
theorem C6_read_masked_message (fuel : Nat) (wc : WsConn) (P : List Nat) (K op : Nat)
    (rest : List Nat) (hfuel : 1 ≤ fuel) (hP : 0 < P.length) (hPmax : P.length ≤ maxAlloc)
    (hK : K < 2 ^ 32) (hop : op = TextFrame ∨ op = BinaryFrame)
    (hrd : wc.rd = FrameToBytes (Frame.SetPayload ⟨1, 0, 0, 0, op, 1, 0, 0, 0, K, []⟩ P) ++ rest) :
    wc.ReadMessage fuel = (op, P, none, { wc with rd := rest }) ∧
    (∀ i : Nat, (Frame.SetPayload ⟨1, 0, 0, 0, op, 1, 0, 0, 0, K, []⟩ P).Payload[i]? =
      P[i]?.map (fun v => v ^^^ K / 2 ^ (8 * (3 - i % 4)) % 256)) := by
  obtain ⟨k, rfl⟩ : ∃ k, fuel = k + 1 := ⟨fuel - 1, by omega⟩
  have hop15 : op ≤ 15 := by
    rcases hop with h | h <;> rw [h] <;> decide
  have hwf := maskedFrame_wf P K op hP hPmax hK hop15
  have hs : Frame.SetPayload ⟨1, 0, 0, 0, op, 1, 0, 0, 0, K, []⟩ P =
      (Frame.MaskPayload ⟨1, 0, 0, 0, op, 1, 0, 0, 0, K, P⟩).CalcPayloadLen := by
    simp [Frame.SetPayload]
  have hopc : (Frame.SetPayload ⟨1, 0, 0, 0, op, 1, 0, 0, 0, K, []⟩ P).OpCode = op := by
    rw [hs]
    unfold Frame.CalcPayloadLen
    simp only
    split_ifs <;> rfl
  have hfin : (Frame.SetPayload ⟨1, 0, 0, 0, op, 1, 0, 0, 0, K, []⟩ P).MaskPayload.IsFinal
      = true := by
    rw [hs]
    unfold Frame.CalcPayloadLen
    simp only
    split_ifs <;> rfl
  have hpay : (Frame.SetPayload ⟨1, 0, 0, 0, op, 1, 0, 0, 0, K, []⟩ P).MaskPayload.Payload = P := by
    rw [hs, CalcPayloadLen_MaskPayload, MaskPayload_twice]
  have hdata : (Frame.SetPayload ⟨1, 0, 0, 0, op, 1, 0, 0, 0, K, []⟩ P).OpCode = TextFrame ∨
      (Frame.SetPayload ⟨1, 0, 0, 0, op, 1, 0, 0, 0, K, []⟩ P).OpCode = BinaryFrame ∨
      (Frame.SetPayload ⟨1, 0, 0, 0, op, 1, 0, 0, 0, K, []⟩ P).OpCode = ContinuationFrame := by
    rw [hopc]
    rcases hop with h | h
    · exact Or.inl h
    · exact Or.inr (Or.inl h)
  constructor
  · unfold WsConn.ReadMessage
    rw [readFrame_wf _ wc _ hwf rest hrd, handleOpCode_data _ _ _ hdata]
    simp only
    rw [readRest, hfin, hpay, hopc]
    rfl
  · intro i
    rw [hs, CalcPayloadLen_Payload]
    exact MaskPayload_getElem? _ i

/-- The witness of C6: the bytes `81 82 37 FA 21 3D 5F 93` are read as the
text message "hi". -/
theorem C6_read_masked_message_witness :
    (newConn true [0x81, 0x82, 0x37, 0xFA, 0x21, 0x3D, 0x5F, 0x93] []).ReadMessage 1 =
      (TextFrame, [0x68, 0x69], none, newConn true [] []) :=
  (C6_read_masked_message 1 (newConn true [0x81, 0x82, 0x37, 0xFA, 0x21, 0x3D, 0x5F, 0x93] [])
    [0x68, 0x69] 0x37FA213D TextFrame [] (by decide) (by decide) (by decide) (by decide)
    (Or.inl rfl) (by decide)).1

theorem check_plainFrame (fin op : Nat) (p : List Nat) (hfin : fin ≤ 1) (hop : op ≤ 15)
    (hp : 0 < p.length) (hp2 : p.length < 2 ^ 64) :
    CheckFrameWithoutPayload (plainFrame fin op p) = none := by
  unfold plainFrame
  apply check_CalcPayloadLen <;> simp only <;> omega

theorem FrameToBytes_plainFrame_small (op : Nat) (p : List Nat) (hop : op ≤ 15)
    (hp : p.length ≤ 125) :
    FrameToBytes (plainFrame 1 op p) = [0x80 ||| op, p.length] ++ p := by
  unfold plainFrame
  rw [CalcPayloadLen_small _ hp, FrameToBytes_eq,
    header_bytes _ (Nat.le_refl 1) (Nat.zero_le 1) (Nat.zero_le 1) (Nat.zero_le 1) hop
      (Nat.zero_le 1) (by simp only; omega)]
  have n1 : ¬ p.length = 126 := by omega
  have n2 : ¬ p.length = 127 := by omega
  simp [extBytes, keyBytes, n1, n2]

theorem FrameToBytes_plainFrame_medium (op : Nat) (p : List Nat) (hop : op ≤ 15)
    (hp1 : 126 ≤ p.length) (hp2 : p.length ≤ 65535) :
    FrameToBytes (plainFrame 1 op p) =
      [0x80 ||| op, 126, p.length / 256, p.length % 256] ++ p := by
  unfold plainFrame
  rw [CalcPayloadLen_medium _ hp1 hp2, FrameToBytes_eq,
    header_bytes _ (Nat.le_refl 1) (Nat.zero_le 1) (Nat.zero_le 1) (Nat.zero_le 1) hop
      (Nat.zero_le 1) (by simp only; omega)]
  have e : p.length / 256 % 256 = p.length / 256 := by omega
  simp [extBytes, keyBytes, beBytes, e]

/-- C7: on a server-role connection whose writer accepts the bytes, a text or
binary message of 1 to 65535 bytes is written as exactly one frame, final and
unmasked, with the payload as it is. -/
theorem C7_send_single_frame (fuel : Nat) (wc : WsConn) (P : List Nat) (op : Nat)
    (hfuel : 1 ≤ fuel) (hs : wc.IsServer = true) (h1 : 1 ≤ P.length) (h2 : P.length ≤ 65535)
    (hop : op = TextFrame ∨ op = BinaryFrame) (hr : wc.released = false)
    (hb : wc.wrBudget = none) :
    sendDataFrame fuel wc P op =
      (none, { wc with wire := wc.wire ++
        (if P.length ≤ 125 then [0x80 ||| op, P.length] ++ P
         else [0x80 ||| op, 126, P.length / 256, P.length % 256] ++ P) }) := by
  obtain ⟨k, rfl⟩ : ∃ k, fuel = k + 1 := ⟨fuel - 1, by omega⟩
  have hop15 : op ≤ 15 := by
    rcases hop with h | h <;> rw [h] <;> decide
  have hopm : op % 65536 = op := by omega
  have hop0 : ¬ op = ContinuationFrame := by
    rcases hop with h | h <;> rw [h] <;> decide
  have hS : shardSize = 65535 := rfl
  have hC : SendCriticalSize = 2048000 := rfl
  obtain ⟨rd, wire, bud, rel, rand, st, srv, cl⟩ := wc
  simp only at hs hr hb
  subst hs hr hb
  unfold sendDataFrame
  have c1 : (!decide (op = TextFrame ∨ op = BinaryFrame)) = false := by simp [hop]
  rw [c1]
  simp only [Bool.false_eq_true, if_false]
  rw [if_neg (by omega), if_neg (by omega), constructDataFrame_noMask, if_neg hop0, hopm]
  simp only
  rw [sendFrame_ok _ _ _ (check_plainFrame 1 op P (by decide) hop15 (by omega) (by omega)),
    write_ok _ _ rfl rfl]
  by_cases hsm : P.length ≤ 125
  · rw [if_pos hsm, FrameToBytes_plainFrame_small op P hop15 hsm]
  · rw [if_neg hsm, FrameToBytes_plainFrame_medium op P hop15 (by omega) h2]

/-- The witness of C7: sending the text "hi" writes `81 02 68 69`. -/
theorem C7_send_single_frame_witness :
    sendDataFrame 1 (newConn true [] []) [0x68, 0x69] TextFrame =
      (none, { newConn true [] [] with wire := [0x81, 0x02, 0x68, 0x69] }) :=
  C7_send_single_frame 1 (newConn true [] []) [0x68, 0x69] TextFrame (by decide) rfl (by decide)
    (by decide) (Or.inl rfl) rfl rfl


theorem readFrame_first_fragment :
    readFrame 3 (newConn true
      [0x01, 0x81, 0x01, 0x02, 0x03, 0x04, 0x60,
       0x89, 0x81, 0x01, 0x02, 0x03, 0x04, 0x71,
       0x80, 0x81, 0x01, 0x02, 0x03, 0x04, 0x63] []) =
      (some ⟨0, 0, 0, 0, 1, 1, 1, 0, 0, 0x01020304, [0x60]⟩, none,
        newConn true
          [0x89, 0x81, 0x01, 0x02, 0x03, 0x04, 0x71,
           0x80, 0x81, 0x01, 0x02, 0x03, 0x04, 0x63] []) := by
  decide

theorem readFrame_interleaved_ping :
    readFrame 3 (newConn true
      [0x89, 0x81, 0x01, 0x02, 0x03, 0x04, 0x71,
       0x80, 0x81, 0x01, 0x02, 0x03, 0x04, 0x63] []) =
      (some ⟨1, 0, 0, 0, 9, 1, 1, 0, 0, 0x01020304, [0x71]⟩, none,
        { newConn true [0x80, 0x81, 0x01, 0x02, 0x03, 0x04, 0x63] [] with
          wire := [0x8A, 0x01, 0x71] }) := by
  decide

/-- C8 fails on the code: the text message "a" + "b" is sent as a first frame
(`Fin = 0`) and a final continuation frame, with a ping "p" between them, all
masked with the key `01 02 03 04`. `ReadMessage` answers the ping, then adds
the payload of the ping to the message and stops at it, since the ping frame
is final: it returns the text "ap" and leaves the continuation frame unread. -/
theorem C8_ping_ends_the_message :
    (newConn true
      [0x01, 0x81, 0x01, 0x02, 0x03, 0x04, 0x60,
       0x89, 0x81, 0x01, 0x02, 0x03, 0x04, 0x71,
       0x80, 0x81, 0x01, 0x02, 0x03, 0x04, 0x63] []).ReadMessage 3 =
      (TextFrame, [0x61, 0x70], none,
        { newConn true [0x80, 0x81, 0x01, 0x02, 0x03, 0x04, 0x63] [] with
          wire := [0x8A, 0x01, 0x71] }) := by
  have m1 : Frame.MaskPayload ⟨0, 0, 0, 0, 1, 1, 1, 0, 0, 0x01020304, [0x60]⟩ =
      ⟨0, 0, 0, 0, 1, 1, 1, 0, 0, 0x01020304, [0x61]⟩ := by decide
  have m2 : Frame.MaskPayload ⟨1, 0, 0, 0, 9, 1, 1, 0, 0, 0x01020304, [0x71]⟩ =
      ⟨1, 0, 0, 0, 9, 1, 1, 0, 0, 0x01020304, [0x70]⟩ := by decide
  unfold WsConn.ReadMessage
  rw [readFrame_first_fragment]
  simp only [m1]
  rw [readRest]
  simp only [Frame.IsFinal]
  rw [if_pos (by decide), readFrame_interleaved_ping]
  simp only [m2]
  rw [readRest]
  simp only [Frame.IsFinal]
  rw [if_neg (by decide)]
  rfl

/-- C9 fails on the code: the ping "abc" masked with the key `37 FA 21 3D` is
`89 83 37 FA 21 3D 56 98 42` on the wire. The server-role connection answers
while the payload is still masked: the pong it writes is `8A 03 56 98 42`,
not `8A 03 61 62 63`. -/
theorem C9_pong_carries_masked_bytes :
    (Frame.SetPayload ⟨1, 0, 0, 0, PingFrame, 1, 0, 0, 0, 0x37FA213D, []⟩ [0x61, 0x62, 0x63]).Payload
      = [0x56, 0x98, 0x42] ∧
    FrameToBytes (Frame.SetPayload ⟨1, 0, 0, 0, PingFrame, 1, 0, 0, 0, 0x37FA213D, []⟩
      [0x61, 0x62, 0x63]) = [0x89, 0x83, 0x37, 0xFA, 0x21, 0x3D, 0x56, 0x98, 0x42] ∧
    (readFrame 3 (newConn true [0x89, 0x83, 0x37, 0xFA, 0x21, 0x3D, 0x56, 0x98, 0x42] [])).2.2.wire
      = [0x8A, 0x03, 0x56, 0x98, 0x42] := by
  decide

theorem FrameToBytes_close_1000 :
    FrameToBytes (plainFrame 1 ConnectionCloseFrame
      (PutUint16 (CloseRight % 65536) ++ stringBytes (Error CloseRight))) =
      [0x88, 23, 0x03, 0xE8] ++ stringBytes "正常，关闭连接" := by
  decide

theorem construct_unmasked_payload (rand : List Nat) (mt : Nat) (isServer : Bool) (p : List Nat)
    (hp : 0 < p.length) :
    (if (constructControlFrame rand mt isServer p).1.Mask = 1
      then (constructControlFrame rand mt isServer p).1.MaskPayload.Payload
      else (constructControlFrame rand mt isServer p).1.Payload) = p := by
  have hm : ∀ g : Frame, g.CalcPayloadLen.Mask = g.Mask := by
    intro g
    unfold Frame.CalcPayloadLen
    simp only
    split_ifs <;> rfl
  have hm2 : ∀ g : Frame, g.MaskPayload.Mask = g.Mask := fun _ => rfl
  unfold constructControlFrame constructFrame Frame.CreateMaskingKey Frame.SetPayload
  cases isServer
  · simp only [Bool.false_eq_true, if_false, if_true, hp, Bool.not_true, gt_iff_lt, hm, hm2,
      CalcPayloadLen_MaskPayload, MaskPayload_twice]
  · simp only [if_true, hp, Bool.not_true, Bool.false_eq_true, if_false, gt_iff_lt,
      Nat.zero_ne_one, hm, CalcPayloadLen_Payload]

theorem construct_OpCode_Fin (rand : List Nat) (mt : Nat) (isServer : Bool) (p : List Nat) :
    (constructControlFrame rand mt isServer p).1.OpCode = mt % 65536 ∧
    (constructControlFrame rand mt isServer p).1.Fin = 1 := by
  have hf : ∀ g : Frame, g.CalcPayloadLen.OpCode = g.OpCode ∧ g.CalcPayloadLen.Fin = g.Fin := by
    intro g
    unfold Frame.CalcPayloadLen
    simp only
    split_ifs <;> exact ⟨rfl, rfl⟩
  unfold constructControlFrame constructFrame Frame.CreateMaskingKey Frame.SetPayload
  cases isServer <;> by_cases hp : p.length > 0 <;>
    simp only [Bool.false_eq_true, if_false, if_true, hp, Bool.not_true, Nat.zero_ne_one, hf,
      Frame.MaskPayload, and_self]

/-- C10 (amended): a connection whose writer accepts the bytes answers a close
frame that carries a payload with a close frame whose code is always 1000,
whatever code the peer sent, and ends in state `Closed` with the stream
closed. On a server-role connection the answer is `88 17 03 E8` followed by
the reason text of code 1000. -/
theorem C10_close_reply_is_1000 (fuel : Nat) (wc : WsConn) (F : Frame) (rest : List Nat)
    (hfuel : 3 ≤ fuel) (hwf : WellFormed F) (hop : F.OpCode = ConnectionCloseFrame)
    (hrd : wc.rd = FrameToBytes F ++ rest) (hr : wc.released = false)
    (hb : wc.wrBudget = none) :
    ∃ G : Frame,
      (readFrame fuel wc).2.2.wire = wc.wire ++ FrameToBytes G ∧
      G.OpCode = ConnectionCloseFrame ∧ G.Fin = 1 ∧
      (if G.Mask = 1 then G.MaskPayload.Payload else G.Payload) =
        [0x03, 0xE8] ++ stringBytes (Error CloseRight) ∧
      (wc.IsServer = true →
        FrameToBytes G = [0x88, 23, 0x03, 0xE8] ++ stringBytes "正常，关闭连接") ∧
      (readFrame fuel wc).2.2.State = Closed ∧
      (readFrame fuel wc).2.2.released = true := by
  obtain ⟨k, rfl⟩ : ∃ k, fuel = k + 3 := ⟨fuel - 3, by omega⟩
  have hh := handleOpCode_close k { wc with rd := rest } F hop hr hb
  have hcode16 : PutUint16 (CloseRight % 65536) = [0x03, 0xE8] := by decide
  rw [readFrame_wf _ wc F hwf rest hrd, hh]
  simp only
  have hlen : 0 < (PutUint16 (CloseRight % 65536) ++ stringBytes (Error CloseRight)).length := by
    rw [hcode16]
    simp
  have hG := construct_OpCode_Fin wc.rand ConnectionCloseFrame wc.IsServer
    (PutUint16 (CloseRight % 65536) ++ stringBytes (Error CloseRight))
  have hU := construct_unmasked_payload wc.rand ConnectionCloseFrame wc.IsServer
    (PutUint16 (CloseRight % 65536) ++ stringBytes (Error CloseRight)) hlen
  refine ⟨(constructControlFrame wc.rand ConnectionCloseFrame wc.IsServer
    (PutUint16 (CloseRight % 65536) ++ stringBytes (Error CloseRight))).1, Eq.refl _, hG.1, hG.2,
    ?_, ?_, trivial, trivial⟩
  · rw [hU, hcode16]
  · intro hs
    rw [hs, constructControlFrame_server _ _ _ (by decide) hlen]
    exact FrameToBytes_close_1000

/-- The witness of C10: a masked close frame with code 1001 on a fresh
server-role connection. -/
theorem C10_close_reply_is_1000_witness :
    ∃ G : Frame,
      (readFrame 3 (newConn true [0x88, 0x82, 0x01, 0x02, 0x03, 0x04, 0x02, 0xEB] [])).2.2.wire =
        [] ++ FrameToBytes G ∧ G.OpCode = ConnectionCloseFrame := by
  obtain ⟨G, h1, h2, _⟩ := C10_close_reply_is_1000 3
    (newConn true [0x88, 0x82, 0x01, 0x02, 0x03, 0x04, 0x02, 0xEB] [])
    ⟨1, 0, 0, 0, 8, 1, 2, 0, 0, 0x01020304, [0x02, 0xEB]⟩ [] (by decide)
    ⟨by decide, by decide, by decide, by decide, by decide, by decide, by decide, by decide,
      by decide, by decide, by decide⟩ rfl (by decide) rfl rfl
  exact ⟨G, h1, h2⟩

/-- C10 as stated fails: the peer closes with code 1001 (payload `03 E9`,
masked with the key `01 02 03 04`). The close frame the server-role
connection writes carries `03 E8`, code 1000, and `ReadMessage` returns the
close frame as a message of type 8 with no error. -/
theorem C10_counterexample :
    FrameToBytes (Frame.SetPayload ⟨1, 0, 0, 0, ConnectionCloseFrame, 1, 0, 0, 0, 0x01020304, []⟩
      [0x03, 0xE9]) = [0x88, 0x82, 0x01, 0x02, 0x03, 0x04, 0x02, 0xEB] ∧
    ((newConn true [0x88, 0x82, 0x01, 0x02, 0x03, 0x04, 0x02, 0xEB] []).ReadMessage 3).2.2.2.wire.take 4
      = [0x88, 23, 0x03, 0xE8] ∧
    ((newConn true [0x88, 0x82, 0x01, 0x02, 0x03, 0x04, 0x02, 0xEB] []).ReadMessage 3).1
      = ConnectionCloseFrame ∧
    ((newConn true [0x88, 0x82, 0x01, 0x02, 0x03, 0x04, 0x02, 0xEB] []).ReadMessage 3).2.1
      = [0x03, 0xE9] ∧
    ((newConn true [0x88, 0x82, 0x01, 0x02, 0x03, 0x04, 0x02, 0xEB] []).ReadMessage 3).2.2.1
      = none := by
  decide

/-! ## Validation on receipt -/

theorem handleOpCode_reserved (fuel : Nat) (wc : WsConn) (F : Frame)
    (h : (3 ≤ F.OpCode ∧ F.OpCode ≤ 7) ∨ 11 ≤ F.OpCode) (hr : wc.released = false)
    (hb : wc.wrBudget = none) :
    handleOpCode (fuel + 3) wc F =
      (F, none, { wc with
        rand := (constructControlFrame wc.rand ConnectionCloseFrame wc.IsServer
                  (PutUint16 (CloseNotAccept % 65536) ++ stringBytes (Error CloseNotAccept))).2,
        wire := wc.wire ++ FrameToBytes (constructControlFrame wc.rand ConnectionCloseFrame
                  wc.IsServer
                  (PutUint16 (CloseNotAccept % 65536) ++ stringBytes (Error CloseNotAccept))).1,
        State := Closed, released := true }) := by
  unfold handleOpCode
  have n1 : ¬ (F.OpCode = TextFrame ∨ F.OpCode = BinaryFrame ∨ F.OpCode = ContinuationFrame) := by
    simp only [TextFrame, BinaryFrame, ContinuationFrame]; omega
  have n2 : ¬ F.OpCode = PingFrame := by simp only [PingFrame]; omega
  have n3 : ¬ F.OpCode = PongFrame := by simp only [PongFrame]; omega
  have n4 : ¬ F.OpCode = ConnectionCloseFrame := by simp only [ConnectionCloseFrame]; omega
  rw [if_neg n1, if_neg n2, if_neg n3, if_neg n4]
  simp only [WsConn.CloseNotAccept]
  rw [close_ok _ _ _ hr hb]

theorem FrameToBytes_close_1003 :
    FrameToBytes (plainFrame 1 ConnectionCloseFrame
      (PutUint16 (CloseNotAccept % 65536) ++ stringBytes (Error CloseNotAccept))) =
      [0x88, 68, 0x03, 0xEB] ++ stringBytes "浏览器或服务器接收到不能接受的数据，关闭连接" := by
  decide

/-- C11 (amended): reserved bits that are 1 do not make `readFrame` reject a
frame: a data frame with a payload and any reserved bits is returned with no
error and nothing is written. A frame with a reserved opcode and a payload is
answered with a close frame of code 1003 (not 1002), after which the
connection is `Closed`; on a server-role connection the answer is
`88 44 03 EB` followed by the reason text of code 1003. -/
theorem C11_reserved_bits_and_opcodes (fuel : Nat) (wc : WsConn) (F : Frame) (rest : List Nat)
    (hfuel : 3 ≤ fuel) (hwf : WellFormed F) (hrd : wc.rd = FrameToBytes F ++ rest) :
    (F.OpCode = TextFrame ∨ F.OpCode = BinaryFrame ∨ F.OpCode = ContinuationFrame →
      readFrame fuel wc = (some F, none, { wc with rd := rest })) ∧
    (((3 ≤ F.OpCode ∧ F.OpCode ≤ 7) ∨ 11 ≤ F.OpCode) → wc.released = false →
      wc.wrBudget = none →
      ∃ G : Frame,
        (readFrame fuel wc).2.2.wire = wc.wire ++ FrameToBytes G ∧
        G.OpCode = ConnectionCloseFrame ∧ G.Fin = 1 ∧
        (if G.Mask = 1 then G.MaskPayload.Payload else G.Payload) =
          [0x03, 0xEB] ++ stringBytes (Error CloseNotAccept) ∧
        (wc.IsServer = true → FrameToBytes G = [0x88, 68, 0x03, 0xEB] ++
          stringBytes "浏览器或服务器接收到不能接受的数据，关闭连接") ∧
        (readFrame fuel wc).2.2.State = Closed ∧
        (readFrame fuel wc).2.2.released = true) := by
  obtain ⟨k, rfl⟩ : ∃ k, fuel = k + 3 := ⟨fuel - 3, by omega⟩
  constructor
  · intro hd
    rw [readFrame_wf _ wc F hwf rest hrd, handleOpCode_data _ _ _ hd]
  · intro hres hr hb
    have hh := handleOpCode_reserved k { wc with rd := rest } F hres hr hb
    have hcode16 : PutUint16 (CloseNotAccept % 65536) = [0x03, 0xEB] := by decide
    rw [readFrame_wf _ wc F hwf rest hrd, hh]
    simp only
    have hlen : 0 < (PutUint16 (CloseNotAccept % 65536) ++
        stringBytes (Error CloseNotAccept)).length := by
      rw [hcode16]
      simp
    have hG := construct_OpCode_Fin wc.rand ConnectionCloseFrame wc.IsServer
      (PutUint16 (CloseNotAccept % 65536) ++ stringBytes (Error CloseNotAccept))
    have hU := construct_unmasked_payload wc.rand ConnectionCloseFrame wc.IsServer
      (PutUint16 (CloseNotAccept % 65536) ++ stringBytes (Error CloseNotAccept)) hlen
    refine ⟨(constructControlFrame wc.rand ConnectionCloseFrame wc.IsServer
      (PutUint16 (CloseNotAccept % 65536) ++ stringBytes (Error CloseNotAccept))).1, Eq.refl _,
      hG.1, hG.2, ?_, ?_, trivial, trivial⟩
    · rw [hU, hcode16]
    · intro hs
      rw [hs, constructControlFrame_server _ _ _ (by decide) hlen]
      exact FrameToBytes_close_1003

/-- The witness of C11: a masked text frame with `RSV1 = 1` is read with no
error. -/
theorem C11_reserved_bits_and_opcodes_witness :
    readFrame 3 (newConn true [0xC1, 0x81, 0x01, 0x02, 0x03, 0x04, 0x60] []) =
      (some ⟨1, 1, 0, 0, 1, 1, 1, 0, 0, 0x01020304, [0x60]⟩, none, newConn true [] []) :=
  (C11_reserved_bits_and_opcodes 3 (newConn true [0xC1, 0x81, 0x01, 0x02, 0x03, 0x04, 0x60] [])
    ⟨1, 1, 0, 0, 1, 1, 1, 0, 0, 0x01020304, [0x60]⟩ [] (by decide)
    ⟨by decide, by decide, by decide, by decide, by decide, by decide, by decide, by decide,
      by decide, by decide, by decide⟩ rfl).1 (Or.inl rfl)

/-- C11 as stated fails. The masked text frame "a" with `RSV1 = 1`
(`C1 81 01 02 03 04 60`) is returned with no error and nothing is written.
The masked frame with the reserved opcode 3 (`83 81 01 02 03 04 60`) is
returned with no error, and the close frame that is written carries `03 EB`,
code 1003. -/
theorem C11_counterexample :
    (readFrame 3 (newConn true [0xC1, 0x81, 0x01, 0x02, 0x03, 0x04, 0x60] [])).1 =
      some ⟨1, 1, 0, 0, 1, 1, 1, 0, 0, 0x01020304, [0x60]⟩ ∧
    (readFrame 3 (newConn true [0xC1, 0x81, 0x01, 0x02, 0x03, 0x04, 0x60] [])).2.1 = none ∧
    (readFrame 3 (newConn true [0xC1, 0x81, 0x01, 0x02, 0x03, 0x04, 0x60] [])).2.2.wire = [] ∧
    (readFrame 3 (newConn true [0x83, 0x81, 0x01, 0x02, 0x03, 0x04, 0x60] [])).2.1 = none ∧
    (readFrame 3 (newConn true [0x83, 0x81, 0x01, 0x02, 0x03, 0x04, 0x60] [])).2.2.wire.take 4 =
      [0x88, 68, 0x03, 0xEB] := by
  decide

/-- C12 (amended): `readFrame` has no test of the mask bit against the role.
On a server-role connection an unmasked data frame with a payload is
returned as it is, with no error, and nothing is written. -/
theorem C12_unmasked_frame_accepted (fuel : Nat) (wc : WsConn) (F : Frame) (rest : List Nat)
    (hwf : WellFormed F) (hmask : F.Mask = 0) (hs : wc.IsServer = true)
    (hop : F.OpCode = TextFrame ∨ F.OpCode = BinaryFrame ∨ F.OpCode = ContinuationFrame)
    (hrd : wc.rd = FrameToBytes F ++ rest) :
    readFrame fuel wc = (some F, none, { wc with rd := rest }) ∧
    (readFrame fuel wc).2.2.wire = wc.wire ∧
    (readFrame fuel wc).2.2.State = wc.State := by
  have h := readFrame_wf fuel wc F hwf rest hrd
  rw [handleOpCode_data _ _ _ hop] at h
  rw [h]
  exact ⟨rfl, rfl, rfl⟩

/-- The witness of C12: the unmasked text frame "hi" on a server-role
connection. -/
theorem C12_unmasked_frame_accepted_witness :
    readFrame 3 (newConn true [0x81, 0x02, 0x68, 0x69] []) =
      (some ⟨1, 0, 0, 0, 1, 0, 2, 0, 0, 0, [0x68, 0x69]⟩, none, newConn true [] []) :=
  (C12_unmasked_frame_accepted 3 (newConn true [0x81, 0x02, 0x68, 0x69] [])
    ⟨1, 0, 0, 0, 1, 0, 2, 0, 0, 0, [0x68, 0x69]⟩ []
    ⟨by decide, by decide, by decide, by decide, by decide, by decide, by decide, by decide,
      by decide, by decide, by decide⟩ rfl rfl (Or.inl rfl) rfl).1

/-- C12 as stated fails: the unmasked text frame `81 02 68 69` is read on a
server-role connection with no error, `ReadMessage` delivers it as the text
"hi", and no close frame is written. -/
theorem C12_counterexample :
    (newConn true [0x81, 0x02, 0x68, 0x69] []).IsServer = true ∧
    (readFrame 3 (newConn true [0x81, 0x02, 0x68, 0x69] [])).1 =
      some ⟨1, 0, 0, 0, 1, 0, 2, 0, 0, 0, [0x68, 0x69]⟩ ∧
    (readFrame 3 (newConn true [0x81, 0x02, 0x68, 0x69] [])).2.1 = none ∧
    (newConn true [0x81, 0x02, 0x68, 0x69] []).ReadMessage 3 =
      (TextFrame, [0x68, 0x69], none, newConn true [] []) := by
  decide

/-- C13 (amended): the check does not look at the opcode of a control frame
together with `Fin` or the length. For a frame with opcode `0x8..0xF` whose
header bits are 0 or 1, `CheckFrameWithoutPayload` returns no error exactly
when `PayloadLen` is in 1..125, or is 126 with a 16-bit length that is not
zero, or is 127 with a 64-bit length that is not zero: also when `Fin = 0`. -/
theorem C13_check_ignores_control_rules (f : Frame) (hfin : f.Fin ≤ 1) (h1 : f.RSV1 ≤ 1)
    (h2 : f.RSV2 ≤ 1) (h3 : f.RSV3 ≤ 1) (hm : f.Mask ≤ 1) (hop : 8 ≤ f.OpCode)
    (hop2 : f.OpCode ≤ 15) :
    CheckFrameWithoutPayload f = none ↔
      ((0 < f.PayloadLen ∧ f.PayloadLen ≤ 125) ∨ (f.PayloadLen = 126 ∧ f.PayloadExtendLen16 ≠ 0)
        ∨ (f.PayloadLen = 127 ∧ f.PayloadExtendLen64 ≠ 0)) := by
  constructor
  · intro hc
    by_contra hn
    have a1 : ¬ (0 < f.PayloadLen ∧ f.PayloadLen ≤ 125) := fun h => hn (Or.inl h)
    have a2 : ¬ (f.PayloadLen = 126 ∧ f.PayloadExtendLen16 ≠ 0) := fun h => hn (Or.inr (Or.inl h))
    have a3 : ¬ (f.PayloadLen = 127 ∧ f.PayloadExtendLen64 ≠ 0) := fun h => hn (Or.inr (Or.inr h))
    have e1 : f.Fin = 0 ∨ f.Fin = 1 := by omega
    have e2 : f.RSV1 = 0 ∨ f.RSV1 = 1 := by omega
    have e3 : f.RSV2 = 0 ∨ f.RSV2 = 1 := by omega
    have e4 : f.RSV3 = 0 ∨ f.RSV3 = 1 := by omega
    have e6 : f.Mask = 0 ∨ f.Mask = 1 := by omega
    have e5 : ¬ f.OpCode > 15 := by omega
    have c1 : (!(f.Fin == 1 || f.Fin == 0)) = false := by
      rcases e1 with e | e <;> simp [e]
    have c2 : (!(f.RSV1 == 1 || f.RSV1 == 0)) = false := by
      rcases e2 with e | e <;> simp [e]
    have c3 : (!(f.RSV2 == 1 || f.RSV2 == 0)) = false := by
      rcases e3 with e | e <;> simp [e]
    have c4 : (!(f.RSV3 == 1 || f.RSV3 == 0)) = false := by
      rcases e4 with e | e <;> simp [e]
    have c6 : (!(f.Mask == 1 || f.Mask == 0)) = false := by
      rcases e6 with e | e <;> simp [e]
    unfold CheckFrameWithoutPayload at hc
    simp only [c1, c2, c3, c4, c6, e5, if_false, Bool.false_eq_true] at hc
    have c7 : (!(decide (f.PayloadLen > 0) && decide (f.PayloadLen ≤ 125))) = true := by
      simp only [Bool.not_eq_true', Bool.and_eq_false_imp, decide_eq_true_eq, decide_eq_false_iff_not]
      intro h0 h125
      exact a1 ⟨h0, h125⟩
    rw [c7] at hc
    simp only [if_true] at hc
    by_cases p126 : f.PayloadLen = 126
    · rw [if_pos p126] at hc
      by_cases z : f.PayloadExtendLen16 = 0
      · rw [if_pos z] at hc
        exact absurd hc (by decide)
      · exact a2 ⟨p126, z⟩
    · rw [if_neg p126] at hc
      by_cases p127 : f.PayloadLen = 127
      · rw [if_pos p127] at hc
        by_cases z : f.PayloadExtendLen64 = 0
        · rw [if_pos z] at hc
          exact absurd hc (by decide)
        · exact a3 ⟨p127, z⟩
      · rw [if_neg p127] at hc
        exact absurd hc (by decide)
  · intro h
    exact check_small f hfin h1 h2 h3 hop2 hm h

/-- The witness of C13: a ping frame with `Fin = 0` and a 16-bit length of
200 passes the check. -/
theorem C13_check_ignores_control_rules_witness :
    CheckFrameWithoutPayload ⟨0, 0, 0, 0, 9, 1, 126, 200, 0, 0x01020304, []⟩ = none :=
  (C13_check_ignores_control_rules ⟨0, 0, 0, 0, 9, 1, 126, 200, 0, 0x01020304, []⟩ (by decide)
    (by decide) (by decide) (by decide) (by decide) (by decide) (by decide)).2
    (Or.inr (Or.inl ⟨rfl, by decide⟩))

/-- C13 as stated fails: a ping frame with `Fin = 0` and one byte of payload,
a ping frame with `PayloadLen = 126` (200 bytes) and a close frame with
`PayloadLen = 127` (70,000 bytes) all pass `CheckFrameWithoutPayload`; and
`sendFrame` writes the fragmented ping, `09 01 70`, with no error. -/
theorem C13_counterexample :
    CheckFrameWithoutPayload ⟨0, 0, 0, 0, 9, 0, 1, 0, 0, 0, [0x70]⟩ = none ∧
    CheckFrameWithoutPayload ⟨1, 0, 0, 0, 9, 0, 126, 200, 0, 0, List.replicate 200 0x70⟩ = none ∧
    CheckFrameWithoutPayload ⟨1, 0, 0, 0, 8, 0, 127, 0, 70000, 0, []⟩ = none ∧
    sendFrame 1 (newConn true [] []) ⟨0, 0, 0, 0, 9, 0, 1, 0, 0, 0, [0x70]⟩ =
      (none, { newConn true [] [] with wire := [0x09, 0x01, 0x70] }) := by
  decide

/-- C14 fails on the code: the masked binary frame header
`82 FF 80 00 00 00 00 00 00 00 01 02 03 04` announces 2^63 payload bytes.
The check passes, since the 64-bit length is not zero, and `readFrame` goes on
to `make([]byte, 0, remainBytesNum)`, which panics: no protocol error is
returned and no close frame is written. -/
theorem C14_huge_length_panics :
    CheckFrameWithoutPayload ⟨1, 0, 0, 0, 2, 1, 127, 0, 2 ^ 63, 0x01020304, []⟩ = none ∧
    readFrame 3 (newConn true
      [0x82, 0xFF, 0x80, 0x00, 0x00, 0x00, 0x00, 0x00, 0x00, 0x00, 0x01, 0x02, 0x03, 0x04] []) =
      (none, some Err.goPanic, newConn true [] []) := by
  decide

/-! ## The size limit of a message and the close frame -/

theorem sendDataFrame_tooBig (fuel : Nat) (wc : WsConn) (data : List Nat) (op : Nat)
    (hop : op = TextFrame ∨ op = BinaryFrame) (hbig : SendCriticalSize < data.length) :
    sendDataFrame fuel wc data op = wc.CloseTooBigData fuel := by
  unfold sendDataFrame
  have c1 : (!decide (op = TextFrame ∨ op = BinaryFrame)) = false := by simp [hop]
  rw [c1]
  simp only [Bool.false_eq_true, if_false]
  rw [if_pos hbig]

/-- What `close` does on a server-role connection whose writer accepts the
frame. -/
theorem close_server (fuel : Nat) (wc : WsConn) (code : Nat) (hcode : code < 65536)
    (hs : wc.IsServer = true) (hr : wc.released = false) (hb : wc.wrBudget = none) :
    close (fuel + 3) wc code =
      (none, { wc with
        wire := wc.wire ++ ([0x88, 2 + (stringBytes (Error code)).length, code / 256, code % 256]
                  ++ stringBytes (Error code)),
        State := Closed, released := true }) := by
  have hl := Error_length code
  have hp16 : PutUint16 (code % 65536) = [code / 256, code % 256] := by
    have e1 : code % 65536 = code := by omega
    have e2 : code / 256 % 256 = code / 256 := by omega
    simp [PutUint16, Nat.shiftRight_eq_div_pow, e1, e2]
  have hlen : (PutUint16 (code % 65536) ++ stringBytes (Error code)).length =
      2 + (stringBytes (Error code)).length := by
    rw [hp16]
    simp only [List.length_append, List.length_cons, List.length_nil]
  rw [close_ok _ _ _ hr hb, hs, constructControlFrame_server _ _ _ (by decide) (by omega),
    FrameToBytes_plainFrame_small _ _ (by decide) (by omega), hlen, hp16]
  rfl

/-- C15 fails on the code: a text message of 3 MiB (3,145,728 bytes) on a fresh
server-role connection. `sendDataFrame` returns what `CloseTooBigData`
returns, and the close frame is written with success: the caller gets no
error. The close frame of code 1009 (`03 F1`) is the only frame written. -/
theorem C15_too_large_returns_nil :
    sendDataFrame 3 (newConn true [] []) (List.replicate 3145728 0x61) TextFrame =
      (none, { newConn true [] [] with
        wire := [0x88, 29, 0x03, 0xF1] ++ stringBytes "消息太大，关闭连接",
        State := Closed, released := true }) := by
  have hbig : SendCriticalSize < (List.replicate 3145728 0x61).length := by
    rw [List.length_replicate]
    decide
  rw [sendDataFrame_tooBig _ _ _ _ (Or.inl rfl) hbig, WsConn.CloseTooBigData,
    close_server 0 _ _ (by decide) rfl rfl rfl]
  decide

/-- C20: on a server-role connection whose writer accepts the frame,
`close(wc, c)` writes exactly one unmasked close frame: `0x88`, the length
`2 + n` of the payload (`n` the number of UTF-8 bytes of the reason `Error(c)`,
so at most 125), the code as two big-endian bytes, and the reason. -/
theorem C20_close_frame_bytes (fuel : Nat) (wc : WsConn) (c : Nat) (hfuel : 3 ≤ fuel)
    (hc : c ∈ [1000, 1001, 1002, 1003, 1006, 1007, 1009]) (hs : wc.IsServer = true)
    (hr : wc.released = false) (hb : wc.wrBudget = none) :
    close fuel wc c =
      (none, { wc with
        wire := wc.wire ++ ([0x88, 2 + (stringBytes (Error c)).length, c / 256, c % 256]
                  ++ stringBytes (Error c)),
        State := Closed, released := true }) ∧
    2 + (stringBytes (Error c)).length ≤ 125 ∧
    beValue [c / 256, c % 256] = c := by
  obtain ⟨k, rfl⟩ : ∃ k, fuel = k + 3 := ⟨fuel - 3, by omega⟩
  have hl := Error_length c
  have hc2 : c < 65536 := by
    simp only [List.mem_cons, List.mem_singleton, List.not_mem_nil, or_false] at hc
    omega
  refine ⟨close_server k wc c hc2 hs hr hb, by omega, ?_⟩
  simp only [beValue, List.foldl_cons, List.foldl_nil]
  omega

/-- The witness of C20: the close frame of code 1000. -/
theorem C20_close_frame_bytes_witness :
    close 3 (newConn true [] []) 1000 =
      (none, { newConn true [] [] with
        wire := [] ++ ([0x88, 2 + (stringBytes (Error 1000)).length, 1000 / 256, 1000 % 256]
                  ++ stringBytes (Error 1000)),
        State := Closed, released := true }) :=
  (C20_close_frame_bytes 3 (newConn true [] []) 1000 (by decide) (by decide) rfl rfl rfl).1

theorem sendFrames_ok (fuel : Nat) (frames : List Frame) (wc : WsConn)
    (hc : ∀ f ∈ frames, CheckFrameWithoutPayload f = none) (hr : wc.released = false)
    (hb : wc.wrBudget = none) :
    sendFrames (fuel + 1) wc frames =
      (none, { wc with wire := wc.wire ++ frames.flatMap FrameToBytes }) := by
  induction frames generalizing wc with
  | nil => simp [sendFrames]
  | cons f fs ih =>
    have h2 := ih { wc with wire := wc.wire ++ FrameToBytes f }
      (fun g hg => hc g (List.mem_cons_of_mem _ hg)) hr hb
    rw [sendFrames, sendFrame_ok _ _ _ (hc f (List.mem_cons_self _ _)), write_ok _ _ hr hb]
    simp only
    rw [h2]
    simp [List.flatMap_cons, List.append_assoc]

theorem check_fragFrame (data : List Nat) (op : Nat) (hop : op ≤ 15) (i : Nat)
    (hi : i < (data.length + (shardSize - 1)) / shardSize) :
    CheckFrameWithoutPayload
      (fragFrame data op ((data.length + (shardSize - 1)) / shardSize) i) = none := by
  have hS : shardSize = 65535 := rfl
  unfold fragFrame
  have hlt : i * 65535 < data.length := by
    rw [hS] at hi
    omega
  apply check_plainFrame
  · split_ifs <;> omega
  · split_ifs <;> omega
  · rw [List.length_take, List.length_drop, hS]
    omega
  · rw [List.length_take, List.length_drop, hS]
    omega

theorem sentFrames_check (data : List Nat) (op : Nat) (hop : op ≤ 15) (h0 : 0 < data.length)
    (hlen : data.length < 2 ^ 64) :
    ∀ f ∈ sentFrames data op, CheckFrameWithoutPayload f = none := by
  intro f hf
  unfold sentFrames at hf
  by_cases hs : data.length ≤ shardSize
  · rw [if_pos hs] at hf
    simp only [List.mem_singleton] at hf
    rw [hf]
    exact check_plainFrame 1 op data (by decide) hop h0 hlen
  · rw [if_neg hs] at hf
    simp only [List.mem_map, List.mem_range] at hf
    obtain ⟨i, hi, rfl⟩ := hf
    exact check_fragFrame data op hop i hi

theorem sentFrames_payloads (data : List Nat) (op : Nat) :
    ((sentFrames data op).map Frame.Payload).flatten = data := by
  have hS : shardSize = 65535 := rfl
  unfold sentFrames
  by_cases hs : data.length ≤ shardSize
  · rw [if_pos hs]
    simp [plainFrame_Payload]
  · rw [if_neg hs, List.map_map]
    have e : (Frame.Payload ∘ fragFrame data op ((data.length + (shardSize - 1)) / shardSize)) =
        (fun i => (data.drop (i * shardSize)).take shardSize) := by
      funext i
      simp [fragFrame, plainFrame_Payload]
    rw [e, flatten_shards]
    apply List.take_of_length_le
    rw [hS]
    omega

/-- C16 (amended): the critical size is `1024 * 1000 * 2` = 2,048,000 bytes.
A message longer than that is not sent: `sendDataFrame` does what
`CloseTooBigData` does. On a server-role connection whose writer accepts the
bytes, a message of 1 to 2,048,000 bytes is sent: its frames are written,
their payloads join to the message, no error is returned and the state is
kept. -/
theorem C16_critical_size (fuel : Nat) (wc : WsConn) (data : List Nat) (op : Nat)
    (hfuel : 3 ≤ fuel) (hop : op = TextFrame ∨ op = BinaryFrame) (hs : wc.IsServer = true)
    (hr : wc.released = false) (hb : wc.wrBudget = none) :
    SendCriticalSize = 2048000 ∧
    (2048000 < data.length →
      sendDataFrame fuel wc data op = wc.CloseTooBigData fuel ∧
      sendDataFrame fuel wc data op =
        (none, { wc with
          wire := wc.wire ++ ([0x88, 2 + (stringBytes (Error CloseTooBigData)).length, 0x03, 0xF1]
                    ++ stringBytes (Error CloseTooBigData)),
          State := Closed, released := true })) ∧
    (0 < data.length → data.length ≤ 2048000 →
      sendDataFrame fuel wc data op =
        (none, { wc with wire := wc.wire ++ (sentFrames data op).flatMap FrameToBytes }) ∧
      ((sentFrames data op).map Frame.Payload).flatten = data) := by
  obtain ⟨k, rfl⟩ : ∃ k, fuel = k + 3 := ⟨fuel - 3, by omega⟩
  have hC : SendCriticalSize = 2048000 := rfl
  have hS : shardSize = 65535 := rfl
  have hop15 : op ≤ 15 := by
    rcases hop with h | h <;> rw [h] <;> decide
  have hopm : op % 65536 = op := by omega
  have hop0 : ¬ op = ContinuationFrame := by
    rcases hop with h | h <;> rw [h] <;> decide
  refine ⟨hC, ?_, ?_⟩
  · intro hbig
    have h1 := sendDataFrame_tooBig (k + 3) wc data op hop (by rw [hC]; exact hbig)
    refine ⟨h1, ?_⟩
    rw [h1, WsConn.CloseTooBigData, close_server k wc _ (by decide) hs hr hb]
    rfl
  · intro h0 hle
    refine ⟨?_, sentFrames_payloads data op⟩
    have hchk := sentFrames_check data op hop15 h0 (by omega)
    obtain ⟨rd, wire, bud, rel, rand, st, srv, cl⟩ := wc
    simp only at hs hr hb
    subst hs hr hb
    have hsend := sendFrames_ok (k + 2) (sentFrames data op)
      ⟨rd, wire, none, false, rand, st, true, cl⟩ hchk rfl rfl
    unfold sendDataFrame
    have c1 : (!decide (op = TextFrame ∨ op = BinaryFrame)) = false := by simp [hop]
    rw [c1]
    simp only [Bool.false_eq_true, if_false]
    rw [if_neg (by omega)]
    by_cases hsm : data.length ≤ shardSize
    · rw [if_neg (by omega), constructDataFrame_noMask, if_neg hop0, hopm]
      simp only
      have e : sentFrames data op = [plainFrame 1 op data] := by
        unfold sentFrames
        rw [if_pos hsm]
      have hcp := check_plainFrame 1 op data (by decide) hop15 h0 (by omega)
      rw [sendFrame_ok _ _ _ hcp, write_ok _ _ rfl rfl, e]
      simp
    · rw [if_pos (by omega), fragmentDataFrames_noMask _ _ _ (by omega), hopm]
      simp only
      have e : sentFrames data op =
          (List.range ((data.length + (shardSize - 1)) / shardSize)).map
            (fragFrame data op ((data.length + (shardSize - 1)) / shardSize)) := by
        unfold sentFrames
        rw [if_neg hsm]
      rw [← e]
      exact hsend

/-- The witness of C16: the text "hi" on a fresh server-role connection. -/
theorem C16_critical_size_witness :
    sendDataFrame 3 (newConn true [] []) [0x68, 0x69] TextFrame =
      (none, { newConn true [] [] with
        wire := [] ++ (sentFrames [0x68, 0x69] TextFrame).flatMap FrameToBytes }) :=
  ((C16_critical_size 3 (newConn true [] []) [0x68, 0x69] TextFrame (by decide) (Or.inl rfl)
    rfl rfl rfl).2.2 (by decide) (by decide)).1

/-- C16 as stated fails: a binary message of exactly 2 MiB (2,097,152 bytes)
on a fresh server-role connection is not sent. The only frame written is
the close frame of code 1009, and the connection is `Closed`. -/
theorem C16_counterexample :
    SendCriticalSize = 2048000 ∧
    (List.replicate 2097152 0x61).length = 2097152 ∧
    sendDataFrame 3 (newConn true [] []) (List.replicate 2097152 0x61) BinaryFrame =
      (none, { newConn true [] [] with
        wire := [0x88, 29, 0x03, 0xF1] ++ stringBytes "消息太大，关闭连接",
        State := Closed, released := true }) := by
  have hbig : SendCriticalSize < (List.replicate 2097152 0x61).length := by
    rw [List.length_replicate]
    decide
  refine ⟨rfl, List.length_replicate _ _, ?_⟩
  rw [sendDataFrame_tooBig _ _ _ _ (Or.inr rfl) hbig, WsConn.CloseTooBigData,
    close_server 0 _ _ (by decide) rfl rfl rfl]
  decide

/-! ## The lifecycle state and the closed stream -/

/-- C17 fails on the code: `CloseRight` on a fresh connection ends in `Closed`.
A second `CloseRight` sets the state to `Closing` before it sends, the send
fails on the closed stream, and `close` returns at once: the connection has
left `Closed` and stays in `Closing`. -/
theorem C17_closed_falls_back_to_closing :
    ((newConn true [] []).CloseRight 3).1 = none ∧
    ((newConn true [] []).CloseRight 3).2.State = Closed ∧
    ((((newConn true [] []).CloseRight 3).2).CloseRight 3).1 = some Err.errWrite ∧
    ((((newConn true [] []).CloseRight 3).2).CloseRight 3).2.State = Closing ∧
    Closing < Closed := by
  decide

/-- C19 fails on the code: on a connection whose stream accepts no more bytes
(`wrBudget = some 0`), `close(wc, 1000)` cannot send the close frame and
returns the write error at once: the state stays `Closing` and the stream
is not closed. -/
theorem C19_failed_close_stays_closing :
    close 3 { newConn true [] [] with wrBudget := some 0 } CloseRight =
      (some Err.errWrite, { newConn true [] [] with wrBudget := some 0, State := Closing }) ∧
    (close 3 { newConn true [] [] with wrBudget := some 0 } CloseRight).2.State ≠ Closed ∧
    (close 3 { newConn true [] [] with wrBudget := some 0 } CloseRight).2.released = false := by
  decide

theorem write_released (wc : WsConn) (bytes : List Nat) (hr : wc.released = true) :
    write wc bytes = (some Err.errWrite, wc) := by
  unfold write
  simp [hr]

/-- On a closed stream a control frame with a payload is not sent. -/
theorem sendControlFrame_released (fuel : Nat) (wc : WsConn) (mt : Nat) (p : List Nat)
    (hmt : mt ≤ 15) (hp : 0 < p.length) (hp2 : p.length < 2 ^ 64) (hr : wc.released = true) :
    sendControlFrame (fuel + 2) wc mt p =
      (some Err.errWrite,
        { wc with rand := (constructControlFrame wc.rand mt wc.IsServer p).2 }) := by
  rw [sendControlFrame]
  simp only
  rw [sendFrame_ok _ _ _ (check_construct _ _ _ _ hmt hp hp2)]
  exact write_released _ _ hr

theorem close_released (fuel : Nat) (wc : WsConn) (code : Nat) (hr : wc.released = true) :
    close (fuel + 3) wc code =
      (some Err.errWrite, { wc with
        rand := (constructControlFrame wc.rand ConnectionCloseFrame wc.IsServer
                  (PutUint16 (code % 65536) ++ stringBytes (Error code))).2,
        State := Closing }) := by
  have hl := Error_length code
  have h := sendControlFrame_released fuel { wc with State := Closing } ConnectionCloseFrame
    (PutUint16 (code % 65536) ++ stringBytes (Error code)) (by decide) (by simp [PutUint16])
    (by simp only [List.length_append, PutUint16, List.length_cons, List.length_nil]; omega) hr
  rw [close, h]

/-- On a closed stream no frame is sent, whatever the frame. -/
theorem sendFrame_released (fuel : Nat) (wc : WsConn) (frame : Frame) (hr : wc.released = true) :
    (sendFrame (fuel + 4) wc frame).1 = some Err.errWrite ∧
    (sendFrame (fuel + 4) wc frame).2.wire = wc.wire ∧
    (sendFrame (fuel + 4) wc frame).2.released = true := by
  rw [sendFrame]
  cases hc : CheckFrameWithoutPayload frame with
  | none =>
    simp only
    rw [write_released _ _ hr]
    exact ⟨rfl, rfl, hr⟩
  | some e =>
    simp only
    rw [close_released fuel wc _ hr]
    exact ⟨rfl, rfl, hr⟩

theorem fragment_loop_length (data : List Nat) (noMask : Bool) (l : List Nat)
    (acc : List Frame × List Nat) :
    (l.foldl
      (fun (acc : List Frame × List Nat) i =>
        let start := (i - 1) * shardSize
        let stop := i * shardSize
        let (frame, rand) :=
          constructDataFrame acc.2 ((data.take stop).drop start) noMask ContinuationFrame
        (acc.1 ++ [frame], rand))
      acc).1.length = acc.1.length + l.length := by
  induction l generalizing acc with
  | nil => simp
  | cons i l ih =>
    rw [List.foldl_cons, ih]
    simp only [List.length_append, List.length_cons, List.length_nil]
    omega

theorem modify_frames_cons (frames : List Frame) (op : Nat) (h : 1 ≤ frames.length) :
    ∃ f fs, List.modify (fun f => { f with Fin := 1 })
        ((List.modify (fun f => { f with OpCode := op % 65536 }) 0 frames).length - 1)
        (List.modify (fun f => { f with OpCode := op % 65536 }) 0 frames) = f :: fs := by
  cases hM : List.modify (fun f => { f with Fin := 1 })
      ((List.modify (fun f => { f with OpCode := op % 65536 }) 0 frames).length - 1)
      (List.modify (fun f => { f with OpCode := op % 65536 }) 0 frames) with
  | nil =>
    have h2 := congrArg List.length hM
    simp only [List.length_modify, List.length_nil] at h2
    omega
  | cons f fs => exact ⟨f, fs, rfl⟩

theorem modify_frames_some (frames : List Frame) (r : List Nat) (op : Nat)
    (h : 1 ≤ frames.length) :
    ∃ f fs r2, (if frames.length = 0 then none
      else some (List.modify (fun f => { f with Fin := 1 })
        ((List.modify (fun f => { f with OpCode := op % 65536 }) 0 frames).length - 1)
        (List.modify (fun f => { f with OpCode := op % 65536 }) 0 frames), r)) =
      some (f :: fs, r2) := by
  obtain ⟨f, fs, hM⟩ := modify_frames_cons frames op h
  exact ⟨f, fs, r, by rw [if_neg (by omega), hM]⟩

/-- For a payload of more than `shardSize` bytes `fragmentDataFrames` does not
panic and gives at least one frame, in either role. -/
theorem fragmentDataFrames_nonempty (rand data : List Nat) (noMask : Bool) (op : Nat)
    (h : shardSize < data.length) :
    ∃ f fs r, fragmentDataFrames rand data noMask op = some (f :: fs, r) := by
  have hn : 1 ≤ data.length / shardSize := Nat.div_pos (Nat.le_of_lt h) (by decide)
  have hloop := fragment_loop_length data noMask (List.range' 1 (data.length / shardSize))
    ([], rand)
  simp only [List.length_nil, List.length_range', Nat.zero_add] at hloop
  unfold fragmentDataFrames
  simp only
  split
  · refine modify_frames_some _ _ op ?_
    simp only [List.length_append, List.length_cons, List.length_nil]
    omega
  · refine modify_frames_some _ _ op ?_
    rw [hloop]
    exact hn

theorem sendFrames_released (fuel : Nat) (wc : WsConn) (f : Frame) (fs : List Frame)
    (hr : wc.released = true) :
    (sendFrames (fuel + 4) wc (f :: fs)).1 = some Err.errWrite ∧
    (sendFrames (fuel + 4) wc (f :: fs)).2.wire = wc.wire := by
  obtain ⟨h1, h2, _⟩ := sendFrame_released fuel wc f hr
  rw [sendFrames]
  rcases hres : sendFrame (fuel + 4) wc f with ⟨e, wc2⟩
  rw [hres] at h1 h2
  simp only at h1 h2
  subst h1
  exact ⟨rfl, h2⟩

theorem sendDataFrame_released (fuel : Nat) (wc : WsConn) (data : List Nat) (op : Nat)
    (hop : op = TextFrame ∨ op = BinaryFrame) (hr : wc.released = true) :
    (sendDataFrame (fuel + 4) wc data op).1 = some Err.errWrite ∧
    (sendDataFrame (fuel + 4) wc data op).2.wire = wc.wire := by
  unfold sendDataFrame
  have c1 : (!decide (op = TextFrame ∨ op = BinaryFrame)) = false := by simp [hop]
  rw [c1]
  simp only [Bool.false_eq_true, if_false]
  by_cases hbig : data.length > SendCriticalSize
  · rw [if_pos hbig, WsConn.CloseTooBigData, close_released (fuel + 1) wc _ hr]
    exact ⟨rfl, rfl⟩
  · rw [if_neg hbig]
    by_cases hsh : data.length > shardSize
    · rw [if_pos hsh]
      obtain ⟨f, fs, r, hfr⟩ := fragmentDataFrames_nonempty wc.rand data wc.IsServer op hsh
      rw [hfr]
      exact sendFrames_released fuel { wc with rand := r } f fs hr
    · rw [if_neg hsh]
      obtain ⟨h1, h2, _⟩ := sendFrame_released fuel
        { wc with rand := (constructDataFrame wc.rand data wc.IsServer op).2 }
        (constructDataFrame wc.rand data wc.IsServer op).1 hr
      exact ⟨h1, h2⟩

theorem sendControlFrame_released_any (fuel : Nat) (wc : WsConn) (mt : Nat) (p : List Nat)
    (hr : wc.released = true) :
    (sendControlFrame (fuel + 5) wc mt p).1 = some Err.errWrite ∧
    (sendControlFrame (fuel + 5) wc mt p).2.wire = wc.wire := by
  rw [sendControlFrame]
  obtain ⟨h1, h2, _⟩ := sendFrame_released fuel
    { wc with rand := (constructControlFrame wc.rand mt wc.IsServer p).2 }
    (constructControlFrame wc.rand mt wc.IsServer p).1 hr
  exact ⟨h1, h2⟩

/-- C18 (amended): the state is not tested by any operation; what stops a
closed connection is its closed stream. For every connection in state
`Closed` whose stream has been closed, as `close` leaves it, each of
`SendMessage`, `SendBinary`, `Ping` and `Pong` fails with the write error of
the stream, and no byte reaches the wire. -/
theorem C18_closed_stream_fails (fuel : Nat) (wc : WsConn) (text r pingPayload : List Nat)
    (hfuel : 5 ≤ fuel) (hstate : wc.State = Closed) (hrel : wc.released = true) :
    ((wc.SendMessage fuel text).1 = some Err.errWrite ∧
      (wc.SendMessage fuel text).2.wire = wc.wire) ∧
    ((wc.SendBinary fuel r).1 = some Err.errWrite ∧ (wc.SendBinary fuel r).2.wire = wc.wire) ∧
    ((wc.Ping fuel).1 = some Err.errWrite ∧ (wc.Ping fuel).2.wire = wc.wire) ∧
    ((wc.Pong fuel pingPayload).1 = some Err.errWrite ∧
      (wc.Pong fuel pingPayload).2.wire = wc.wire) := by
  obtain ⟨k, rfl⟩ : ∃ k, fuel = k + 5 := ⟨fuel - 5, by omega⟩
  refine ⟨?_, ?_, ?_, ?_⟩
  · exact sendDataFrame_released (k + 1) wc text TextFrame (Or.inl rfl) hrel
  · exact sendDataFrame_released (k + 1) wc r BinaryFrame (Or.inr rfl) hrel
  · exact sendControlFrame_released_any k wc PingFrame _ hrel
  · exact sendControlFrame_released_any k wc PongFrame _ hrel

/-- The witness of C18: the connection that a successful `CloseRight` leaves. -/
theorem C18_closed_stream_fails_witness :
    ((((newConn true [] []).CloseRight 5).2).SendMessage 5 [0x68, 0x69]).1 = some Err.errWrite :=
  (C18_closed_stream_fails 5 ((newConn true [] []).CloseRight 5).2 [0x68, 0x69] [] [] (by decide)
    (by decide) (by decide)).1.1

/-- C18 as stated fails: a server-role connection whose state is `Closed`
and whose stream is still open sends the text "hi" as `81 02 68 69` and a
ping as `89 04 70 69 6E 67`, both with no error. -/
theorem C18_counterexample :
    ({ newConn true [] [] with State := Closed } : WsConn).State = Closed ∧
    ({ newConn true [] [] with State := Closed } : WsConn).SendMessage 5 [0x68, 0x69] =
      (none, { newConn true [] [] with State := Closed, wire := [0x81, 0x02, 0x68, 0x69] }) ∧
    ({ newConn true [] [] with State := Closed } : WsConn).Ping 5 =
      (none, { newConn true [] [] with
        State := Closed, wire := [0x89, 0x04, 0x70, 0x69, 0x6E, 0x67] }) := by
  decide

/-! ## The frame on the wire, read back before the switch on the opcode -/

/-- The first part of `readFrame` followed by the switch on the opcode is
`readFrame`. -/
theorem readFrame_eq_switch (fuel : Nat) (wc : WsConn) :
    readFrame fuel wc =
      match readFrameBeforeSwitch fuel wc with
      | (some f, none, wc2) =>
        (some (handleOpCode fuel wc2 f).1, (handleOpCode fuel wc2 f).2.1,
          (handleOpCode fuel wc2 f).2.2)
      | r => r := by
  unfold readFrame readFrameBeforeSwitch
  generalize read wc 2 = r1
  obtain ⟨p, _ | e1, wc1⟩ := r1
  swap
  · rfl
  simp only
  generalize readExtendLen wc1 (ParseToFrameHeader p) = r2
  obtain ⟨f2, n2, _ | e2, wc2⟩ := r2
  swap
  · rfl
  simp only
  generalize readMaskingKey wc2 f2 = r3
  obtain ⟨f3, _ | e3, wc3⟩ := r3
  swap
  · rfl
  simp only
  generalize CheckFrameWithoutPayload f3 = r4
  obtain _ | e4 := r4
  swap
  · simp only
    generalize WsConn.CloseWrongProtocol fuel wc3 = r5
    obtain ⟨_ | e5, wc5⟩ := r5 <;> rfl
  simp only
  generalize readPayload wc3 n2 = r6
  obtain ⟨q, _ | e6, wc6⟩ := r6
  swap
  · rfl
  rfl

theorem readFrameBeforeSwitch_wf (fuel : Nat) (wc : WsConn) (F : Frame) (h : WellFormed F)
    (rest : List Nat) (hrd : wc.rd = FrameToBytes F ++ rest) :
    readFrameBeforeSwitch fuel wc = (some F, none, { wc with rd := rest }) := by
  rw [FrameToBytes_eq] at hrd
  simp only [List.append_assoc] at hrd
  have hl : F.PayloadLen ≤ 127 := by
    rcases wf_cases F h with ⟨a, b, c, d⟩ | ⟨a, a2, b, c, d⟩ | ⟨a, b, c, d⟩ <;> omega
  unfold readFrameBeforeSwitch
  rw [read_append wc _ _ 2 hrd (by simp [PutUint16])]
  simp only
  rw [ParseToFrameHeader_header F h.fin h.rsv1 h.rsv2 h.rsv3 h.op h.mask hl]
  rw [readExtendLen_wf _ F h [] _ rfl]
  simp only
  rw [readMaskingKey_wf _ F h [] _ rfl]
  simp only
  rw [check_wf F h []]
  simp only
  rw [readPayload_ok _ F.Payload rest rfl h.size]

/-- C25: a frame that is well formed for the wire and has a payload is read
back as itself by the part of `readFrame` before the switch on the opcode:
the bytes `FrameToBytes F` are consumed, no more and no fewer, the frame
returned is `F` in every field (its payload as it is on the wire, not
unmasked), and there is no error. The switch of `readFrame` then runs on `F`.
The key is a 32-bit value and the payload fits a slice, as their Go types
say. -/
theorem C25_wire_roundtrip (fuel : Nat) (wc : WsConn) (F : Frame) (rest : List Nat)
    (hfin : F.Fin ≤ 1) (hr1 : F.RSV1 ≤ 1) (hr2 : F.RSV2 ≤ 1) (hr3 : F.RSV3 ≤ 1)
    (hop : F.OpCode ≤ 15) (hmask : F.Mask ≤ 1) (hkey : F.MaskingKey < 2 ^ 32)
    (hkey0 : F.Mask = 0 → F.MaskingKey = 0) (hcalc : F.CalcPayloadLen = F)
    (hne : 0 < F.Payload.length) (hsize : F.Payload.length ≤ maxAlloc)
    (hrd : wc.rd = FrameToBytes F ++ rest) :
    readFrameBeforeSwitch fuel wc = (some F, none, { wc with rd := rest }) ∧
      wc.rd.length = (FrameToBytes F).length + (readFrameBeforeSwitch fuel wc).2.2.rd.length ∧
      readFrame fuel wc =
        (some (handleOpCode fuel { wc with rd := rest } F).1,
          (handleOpCode fuel { wc with rd := rest } F).2.1,
          (handleOpCode fuel { wc with rd := rest } F).2.2) := by
  have hwf : WellFormed F :=
    { fin := hfin, rsv1 := hr1, rsv2 := hr2, rsv3 := hr3, op := hop, mask := hmask, key := hkey,
      key0 := hkey0, len := hcalc, nonempty := hne, size := hsize }
  have h1 := readFrameBeforeSwitch_wf fuel wc F hwf rest hrd
  refine ⟨h1, ?_, readFrame_wf fuel wc F hwf rest hrd⟩
  rw [h1, hrd, List.length_append]

/-- The witness of C25: a masked ping fragment with the first reserved bit set
and three bytes of payload, followed by two other bytes, on a client-role
connection. -/
theorem C25_wire_roundtrip_witness :
    FrameToBytes ⟨0, 1, 0, 0, 9, 1, 3, 0, 0, 0xA1B2C3D4, [7, 8, 9]⟩ =
        [0x49, 0x83, 0xA1, 0xB2, 0xC3, 0xD4, 7, 8, 9] ∧
      readFrameBeforeSwitch 3 (newConn false [0x49, 0x83, 0xA1, 0xB2, 0xC3, 0xD4, 7, 8, 9, 0x81, 0x00] [])
        = (some ⟨0, 1, 0, 0, 9, 1, 3, 0, 0, 0xA1B2C3D4, [7, 8, 9]⟩, none,
            newConn false [0x81, 0x00] []) :=
  ⟨by decide,
    (C25_wire_roundtrip 3 (newConn false [0x49, 0x83, 0xA1, 0xB2, 0xC3, 0xD4, 7, 8, 9, 0x81, 0x00] [])
      ⟨0, 1, 0, 0, 9, 1, 3, 0, 0, 0xA1B2C3D4, [7, 8, 9]⟩ [0x81, 0x00] (by decide) (by decide)
      (by decide) (by decide) (by decide) (by decide) (by decide) (by decide) (by decide)
      (by decide) (by decide) (by decide)).1⟩

/-! ## The handshake -/

theorem stringBytes_append (a b : String) :
    stringBytes (a ++ b) = stringBytes a ++ stringBytes b := by
  simp [stringBytes, List.flatMap_append]

theorem utf8EncodeNat_ne_nil (c : Nat) : utf8EncodeNat c ≠ [] := by
  unfold utf8EncodeNat
  split_ifs <;> simp

/-- The empty string is the only string of no bytes. -/
theorem strLen_eq_zero (s : String) : strLen s = 0 ↔ s = "" := by
  obtain ⟨l⟩ := s
  cases l with
  | nil => simp [strLen, stringBytes]
  | cons c cs =>
    have h := utf8EncodeNat_ne_nil c.toNat
    simp [strLen, stringBytes, h, String.ext_iff]

/-- A string of characters below 128 has as many bytes as characters. -/
theorem strLen_ascii (s : String) (h : ∀ c ∈ s.toList, c.toNat < 128) :
    strLen s = s.length := by
  obtain ⟨l⟩ := s
  simp only [strLen, stringBytes, String.toList, String.length] at *
  induction l with
  | nil => rfl
  | cons c cs ih =>
    have hc : c.toNat < 128 := h c (List.mem_cons_self _ _)
    have ih2 := ih (fun d hd => h d (List.mem_cons_of_mem _ hd))
    simp only [List.map_cons, List.flatMap_cons, List.length_append, List.length_cons, ih2]
    simp only [utf8EncodeNat, hc, if_true, List.length_singleton]
    omega

/-- What `UpGrade` does with a request, by the outcome of each check. -/
theorem UpGrade_status (fuel : Nat) (ug : upGrader) (r : Request) (w : ResponseWriter)
    (rand : List Nat) (elapsed : Int) :
    (upGrader.UpGrade fuel ug r w rand elapsed).status =
      (firstFailure ug r).orElse
        (fun _ => if w.hijacker = true ∧ w.Hijack ≠ none then none else some 500) := by
  unfold firstFailure handshakeChecks upGrader.UpGrade
  cases h1 : IsWsHeader r.Header "Connection" "Upgrade"
  · rfl
  cases h2 : IsWsHeader r.Header "Upgrade" "websocket"
  · rfl
  cases h3 : (r.Method == "GET")
  · have : (r.Method != MethodGet) = true := by simp [bne, MethodGet, h3]
    simp [this, upGrader.Error, StatusMethodNotAllowed]
  have h3b : (r.Method != MethodGet) = false := by simp [bne, MethodGet, h3]
  cases h4 : IsWsHeader r.Header "Sec-Websocket-Version" "13"
  · simp [h3b, upGrader.Error, StatusUpgradeRequired]
  cases h5 : ug.CheckOrigin r
  · simp [h3b, upGrader.Error, StatusForbidden]
  cases h6 : IsSWK (r.Header.Get "Sec-WebSocket-Key")
  · simp [h3b, h6, upGrader.Error, StatusBadRequest]
  cases h7 : w.hijacker
  · simp [h3b, h6, upGrader.Error, StatusInternalServerError]
  cases h8 : w.Hijack with
  | none => simp [h3b, h6, upGrader.Error, StatusInternalServerError]
  | some netConn =>
    refine Eq.trans (b := none) ?_ (by simp)
    simp only [h3b, h6, Bool.not_true, Bool.false_eq_true, if_false]
    generalize netConn.flush _ = fl
    obtain ⟨_ | e, c2⟩ := fl
    · simp only
      split_ifs
      · generalize WsConn.CloseAbnormal fuel _ = cl
        obtain ⟨e2, c3⟩ := cl
        rfl
      · rfl
    · rfl

/-- Whenever `OnError` is called, `UpGrade` returns no connection and an error. -/
theorem UpGrade_no_conn (fuel : Nat) (ug : upGrader) (r : Request) (w : ResponseWriter)
    (rand : List Nat) (elapsed : Int)
    (h : (upGrader.UpGrade fuel ug r w rand elapsed).status ≠ none) :
    (upGrader.UpGrade fuel ug r w rand elapsed).conn = none ∧
      (upGrader.UpGrade fuel ug r w rand elapsed).err ≠ none := by
  unfold upGrader.UpGrade at h ⊢
  have hE : ∀ s m, (upGrader.Error s m).conn = none ∧ (upGrader.Error s m).err ≠ none :=
    fun s m => ⟨rfl, by simp [upGrader.Error]⟩
  cases h1 : IsWsHeader r.Header "Connection" "Upgrade"
  · simp only [h1, Bool.not_false, ↓reduceIte]
    exact hE _ _
  cases h2 : IsWsHeader r.Header "Upgrade" "websocket"
  · simp only [h1, h2, Bool.not_false, Bool.not_true, Bool.false_eq_true, ↓reduceIte]
    exact hE _ _
  cases h3 : (r.Method != MethodGet)
  swap
  · simp only [h1, h2, h3, Bool.not_true, Bool.false_eq_true, ↓reduceIte]
    exact hE _ _
  cases h4 : IsWsHeader r.Header "Sec-Websocket-Version" "13"
  · simp only [h1, h2, h3, h4, Bool.not_false, Bool.not_true, Bool.false_eq_true, ↓reduceIte]
    exact hE _ _
  cases h5 : ug.CheckOrigin r
  · simp only [h1, h2, h3, h4, h5, Bool.not_false, Bool.not_true, Bool.false_eq_true, ↓reduceIte]
    exact hE _ _
  cases h6 : IsSWK (r.Header.Get "Sec-WebSocket-Key")
  · simp only [h1, h2, h3, h4, h5, h6, Bool.not_false, Bool.not_true, Bool.false_eq_true,
      ↓reduceIte]
    exact hE _ _
  cases h7 : w.hijacker
  · simp only [h1, h2, h3, h4, h5, h6, h7, Bool.not_false, Bool.not_true, Bool.false_eq_true,
      ↓reduceIte]
    exact hE _ _
  simp only [h1, h2, h3, h4, h5, h6, h7, Bool.not_true, Bool.false_eq_true, ↓reduceIte] at h ⊢
  cases h8 : w.Hijack with
  | none => exact hE _ _
  | some netConn =>
    exfalso
    apply h
    rw [h8]
    simp only
    generalize netConn.flush _ = fl
    obtain ⟨_ | e, c2⟩ := fl
    · simp only
      split_ifs
      · generalize WsConn.CloseAbnormal fuel _ = cl
        obtain ⟨e2, c3⟩ := cl
        rfl
      · rfl
    · rfl

/-- C21: `UpGrade` runs its checks in a fixed order (the `Connection` header,
the `Upgrade` header, the method, the version, the origin, the key) and
rejects at the first one that fails, with the status of that check and
without a connection: 400, 400, 405, 426, 403, 400. The status is that of the
first failing entry of the list of the specification; a request that passes
the first two checks and is not a `GET` gets 405, whatever else is wrong with
it. The length of the key is counted in bytes. -/
theorem C21_validation_order (fuel : Nat) (ug : upGrader) (r : Request) (w : ResponseWriter)
    (rand : List Nat) (elapsed : Int) :
    ((upGrader.UpGrade fuel ug r w rand elapsed).status =
      (firstFailure ug r).orElse
        (fun _ => if w.hijacker = true ∧ w.Hijack ≠ none then none else some 500)) ∧
    ((upGrader.UpGrade fuel ug r w rand elapsed).status ≠ none →
      (upGrader.UpGrade fuel ug r w rand elapsed).conn = none ∧
      (upGrader.UpGrade fuel ug r w rand elapsed).err ≠ none) ∧
    (IsWsHeader r.Header "Connection" "Upgrade" = false →
      (upGrader.UpGrade fuel ug r w rand elapsed).status = some 400) ∧
    (IsWsHeader r.Header "Connection" "Upgrade" = true →
      IsWsHeader r.Header "Upgrade" "websocket" = false →
      (upGrader.UpGrade fuel ug r w rand elapsed).status = some 400) ∧
    (IsWsHeader r.Header "Connection" "Upgrade" = true →
      IsWsHeader r.Header "Upgrade" "websocket" = true → r.Method ≠ "GET" →
      (upGrader.UpGrade fuel ug r w rand elapsed).status = some 405) ∧
    (IsWsHeader r.Header "Connection" "Upgrade" = true →
      IsWsHeader r.Header "Upgrade" "websocket" = true → r.Method = "GET" →
      IsWsHeader r.Header "Sec-Websocket-Version" "13" = false →
      (upGrader.UpGrade fuel ug r w rand elapsed).status = some 426) ∧
    (IsWsHeader r.Header "Connection" "Upgrade" = true →
      IsWsHeader r.Header "Upgrade" "websocket" = true → r.Method = "GET" →
      IsWsHeader r.Header "Sec-Websocket-Version" "13" = true → ug.CheckOrigin r = false →
      (upGrader.UpGrade fuel ug r w rand elapsed).status = some 403) ∧
    (IsWsHeader r.Header "Connection" "Upgrade" = true →
      IsWsHeader r.Header "Upgrade" "websocket" = true → r.Method = "GET" →
      IsWsHeader r.Header "Sec-Websocket-Version" "13" = true → ug.CheckOrigin r = true →
      strLen (r.Header.Get "Sec-WebSocket-Key") ≠ 24 →
      (upGrader.UpGrade fuel ug r w rand elapsed).status = some 400) := by
  have hS := UpGrade_status fuel ug r w rand elapsed
  refine ⟨hS, UpGrade_no_conn fuel ug r w rand elapsed, ?_, ?_, ?_, ?_, ?_, ?_⟩
  · intro h1
    rw [hS]
    simp [firstFailure, handshakeChecks, h1]
  · intro h1 h2
    rw [hS]
    simp [firstFailure, handshakeChecks, h1, h2]
  · intro h1 h2 h3
    rw [hS]
    simp [firstFailure, handshakeChecks, h1, h2, h3]
  · intro h1 h2 h3 h4
    rw [hS]
    simp [firstFailure, handshakeChecks, h1, h2, h3, h4]
  · intro h1 h2 h3 h4 h5
    rw [hS]
    simp [firstFailure, handshakeChecks, h1, h2, h3, h4, h5]
  · intro h1 h2 h3 h4 h5 h6
    rw [hS]
    simp [firstFailure, handshakeChecks, h1, h2, h3, h4, h5, IsSWK, h6]

/-- The witness of C21: a `POST` whose `Connection` and `Upgrade` headers are
right, which has neither a version nor a key, is rejected with 405 and gets no
connection. -/
theorem C21_validation_order_witness :
    (upGrader.UpGrade 3 DefaultUpGrader
        ⟨"POST", ⟨"", ""⟩, [("Connection", ["Upgrade"]), ("Upgrade", ["websocket"])],
          "example.com"⟩ ⟨true, some ⟨[], [], none, false⟩⟩ [] 0).status = some 405 ∧
      (upGrader.UpGrade 3 DefaultUpGrader
        ⟨"POST", ⟨"", ""⟩, [("Connection", ["Upgrade"]), ("Upgrade", ["websocket"])],
          "example.com"⟩ ⟨true, some ⟨[], [], none, false⟩⟩ [] 0).conn = none :=
  have h := C21_validation_order 3 DefaultUpGrader
    ⟨"POST", ⟨"", ""⟩, [("Connection", ["Upgrade"]), ("Upgrade", ["websocket"])],
      "example.com"⟩ ⟨true, some ⟨[], [], none, false⟩⟩ [] 0
  have h405 := h.2.2.2.2.1 (by decide) (by decide) (by decide)
  ⟨h405, (h.2.1 (by rw [h405]; exact Option.some_ne_none _)).1⟩

/-- `IsWsHeader` is membership of the expected value among the values stored
under the canonical key. -/
theorem IsWsHeader_iff (header : Header) (k v : String) :
    IsWsHeader header k v = true ↔ v ∈ header.values (CanonicalHeaderKey k) := by
  unfold IsWsHeader
  simp only [List.any_eq_true, beq_iff_eq]
  constructor
  · rintro ⟨x, hx, rfl⟩
    exact hx
  · intro h
    exact ⟨v, h, rfl⟩

/-- C22 (the code differs): `IsWsHeader` compares each whole value with the
expected one, byte for byte. It returns true exactly when one of the
`Connection` values is the string `Upgrade`; the values `keep-alive, Upgrade`
and `upgrade` do not pass, and a request that carries one of them and is
otherwise right is rejected with 400, where the same request with the value
`Upgrade` is accepted. -/
theorem C22_connection_value_compared_whole :
    (∀ header : Header,
      IsWsHeader header "Connection" "Upgrade" = true ↔
        "Upgrade" ∈ header.values "Connection") ∧
    IsWsHeader [("Connection", ["keep-alive, Upgrade"])] "Connection" "Upgrade" = false ∧
    IsWsHeader [("Connection", ["upgrade"])] "Connection" "Upgrade" = false ∧
    (upGrader.UpGrade 3 DefaultUpGrader
      ⟨"GET", ⟨"", ""⟩, [("Connection", ["keep-alive, Upgrade"]), ("Upgrade", ["websocket"]),
        ("Sec-Websocket-Version", ["13"]), ("Sec-Websocket-Key", ["dGhlIHNhbXBsZSBub25jZQ=="])],
        "example.com"⟩ ⟨true, some ⟨[], [], none, false⟩⟩ [] 0).status = some 400 ∧
    (upGrader.UpGrade 3 DefaultUpGrader
      ⟨"GET", ⟨"", ""⟩, [("Connection", ["upgrade"]), ("Upgrade", ["websocket"]),
        ("Sec-Websocket-Version", ["13"]), ("Sec-Websocket-Key", ["dGhlIHNhbXBsZSBub25jZQ=="])],
        "example.com"⟩ ⟨true, some ⟨[], [], none, false⟩⟩ [] 0).status = some 400 ∧
    (upGrader.UpGrade 3 DefaultUpGrader
      ⟨"GET", ⟨"", ""⟩, [("Connection", ["Upgrade"]), ("Upgrade", ["websocket"]),
        ("Sec-Websocket-Version", ["13"]), ("Sec-Websocket-Key", ["dGhlIHNhbXBsZSBub25jZQ=="])],
        "example.com"⟩ ⟨true, some ⟨[], [], none, false⟩⟩ [] 0).status = none := by
  refine ⟨fun header => ?_, by decide, by decide, by decide, by decide, by decide⟩
  rw [IsWsHeader_iff]
  have h : CanonicalHeaderKey "Connection" = "Connection" := by decide
  rw [h]

/-- SHA-1 of `abc`, the first example of FIPS 180. -/
theorem sha1Sum_abc :
    sha1Sum (stringBytes "abc") =
      [0xa9, 0x99, 0x3e, 0x36, 0x47, 0x06, 0x81, 0x6a, 0xba, 0x3e, 0x25, 0x71, 0x78, 0x50, 0xc2,
        0x6c, 0x9c, 0xd0, 0xd8, 0x9d] := by
  set_option maxRecDepth 100000 in decide

/-- SHA-1 of a message of 56 bytes, which takes two blocks: the second example
of FIPS 180. -/
theorem sha1Sum_two_blocks :
    sha1Sum (stringBytes "abcdbcdecdefdefgefghfghighijhijkijkljklmklmnlmnomnopnopq") =
      [0x84, 0x98, 0x3e, 0x44, 0x1c, 0x3b, 0xd2, 0x6e, 0xba, 0xae, 0x4a, 0xa1, 0xf9, 0x51, 0x29,
        0xe5, 0xe5, 0x46, 0x70, 0xf1] := by
  set_option maxRecDepth 100000 in decide

/-- The examples of RFC 4648 for base64. -/
theorem base64Encode_examples :
    base64Encode (stringBytes "") = "" ∧ base64Encode (stringBytes "f") = "Zg==" ∧
      base64Encode (stringBytes "fo") = "Zm8=" ∧ base64Encode (stringBytes "foo") = "Zm9v" ∧
      base64Encode (stringBytes "foobar") = "Zm9vYmFy" := by
  decide

theorem EncodeSWK_sample :
    EncodeSWK "dGhlIHNhbXBsZSBub25jZQ==" = "s3pPLMBiTxaQ9kYGzzhZRbK+xOo=" := by
  set_option maxRecDepth 100000 in decide

/-- C23: the accept token is the base64 encoding of the SHA-1 digest of the
key followed by the GUID of the protocol, for every key; for the key
`dGhlIHNhbXBsZSBub25jZQ==` it is `s3pPLMBiTxaQ9kYGzzhZRbK+xOo=`. -/
theorem C23_accept_token :
    (∀ key : String,
      EncodeSWK key =
        base64Encode (sha1Sum (stringBytes key ++
          stringBytes "258EAFA5-E914-47DA-95CA-C5AB0DC85B11"))) ∧
    EncodeSWK "dGhlIHNhbXBsZSBub25jZQ==" = "s3pPLMBiTxaQ9kYGzzhZRbK+xOo=" := by
  refine ⟨fun key => ?_, EncodeSWK_sample⟩
  rw [EncodeSWK, stringBytes_append]
  rfl

theorem defaultCheckOrigin_iff (Parse : URL → String → Option URL) (r : Request) :
    defaultCheckOrigin Parse r = true ↔
      (r.Header.Get "Origin" = "" ∨
        ∃ u, Parse r.URL (r.Header.Get "Origin") = some u ∧ u.Scheme = r.URL.Scheme ∧
          u.Host = r.Host) := by
  unfold defaultCheckOrigin
  simp only [beq_iff_eq, strLen_eq_zero]
  by_cases h0 : r.Header.Get "Origin" = ""
  · simp [h0]
  · simp only [h0, if_false, false_or]
    cases hp : Parse r.URL (r.Header.Get "Origin") with
    | none => simp
    | some u => simp

/-- C24 (amended): `DefaultUpGrader` accepts every origin, so that it never
rejects a request with 403. The comparison of the origin with the request is
the check of an upgrader built by `NewUpGrader` without a check of its own: it
accepts exactly when the `Origin` header is absent or empty, or parses to a
URL with the scheme of the request URL and the host of the request; such an
upgrader rejects with 403 an otherwise valid request whose origin has another
host. -/
theorem C24_origin_check (Parse : URL → String → Option URL) (t rb wb cl : Int) (fuel : Nat)
    (r : Request) (w : ResponseWriter) (rand : List Nat) (elapsed : Int) :
    DefaultUpGrader.CheckOrigin r = true ∧
    (upGrader.UpGrade fuel DefaultUpGrader r w rand elapsed).status ≠ some 403 ∧
    ((NewUpGrader Parse t rb wb none cl).CheckOrigin r = true ↔
      (r.Header.Get "Origin" = "" ∨
        ∃ u, Parse r.URL (r.Header.Get "Origin") = some u ∧ u.Scheme = r.URL.Scheme ∧
          u.Host = r.Host)) ∧
    (IsWsHeader r.Header "Connection" "Upgrade" = true →
      IsWsHeader r.Header "Upgrade" "websocket" = true → r.Method = "GET" →
      IsWsHeader r.Header "Sec-Websocket-Version" "13" = true →
      r.Header.Get "Origin" ≠ "" →
      (∀ u, Parse r.URL (r.Header.Get "Origin") = some u → u.Host ≠ r.Host) →
      (upGrader.UpGrade fuel (NewUpGrader Parse t rb wb none cl) r w rand elapsed).status =
          some 403 ∧
        (upGrader.UpGrade fuel (NewUpGrader Parse t rb wb none cl) r w rand elapsed).conn =
          none) := by
  have hN : (NewUpGrader Parse t rb wb none cl).CheckOrigin = defaultCheckOrigin Parse := rfl
  refine ⟨rfl, ?_, ?_, ?_⟩
  · rw [UpGrade_status]
    have hD : DefaultUpGrader.CheckOrigin r = true := rfl
    simp only [firstFailure, handshakeChecks, hD]
    cases IsWsHeader r.Header "Connection" "Upgrade" <;>
      cases IsWsHeader r.Header "Upgrade" "websocket" <;>
      cases (r.Method == "GET") <;>
      cases IsWsHeader r.Header "Sec-Websocket-Version" "13" <;>
      cases IsSWK (r.Header.Get "Sec-WebSocket-Key") <;>
      simp
  · rw [hN, defaultCheckOrigin_iff]
  · intro h1 h2 h3 h4 h5 h6
    have hF : (NewUpGrader Parse t rb wb none cl).CheckOrigin r = false := by
      rw [hN]
      cases hc : defaultCheckOrigin Parse r with
      | false => rfl
      | true =>
        rcases (defaultCheckOrigin_iff Parse r).1 hc with h | ⟨u, hu, _, hh⟩
        · exact absurd h h5
        · exact absurd hh (h6 u hu)
    have hS : (upGrader.UpGrade fuel (NewUpGrader Parse t rb wb none cl) r w rand elapsed).status
        = some 403 := by
      rw [UpGrade_status]
      simp [firstFailure, handshakeChecks, h1, h2, h3, h4, hF]
    exact ⟨hS, (UpGrade_no_conn fuel _ r w rand elapsed (by rw [hS]; exact Option.some_ne_none _)).1⟩

/-- The witness of C24: with an upgrader built by `NewUpGrader` without a
check of its own, a valid request to `good.example` whose origin parses to
the host `evil.example` is rejected with 403. -/
theorem C24_origin_check_witness :
    (upGrader.UpGrade 3
      (NewUpGrader (fun _ _ => some ⟨"http", "evil.example"⟩) 0 0 0 none 0)
      ⟨"GET", ⟨"", ""⟩, [("Connection", ["Upgrade"]), ("Upgrade", ["websocket"]),
        ("Sec-Websocket-Version", ["13"]), ("Sec-Websocket-Key", ["dGhlIHNhbXBsZSBub25jZQ=="]),
        ("Origin", ["http://evil.example"])], "good.example"⟩
      ⟨true, some ⟨[], [], none, false⟩⟩ [] 0).status = some 403 :=
  ((C24_origin_check (fun _ _ => some ⟨"http", "evil.example"⟩) 0 0 0 0 3
    ⟨"GET", ⟨"", ""⟩, [("Connection", ["Upgrade"]), ("Upgrade", ["websocket"]),
      ("Sec-Websocket-Version", ["13"]), ("Sec-Websocket-Key", ["dGhlIHNhbXBsZSBub25jZQ=="]),
      ("Origin", ["http://evil.example"])], "good.example"⟩
    ⟨true, some ⟨[], [], none, false⟩⟩ [] 0).2.2.2 (by decide) (by decide) (by decide)
    (by decide) (by decide)
    (fun u hu => by
      injection hu with hu
      subst hu
      decide)).1

/-- C24 as stated fails. A valid request to `good.example` that carries the
origin `http://evil.example` is upgraded by `DefaultUpGrader`: no status is
sent, and the connection is returned in state `Connected`. -/
theorem C24_counterexample :
    (upGrader.UpGrade 3 DefaultUpGrader
      ⟨"GET", ⟨"", ""⟩, [("Connection", ["Upgrade"]), ("Upgrade", ["websocket"]),
        ("Sec-Websocket-Version", ["13"]), ("Sec-Websocket-Key", ["dGhlIHNhbXBsZSBub25jZQ=="]),
        ("Origin", ["http://evil.example"])], "good.example"⟩
      ⟨true, some ⟨[], [], none, false⟩⟩ [] 0).status = none ∧
    ((upGrader.UpGrade 3 DefaultUpGrader
      ⟨"GET", ⟨"", ""⟩, [("Connection", ["Upgrade"]), ("Upgrade", ["websocket"]),
        ("Sec-Websocket-Version", ["13"]), ("Sec-Websocket-Key", ["dGhlIHNhbXBsZSBub25jZQ=="]),
        ("Origin", ["http://evil.example"])], "good.example"⟩
      ⟨true, some ⟨[], [], none, false⟩⟩ [] 0).conn.map WsConn.State) = some Connected ∧
    (upGrader.UpGrade 3 DefaultUpGrader
      ⟨"GET", ⟨"", ""⟩, [("Connection", ["Upgrade"]), ("Upgrade", ["websocket"]),
        ("Sec-Websocket-Version", ["13"]), ("Sec-Websocket-Key", ["dGhlIHNhbXBsZSBub25jZQ=="]),
        ("Origin", ["http://evil.example"])], "good.example"⟩
      ⟨true, some ⟨[], [], none, false⟩⟩ [] 0).err = none := by
  decide

end MiniWebsocket
